import Mathlib

/-!
FileWatcher: a shallow embedding of the watch-session engine.

The development embeds three parts of the repository:

* the poll-style (inotify) backend of `LinuxFileWatcher.cpp`: `SetupWatcher`,
  `WatcherThreadWork`, `ConstructReturnPath`;
* the record translator of the completion-style backend of `FileWatcher.cpp`
  (the `switch` over `event->Action` inside `WatcherThreadWork`);
* the callback contract used by `main.cpp`.

Operating-system answers (filesystem queries, `inotify_*`, `poll`, `read`) are
inputs of the model; calls made to the operating system and to the user callback
are recorded, in program order, in a trace.
-/

namespace FileWatcher

/-! ## Paths -/

/-- Model of `std::filesystem::path` in the generic (POSIX) format: an optional
root directory followed by the components of the relative part. A trailing
separator is an empty last component, as in the iteration of the C++ class
(`"a/"` is `["a", ""]`). -/
structure FsPath where
  rooted : Bool
  comps : List String
deriving DecidableEq, Repr

namespace FsPath

/-- The default-constructed path `std::filesystem::path{}`. -/
def emptyPath : FsPath := ⟨false, []⟩

/-- Member `path::empty()`. -/
def empty (p : FsPath) : Bool := !p.rooted && p.comps.isEmpty

/-- Conversion of a single file name (a `std::string` without separator, as the
kernel reports it) to a path. -/
def ofName (s : String) : FsPath := if s = "" then emptyPath else ⟨false, [s]⟩

/-- Member `path::filename()`: the last component of the relative part. -/
def filename (p : FsPath) : FsPath :=
  match p.comps.getLast? with
  | some c => ofName c
  | none => emptyPath

/-- Member `path::has_filename()`. -/
def has_filename (p : FsPath) : Bool := !(filename p).empty

/-- Member `path::parent_path()`: the path itself when there is no relative
part, otherwise the path without its last component. -/
def parent_path (p : FsPath) : FsPath :=
  if p.comps.isEmpty then p else ⟨p.rooted, p.comps.dropLast⟩

/-- Member `path::has_parent_path()`. -/
def has_parent_path (p : FsPath) : Bool := !(parent_path p).empty

/-- The components of a path without the empty component of a trailing separator. -/
def stem (p : FsPath) : List String :=
  if p.comps.getLast? = some "" then p.comps.dropLast else p.comps

/-- The operator `p / q` (`path::append`): an absolute `q` replaces `p`; an
empty `q` adds a trailing separator to a `p` that has a filename; otherwise the
components of `q` follow those of `p`. -/
def append (p q : FsPath) : FsPath :=
  if q.rooted then q
  else if q.comps.isEmpty then
    (if has_filename p then ⟨p.rooted, p.comps ++ [""]⟩ else p)
  else ⟨p.rooted, stem p ++ q.comps⟩

end FsPath

/-! ## Events, errors and the trace -/

/-- The enumeration `EFileAction` of the callback contract. -/
inductive EFileAction where
  | Created
  | Deleted
  | Modified
  | Renamed
  | Error
deriving DecidableEq, Repr

/-- The enumeration `EFileWatcherError`; its enumerators are the ones the
sources name, their numeric values (declared in `FileWatcher.hpp`) are not used. -/
inductive EFileWatcherError where
  | SpecifiedFileDoesntExist
  | InvalidFile
  | RegularFileHasNoParentDirectory
  | WatchedDirectoryWasDeleted
deriving DecidableEq, Repr

/-- A `std::error_code`: a value of `std::system_category()` (`system 0` is the
default-constructed, cleared code) or an `EFileWatcherError` of `FileWatcherCategory()`. -/
inductive error_code where
  | system (value : Int)
  | fileWatcher (e : EFileWatcherError)
deriving DecidableEq, Repr

/-- The cleared code `std::error_code{}`. -/
def error_code.cleared : error_code := error_code.system 0

/-- One invocation of `m_Callback(path, renamedTo, action, error)`. -/
structure CallbackArgs where
  path : FsPath
  renamedTo : Option FsPath
  action : EFileAction
  error : error_code
deriving DecidableEq, Repr

/-- What the watcher does to the outside world, in program order. -/
inductive Effect where
  | callback (args : CallbackArgs)
  | inotify_init1
  | inotify_add_watch (fd : Int) (pathname : FsPath)
  | inotify_rm_watch (fd : Int) (wd : Int)
  | close (fd : Int)
deriving DecidableEq, Repr

/-- The callback invocations of a trace, in order. -/
def delivered (t : List Effect) : List CallbackArgs :=
  t.filterMap fun e =>
    match e with
    | Effect.callback a => some a
    | _ => none

/-- The event `Created(path)` as the callback receives it. -/
def createdEvent (path : FsPath) : CallbackArgs :=
  ⟨path, none, EFileAction.Created, error_code.cleared⟩

/-- The event `Deleted(path)` as the callback receives it. -/
def deletedEvent (path : FsPath) : CallbackArgs :=
  ⟨path, none, EFileAction.Deleted, error_code.cleared⟩

/-- The event `Modified(path)` as the callback receives it. -/
def modifiedEvent (path : FsPath) : CallbackArgs :=
  ⟨path, none, EFileAction.Modified, error_code.cleared⟩

/-- The event `Renamed(path, renamedTo)` as the callback receives it. -/
def renamedEvent (path renamedTo : FsPath) : CallbackArgs :=
  ⟨path, some renamedTo, EFileAction.Renamed, error_code.cleared⟩

/-- The event `Error(error)` as the watcher loop reports it: an empty path. -/
def errorEvent (error : error_code) : CallbackArgs :=
  ⟨FsPath.emptyPath, none, EFileAction.Error, error⟩

/-- The answer of a system call: its return value and the `errno` it leaves. -/
structure SysResult where
  ret : Int
  errno : Int
deriving DecidableEq, Repr

/-! ## `std::unordered_map` as an association list -/

/-- Lookup (`find`) of a key. -/
def umap_find {κ ν : Type} [DecidableEq κ] : List (κ × ν) → κ → Option ν
  | [], _ => none
  | e :: m, k => if e.1 = k then some e.2 else umap_find m k

/-- Member `contains(k)`. -/
def umap_contains {κ ν : Type} [DecidableEq κ] (m : List (κ × ν)) (k : κ) : Bool :=
  (umap_find m k).isSome

/-- Member `erase(k)`. -/
def umap_erase {κ ν : Type} [DecidableEq κ] : List (κ × ν) → κ → List (κ × ν)
  | [], _ => []
  | e :: m, k => if e.1 = k then umap_erase m k else e :: umap_erase m k

/-- The assignment `m[k] = v`. -/
def umap_assign {κ ν : Type} [DecidableEq κ] (m : List (κ × ν)) (k : κ) (v : ν) :
    List (κ × ν) :=
  (k, v) :: umap_erase m k

/-- The read `m[k]`: the value stored under `k`, a default-constructed value being
inserted first when the key is absent. Returns the value and the map. -/
def umap_index {κ ν : Type} [DecidableEq κ] (m : List (κ × ν)) (k : κ) (dflt : ν) :
    ν × List (κ × ν) :=
  match umap_find m k with
  | some v => (v, m)
  | none => (dflt, (k, dflt) :: m)

/-! ## The poll-style backend (`LinuxFileWatcher.cpp`) -/

namespace Linux

/-- Event bit `IN_MODIFY` of `<sys/inotify.h>`. -/
def IN_MODIFY : Nat := 0x2
/-- Event bit `IN_MOVED_FROM`. -/
def IN_MOVED_FROM : Nat := 0x40
/-- Event bit `IN_MOVED_TO`. -/
def IN_MOVED_TO : Nat := 0x80
/-- Event bit `IN_CREATE`. -/
def IN_CREATE : Nat := 0x100
/-- Event bit `IN_DELETE`. -/
def IN_DELETE : Nat := 0x200
/-- Event bit `IN_DELETE_SELF`. -/
def IN_DELETE_SELF : Nat := 0x400
/-- Event bit `IN_MOVE_SELF`. -/
def IN_MOVE_SELF : Nat := 0x800
/-- Event bit `IN_IGNORED`. -/
def IN_IGNORED : Nat := 0x8000
/-- Event bit `IN_ISDIR`. -/
def IN_ISDIR : Nat := 0x40000000

/-- The test `mask & flag` of the source, as a boolean. -/
def hasFlag (mask flag : Nat) : Bool := (mask &&& flag) != 0

/-- The event bits the watcher loop tests to choose what to do with a record. -/
def testedFlags : List Nat :=
  [IN_IGNORED, IN_DELETE_SELF, IN_MOVE_SELF, IN_CREATE, IN_DELETE, IN_MODIFY,
   IN_MOVED_FROM, IN_MOVED_TO]

/-- The record is of the one kind `kind`: on every bit the loop tests, its mask
agrees with `kind` (other bits, such as `IN_ISDIR`, are free). -/
def kindIs (mask kind : Nat) : Bool :=
  testedFlags.all fun f => hasFlag mask f == hasFlag kind f

/-- A raw record `struct inotify_event`; `name` is the C string at `event->name`,
`len` the length field of the record (0 when the record carries no name). -/
structure inotify_event where
  wd : Int
  mask : Nat
  cookie : Nat
  len : Nat
  name : String
deriving DecidableEq, Repr

/-- The structure `FileWatcherInternalState`. -/
structure FileWatcherInternalState where
  InotifyInstance : Int
  RootWatchDescriptor : Int
  SubdirectoryWatchDescriptors : List (Int × FsPath)
deriving DecidableEq, Repr

/-- The state the watcher thread works on: the members of the `FileWatcher`
object it reads, the local `renamedFiles` of `WatcherThreadWork`, the trace, and
how the thread stands (`exited`: it has left through `quitMonitoring`;
`aborted`: an `assert` failed). `NDEBUG` tells whether the build compiles the
`assert`s out. -/
structure Watcher where
  NDEBUG : Bool
  m_IsWatching : Bool
  m_ObservedPath : FsPath
  m_ObservedFile : FsPath
  m_InternalState : FileWatcherInternalState
  renamedFiles : List (Nat × FsPath)
  trace : List Effect
  exited : Bool
  aborted : Bool
deriving DecidableEq, Repr

/-- A call `m_Callback(path, renamedTo, action, error)`. -/
def m_Callback (st : Watcher) (path : FsPath) (renamedTo : Option FsPath)
    (action : EFileAction) (error : error_code) : Watcher :=
  { st with trace := st.trace ++ [Effect.callback ⟨path, renamedTo, action, error⟩] }

/-- A call to the operating system, recorded in the trace. -/
def osCall (st : Watcher) (e : Effect) : Watcher :=
  { st with trace := st.trace ++ [e] }

/-- Replaces the subdirectory watch set. -/
def setSubdirs (st : Watcher) (m : List (Int × FsPath)) : Watcher :=
  { st with m_InternalState := { st.m_InternalState with SubdirectoryWatchDescriptors := m } }

/-- The function `FileWatcher::ConstructReturnPath`: the root path for the root
watch descriptor, otherwise `SubdirectoryWatchDescriptors[wd]` (which inserts an
empty path under an absent key), joined with the file name. Returns the path
and the state after the call. -/
def ConstructReturnPath (st : Watcher) (fileName : String) (watcherDescriptor : Int) :
    FsPath × Watcher :=
  if st.m_InternalState.RootWatchDescriptor ≠ watcherDescriptor then
    let r := umap_index st.m_InternalState.SubdirectoryWatchDescriptors watcherDescriptor
      FsPath.emptyPath
    (r.1.append (FsPath.ofName fileName), setSubdirs st r.2)
  else
    (st.m_ObservedPath.append (FsPath.ofName fileName), st)

/-- The release loop of `quitMonitoring` over the subdirectory watch set: each
entry asserts `watcherDescriptor != -1` and calls `inotify_rm_watch`. Returns
the calls made and whether an assertion failed. -/
def releaseWatches (ndebug : Bool) (fd : Int) : List (Int × FsPath) → List Effect × Bool
  | [] => ([], false)
  | e :: m =>
    if !ndebug && e.1 == -1 then ([], true)
    else
      let r := releaseWatches ndebug fd m
      (Effect.inotify_rm_watch fd e.1 :: r.1, r.2)

/-- The label `quitMonitoring`: `assert(renamedFiles.empty())`, release of every
subdirectory watch, `clear()` of the watch set, `m_IsWatching = false`. A failed
assertion aborts the process where it stands. -/
def quitMonitoring (st : Watcher) : Watcher :=
  if !st.NDEBUG && !st.renamedFiles.isEmpty then
    { st with exited := true, aborted := true }
  else
    let r := releaseWatches st.NDEBUG st.m_InternalState.InotifyInstance
      st.m_InternalState.SubdirectoryWatchDescriptors
    let st1 : Watcher := { st with trace := st.trace ++ r.1 }
    if r.2 then { st1 with exited := true, aborted := true }
    else { setSubdirs st1 [] with m_IsWatching := false, exited := true }

/-- The test at the head of the record loop: the record is flagged
`IN_IGNORED`, `IN_DELETE_SELF` or `IN_MOVE_SELF`. -/
def invalidated (mask : Nat) : Bool :=
  hasFlag mask IN_IGNORED || hasFlag mask IN_DELETE_SELF || hasFlag mask IN_MOVE_SELF

/-- The filter test `m_ObservedFile.empty() || m_ObservedFile == file.filename()`. -/
def passesFilter (st : Watcher) (file : FsPath) : Bool :=
  st.m_ObservedFile.empty || st.m_ObservedFile == file.filename

/-- The branch `if(event->mask & IN_CREATE)`; `aw` is the answer
`inotify_add_watch` gives if it is called for this record. -/
def onCreate (st : Watcher) (event : inotify_event) (aw : SysResult) : Watcher :=
  if hasFlag event.mask IN_CREATE then
    let r := ConstructReturnPath st event.name event.wd
    let file := r.1
    let st1 :=
      if hasFlag event.mask IN_ISDIR then
        let st2 := osCall r.2
          (Effect.inotify_add_watch r.2.m_InternalState.InotifyInstance file)
        if aw.ret ≠ -1 then
          setSubdirs st2
            (umap_assign st2.m_InternalState.SubdirectoryWatchDescriptors aw.ret file)
        else
          m_Callback st2 file none EFileAction.Error (error_code.system aw.errno)
      else r.2
    if passesFilter st1 file then
      m_Callback st1 file none EFileAction.Created error_code.cleared
    else st1
  else st

/-- The branch `if(event->mask & IN_DELETE)`. -/
def onDelete (st : Watcher) (event : inotify_event) : Watcher :=
  if hasFlag event.mask IN_DELETE then
    let r := ConstructReturnPath st event.name event.wd
    if passesFilter r.2 r.1 then
      m_Callback r.2 r.1 none EFileAction.Deleted error_code.cleared
    else r.2
  else st

/-- The branch `if(event->mask & IN_MODIFY)`. -/
def onModify (st : Watcher) (event : inotify_event) : Watcher :=
  if hasFlag event.mask IN_MODIFY then
    let r := ConstructReturnPath st event.name event.wd
    if passesFilter r.2 r.1 then
      m_Callback r.2 r.1 none EFileAction.Modified error_code.cleared
    else r.2
  else st

/-- The branch `if(event->mask & IN_MOVED_FROM)`: `renamedFiles[cookie] = path`. -/
def onMovedFrom (st : Watcher) (event : inotify_event) : Watcher :=
  if hasFlag event.mask IN_MOVED_FROM then
    let r := ConstructReturnPath st event.name event.wd
    { r.2 with renamedFiles := umap_assign r.2.renamedFiles event.cookie r.1 }
  else st

/-- The branch `if(event->mask & IN_MOVED_TO)`: when the filter test passes or
the cookie is pending, the callback gets `renamedFiles[cookie]` (an empty path
when the cookie is absent) and the new path, and the cookie is erased. -/
def onMovedTo (st : Watcher) (event : inotify_event) : Watcher :=
  if hasFlag event.mask IN_MOVED_TO then
    let r := ConstructReturnPath st event.name event.wd
    if passesFilter r.2 r.1 || umap_contains r.2.renamedFiles event.cookie then
      let old := umap_index r.2.renamedFiles event.cookie FsPath.emptyPath
      let st1 := m_Callback r.2 old.1 (some r.1) EFileAction.Renamed error_code.cleared
      { st1 with renamedFiles := umap_erase old.2 event.cookie }
    else r.2
  else st

/-- The body of the record loop `while(i < length)` for one record. -/
def processEvent (st : Watcher) (event : inotify_event) (aw : SysResult) : Watcher :=
  if invalidated event.mask &&
      (st.m_InternalState.RootWatchDescriptor == event.wd && st.m_IsWatching) then
    quitMonitoring
      (m_Callback st FsPath.emptyPath none EFileAction.Error
        (error_code.fileWatcher EFileWatcherError.WatchedDirectoryWasDeleted))
  else
    let st1 :=
      if invalidated event.mask &&
          umap_contains st.m_InternalState.SubdirectoryWatchDescriptors event.wd then
        let st2 := osCall st
          (Effect.inotify_rm_watch st.m_InternalState.RootWatchDescriptor event.wd)
        setSubdirs st2 (umap_erase st2.m_InternalState.SubdirectoryWatchDescriptors event.wd)
      else st
    if event.len = 0 then st1
    else
      onMovedTo (onMovedFrom (onModify (onDelete (onCreate st1 event aw) event) event) event)
        event

/-- What one pass through the head of `while(m_IsWatching)` meets: `poll`
returns -1; `poll` returns without `POLLRDNORM`; `read` returns -1; or `read`
returns a batch, whose records follow as `Input.event`. -/
inductive Wake where
  | pollFailed (errno : Int)
  | notReadable
  | readFailed (errno : Int)
  | readOk
deriving DecidableEq, Repr

/-- The head of the outer loop: the test of `m_IsWatching`, `poll` and `read`. -/
def loopHead (st : Watcher) (w : Wake) : Watcher :=
  if !st.m_IsWatching then quitMonitoring st
  else
    match w with
    | Wake.pollFailed e =>
      quitMonitoring
        (m_Callback st FsPath.emptyPath none EFileAction.Error (error_code.system e))
    | Wake.notReadable => st
    | Wake.readFailed e =>
      quitMonitoring
        (m_Callback st FsPath.emptyPath none EFileAction.Error (error_code.system e))
    | Wake.readOk => st

/-- What happens to the watcher thread, in order: the destructor on another
thread stores `false` to `m_IsWatching`; the thread passes the loop head; the
thread takes the next record of the batch last read. -/
inductive Input where
  | stop
  | wake (w : Wake)
  | event (e : inotify_event) (aw : SysResult)
deriving DecidableEq, Repr

/-- One step of the watcher thread; a thread that has left does nothing more. -/
def step (st : Watcher) (i : Input) : Watcher :=
  match i with
  | Input.stop => { st with m_IsWatching := false }
  | Input.wake w => if st.exited then st else loopHead st w
  | Input.event e aw => if st.exited then st else processEvent st e aw

/-- The thread run over a sequence of inputs. -/
def run (st : Watcher) (inputs : List Input) : Watcher :=
  inputs.foldl step st

/-- The function `FileWatcher::WatcherThreadWork` over the inputs the thread
meets: a failed `malloc` goes to `quitMonitoring` at once; after the last input
the thread is at the loop head again, where it leaves when `m_IsWatching` is
false and otherwise blocks in `poll`. -/
def WatcherThreadWork (st : Watcher) (mallocOk : Bool) (inputs : List Input) : Watcher :=
  if !mallocOk then quitMonitoring st
  else
    let st1 := run st inputs
    if st1.exited || st1.m_IsWatching then st1 else quitMonitoring st1

/-- The input sequence has the shape the loop can meet: every record follows a
successful read (`b` tells whether a batch is open). -/
def batchShaped : Bool → List Input → Bool
  | _, [] => true
  | b, Input.stop :: r => batchShaped b r
  | _, Input.wake Wake.readOk :: r => batchShaped true r
  | _, Input.wake _ :: r => batchShaped false r
  | b, Input.event _ _ :: r => b && batchShaped b r

/-- The boundary between two records: none when both are in one batch, one
successful pass through the loop head when the second is in the next batch. -/
def nextBatch (b : Bool) : List Input :=
  if b then [Input.wake Wake.readOk] else []

/-- A sample root directory `D`. -/
def demoRoot : FsPath := ⟨false, ["D"]⟩

/-- A sample active session on `demoRoot` without file filter: assertions
compiled in, inotify instance 3, root watch descriptor 1, no subdirectory. -/
def demoWatcher : Watcher :=
  ⟨false, true, demoRoot, FsPath.emptyPath, ⟨3, 1, []⟩, [], [], false, false⟩

/-- A sample active session on `demoRoot` filtered to the single file `x.txt`. -/
def demoFiltered : Watcher :=
  ⟨false, true, demoRoot, FsPath.ofName "x.txt", ⟨3, 1, []⟩, [], [], false, false⟩

/-- The error `WatchedDirectoryWasDeleted` of the `FileWatcher` category. -/
def rootDeleted : error_code :=
  error_code.fileWatcher EFileWatcherError.WatchedDirectoryWasDeleted

/-- A sample active session on `demoRoot` without file filter, assertions
compiled in, whose watch set holds the subdirectory `D/sub` under watch-id 2. -/
def demoWithSubdir : Watcher :=
  ⟨false, true, demoRoot, FsPath.emptyPath, ⟨3, 1, [(2, ⟨false, ["D", "sub"]⟩)]⟩, [], [],
    false, false⟩

/-- The sample session `demoWithSubdir` in a build with the assertions compiled
out, holding the unmatched rename half of `D/a.txt` under cookie 7. -/
def demoUnmatched : Watcher :=
  ⟨true, true, demoRoot, FsPath.emptyPath, ⟨3, 1, [(2, ⟨false, ["D", "sub"]⟩)]⟩,
    [(7, ⟨false, ["D", "a.txt"]⟩)], [], false, false⟩

/-! ### Start of a session (`SetupWatcher`) -/

/-- The filesystem as `SetupWatcher` meets it: `std::filesystem::exists` and
`is_regular_file`, which it calls, `absolute(p, error)`, which answers a path
and the value left in `error` (0 when the call clears it), and `is_directory`,
which it never calls and in which the invariant on the root is stated. -/
structure FileSystem where
  fs_exists : FsPath → Bool
  is_regular_file : FsPath → Bool
  is_directory : FsPath → Bool
  absolute : FsPath → FsPath × Int

/-- One entry met by `std::filesystem::recursive_directory_iterator`, with the
answer `inotify_add_watch` gives if the entry is registered. -/
structure DirEntry where
  path : FsPath
  is_directory : Bool
  addWatch : SysResult
deriving DecidableEq, Repr

/-- The answers of the outside world to `SetupWatcher`: the filesystem, the
result of `inotify_init1(IN_NONBLOCK)`, of `inotify_add_watch` on the root, and
the entries of the subtree walk. -/
structure SetupEnv where
  fs : FileSystem
  init : SysResult
  rootWatch : SysResult
  walk : List DirEntry

/-- What the prefix of `SetupWatcher` that normalises the path (the two
`if` blocks on `exists` and `is_regular_file`) leaves: the members
`m_ObservedPath` and `m_ObservedFile`, and the error it assigned, if any. -/
structure Resolved where
  m_ObservedPath : FsPath
  m_ObservedFile : FsPath
  error : Option EFileWatcherError
deriving DecidableEq, Repr

/-- The block `if (!std::filesystem::exists(m_ObservedPath))`. -/
def resolveMissing (fs : FileSystem) (observedPath : FsPath) : Resolved :=
  if !fs.fs_exists observedPath then
    if observedPath.has_parent_path && observedPath.has_filename then
      ⟨observedPath.parent_path, observedPath.filename, none⟩
    else
      ⟨observedPath, FsPath.emptyPath, some EFileWatcherError.SpecifiedFileDoesntExist⟩
  else ⟨observedPath, FsPath.emptyPath, none⟩

/-- The block `if (std::filesystem::is_regular_file(m_ObservedPath))`. -/
def resolveRegular (fs : FileSystem) (r : Resolved) : Resolved :=
  if fs.is_regular_file r.m_ObservedPath then
    if r.m_ObservedPath.has_parent_path then
      if r.m_ObservedPath.has_filename then
        ⟨r.m_ObservedPath.parent_path, r.m_ObservedPath.filename, none⟩
      else { r with error := some EFileWatcherError.InvalidFile }
    else { r with error := some EFileWatcherError.RegularFileHasNoParentDirectory }
  else r

/-- The resolver: both blocks in order, the second one not reached when the
first has returned with an error. -/
def resolveTarget (fs : FileSystem) (observedPath : FsPath) : Resolved :=
  let r := resolveMissing fs observedPath
  if r.error.isSome then r else resolveRegular fs r

/-- The `FileWatcher` object as the constructor leaves it: its members, whether
`m_WatcherThread` was started, the `error` output and the trace of system calls. -/
structure FileWatcher where
  m_IsWatching : Bool
  m_ObservedPath : FsPath
  m_ObservedFile : FsPath
  m_InternalState : Option FileWatcherInternalState
  threadStarted : Bool
  error : error_code
  trace : List Effect
deriving DecidableEq, Repr

/-- The loop over `recursive_directory_iterator(m_ObservedPath)`: every
directory is registered and stored; the first failed registration stops the
walk and answers its `errno`. -/
def registerSubtree (fd : Int) :
    List DirEntry → List (Int × FsPath) → List Effect →
      List (Int × FsPath) × List Effect × Option Int
  | [], m, t => (m, t, none)
  | e :: rest, m, t =>
    if e.is_directory then
      if e.addWatch.ret ≠ -1 then
        registerSubtree fd rest (umap_assign m e.addWatch.ret e.path)
          (t ++ [Effect.inotify_add_watch fd e.path])
      else (m, t ++ [Effect.inotify_add_watch fd e.path], some e.addWatch.errno)
    else registerSubtree fd rest m t

/-- The second half of `FileWatcher::SetupWatcher`, from `inotify_init1` to the
start of the thread, on the observed path and file filter the first half has
settled; `error` is the error object as it stands there. -/
def setupBackend (env : SetupEnv) (observed observedFile : FsPath) (error : error_code) :
    FileWatcher :=
  if env.init.ret = -1 then
    ⟨false, observed, observedFile, none, false, error_code.system env.init.errno,
      [Effect.inotify_init1]⟩
  else if env.rootWatch.ret = -1 then
    ⟨false, observed, observedFile, none, false, error_code.system env.rootWatch.errno,
      [Effect.inotify_init1, Effect.inotify_add_watch env.init.ret observed,
        Effect.close env.init.ret]⟩
  else if observedFile.empty then
    let w := registerSubtree env.init.ret env.walk []
      [Effect.inotify_init1, Effect.inotify_add_watch env.init.ret observed]
    match w.2.2 with
    | none =>
      ⟨true, observed, observedFile, some ⟨env.init.ret, env.rootWatch.ret, w.1⟩, true,
        error, w.2.1⟩
    | some errno =>
      ⟨false, observed, observedFile, some ⟨env.init.ret, env.rootWatch.ret, w.1⟩, true,
        error_code.system errno, w.2.1⟩
  else
    ⟨true, observed, observedFile, some ⟨env.init.ret, env.rootWatch.ret, []⟩, true, error,
      [Effect.inotify_init1, Effect.inotify_add_watch env.init.ret observed]⟩

/-- The function `FileWatcher::SetupWatcher`, called by the constructor on the
members initialised to `m_IsWatching(false)`, `m_ObservedPath(observedPath)`, an
empty `m_ObservedFile` and a null `m_InternalState`; `error` is the caller's
error object as passed in. The resolver comes first, then the conversion to an
absolute path when asked for, then `setupBackend`. -/
def SetupWatcher (env : SetupEnv) (observedPath : FsPath) (useAsbolutePath : Bool)
    (error : error_code) : FileWatcher :=
  let r := resolveTarget env.fs observedPath
  match r.error with
  | some e =>
    ⟨false, r.m_ObservedPath, r.m_ObservedFile, none, false, error_code.fileWatcher e, []⟩
  | none =>
    if useAsbolutePath then
      let a := env.fs.absolute r.m_ObservedPath
      if a.2 ≠ 0 then
        ⟨false, a.1, r.m_ObservedFile, none, false, error_code.system a.2, []⟩
      else setupBackend env a.1 r.m_ObservedFile (error_code.system a.2)
    else setupBackend env r.m_ObservedPath r.m_ObservedFile error

/-- The state on which the started watcher thread begins `WatcherThreadWork`
(none when the constructor started no thread). -/
def threadState (ndebug : Bool) (fw : FileWatcher) : Option Watcher :=
  if fw.threadStarted then
    fw.m_InternalState.map fun s =>
      ⟨ndebug, fw.m_IsWatching, fw.m_ObservedPath, fw.m_ObservedFile, s, [], fw.trace,
        false, false⟩
  else none

/-- A filesystem given by the list of its regular files and the list of its
directories (nothing else exists); `absolute` answers the path itself. -/
def listFs (files dirs : List FsPath) : FileSystem :=
  ⟨fun p => decide (p ∈ files) || decide (p ∈ dirs), fun p => decide (p ∈ files),
    fun p => decide (p ∈ dirs), fun p => (p, 0)⟩

/-- A sample start: the directory `D` holds the subdirectory `D/sub`; the
inotify instance (3) and the root watch (1) are obtained, and the registration
of `D/sub` during the walk fails with `ENOSPC` (28). -/
def demoWalkFails : SetupEnv :=
  ⟨listFs [] [demoRoot, ⟨false, ["D", "sub"]⟩], ⟨3, 0⟩, ⟨1, 0⟩,
    [⟨⟨false, ["D", "sub"]⟩, true, ⟨-1, 28⟩⟩]⟩

/-- A sample start: the directory `D` holds the subdirectories `D/a` and `D/b`;
the inotify instance (3) and the root watch (1) are obtained, `D/a` is
registered under watch-id 2, and the registration of `D/b` fails with
`ENOSPC` (28). -/
def demoSecondFails : SetupEnv :=
  ⟨listFs [] [demoRoot, ⟨false, ["D", "a"]⟩, ⟨false, ["D", "b"]⟩], ⟨3, 0⟩, ⟨1, 0⟩,
    [⟨⟨false, ["D", "a"]⟩, true, ⟨2, 0⟩⟩, ⟨⟨false, ["D", "b"]⟩, true, ⟨-1, 28⟩⟩]⟩

/-- The state on which the thread started by the sample start `demoSecondFails`
begins: not watching, the watch set holding `D/a` under watch-id 2, the trace
holding the four calls of `SetupWatcher`. -/
def demoSecondFailsThread : Watcher :=
  ⟨false, false, demoRoot, FsPath.emptyPath, ⟨3, 1, [(2, ⟨false, ["D", "a"]⟩)]⟩, [],
    [Effect.inotify_init1, Effect.inotify_add_watch 3 demoRoot,
      Effect.inotify_add_watch 3 ⟨false, ["D", "a"]⟩,
      Effect.inotify_add_watch 3 ⟨false, ["D", "b"]⟩], false, false⟩

end Linux

/-! ## The completion-style backend (`FileWatcher.cpp`): the record translator -/

namespace Windows

/-- Action tag `FILE_ACTION_ADDED` of `<Windows.h>`. -/
def FILE_ACTION_ADDED : Nat := 1
/-- Action tag `FILE_ACTION_REMOVED`. -/
def FILE_ACTION_REMOVED : Nat := 2
/-- Action tag `FILE_ACTION_MODIFIED`. -/
def FILE_ACTION_MODIFIED : Nat := 3
/-- Action tag `FILE_ACTION_RENAMED_OLD_NAME`. -/
def FILE_ACTION_RENAMED_OLD_NAME : Nat := 4
/-- Action tag `FILE_ACTION_RENAMED_NEW_NAME`. -/
def FILE_ACTION_RENAMED_NEW_NAME : Nat := 5

/-- A raw record `FILE_NOTIFY_INFORMATION`: the action tag and the name, a path
relative to the watched directory; `callocOk` tells whether the allocation made
by `ConstructFullPath` for this record succeeds. -/
structure NotifyRecord where
  Action : Nat
  FileName : FsPath
  callocOk : Bool
deriving DecidableEq, Repr

/-- The state of the translator: the members it reads, the locals `renamedOld`,
`previouslyCreatedFile`, `previousFileAction` of `WatcherThreadWork`, and the
callback invocations made so far. -/
structure Translator where
  m_ObservedPath : FsPath
  m_ObservedFile : FsPath
  renamedOld : FsPath
  previouslyCreatedFile : FsPath
  previousFileAction : EFileAction
  trace : List Effect
deriving DecidableEq, Repr

/-- The locals of `WatcherThreadWork` as declared at its start. -/
def Translator.start (observedPath observedFile : FsPath) : Translator :=
  ⟨observedPath, observedFile, FsPath.emptyPath, FsPath.emptyPath, EFileAction.Error, []⟩

/-- The function `FileWatcher::ConstructFullPath`: the observed path with the
name appended, or the observed path alone when the allocation fails. The source
appends from the buffer after freeing it; the bytes read are taken to be the
name just copied into it. -/
def ConstructFullPath (st : Translator) (fileName : FsPath) (callocOk : Bool) : FsPath :=
  if callocOk then st.m_ObservedPath.append fileName else st.m_ObservedPath

/-- A call `m_Callback(path, renamedTo, action, error)`. -/
def m_Callback (st : Translator) (path : FsPath) (renamedTo : Option FsPath)
    (action : EFileAction) (error : error_code) : Translator :=
  { st with trace := st.trace ++ [Effect.callback ⟨path, renamedTo, action, error⟩] }

/-- The filter test `m_ObservedFile.empty() || m_ObservedFile == file.filename()`. -/
def passesFilter (st : Translator) (file : FsPath) : Bool :=
  st.m_ObservedFile.empty || st.m_ObservedFile == file.filename

/-- The `switch (event->Action)` of the record loop for one record. -/
def translateRecord (st : Translator) (event : NotifyRecord) : Translator :=
  let file := ConstructFullPath st event.FileName event.callocOk
  if event.Action = FILE_ACTION_ADDED then
    let st1 :=
      if passesFilter st file then
        m_Callback st file none EFileAction.Created error_code.cleared
      else st
    { st1 with previousFileAction := EFileAction.Created }
  else if event.Action = FILE_ACTION_REMOVED then
    let st1 : Translator := { st with previouslyCreatedFile := file }
    if passesFilter st1 file then
      m_Callback st1 file none EFileAction.Deleted error_code.cleared
    else st1
  else if event.Action = FILE_ACTION_MODIFIED then
    if st.previouslyCreatedFile = file ∧ st.previousFileAction = EFileAction.Created then
      { st with previousFileAction := EFileAction.Modified }
    else if passesFilter st file then
      m_Callback st file none EFileAction.Modified error_code.cleared
    else st
  else if event.Action = FILE_ACTION_RENAMED_OLD_NAME then
    { st with renamedOld := file, previousFileAction := EFileAction.Renamed }
  else if event.Action = FILE_ACTION_RENAMED_NEW_NAME then
    if passesFilter st file || st.m_ObservedFile == st.renamedOld.filename then
      m_Callback st file (some st.renamedOld) EFileAction.Renamed error_code.cleared
    else st
  else st

/-- The record loop over the records of the batches read, in order. -/
def translate (st : Translator) (records : List NotifyRecord) : Translator :=
  records.foldl translateRecord st

end Windows

/-! ## The callback of `main.cpp` -/

/-- What the callback passed by `main` prints for a `Renamed` event with a
cleared error code: `Renamed: <filepath> to <renamedNew>`; the pair answered is
(the path printed first, the path printed after `to`). -/
def mainRenamedLine (a : CallbackArgs) : Option (FsPath × FsPath) :=
  if a.error = error_code.cleared then
    match a.action, a.renamedTo with
    | EFileAction.Renamed, some renamedNew => some (a.path, renamedNew)
    | _, _ => none
  else none

end FileWatcher

/-! ## Lemmas on traces, maps and record kinds -/

namespace FileWatcher

theorem delivered_append (t u : List Effect) :
    delivered (t ++ u) = delivered t ++ delivered u := by
  simp [delivered, List.filterMap_append]

theorem delivered_callback (a : CallbackArgs) : delivered [Effect.callback a] = [a] := rfl

@[simp]
theorem delivered_nil : delivered [] = [] := rfl

@[simp]
theorem delivered_cons_callback (a : CallbackArgs) (t : List Effect) :
    delivered (Effect.callback a :: t) = a :: delivered t := rfl

@[simp]
theorem delivered_cons_init (t : List Effect) :
    delivered (Effect.inotify_init1 :: t) = delivered t := rfl

@[simp]
theorem delivered_cons_add_watch (fd : Int) (p : FsPath) (t : List Effect) :
    delivered (Effect.inotify_add_watch fd p :: t) = delivered t := rfl

@[simp]
theorem delivered_cons_rm_watch (fd wd : Int) (t : List Effect) :
    delivered (Effect.inotify_rm_watch fd wd :: t) = delivered t := rfl

@[simp]
theorem delivered_cons_close (fd : Int) (t : List Effect) :
    delivered (Effect.close fd :: t) = delivered t := rfl

theorem umap_find_erase_same {κ ν : Type} [DecidableEq κ] (m : List (κ × ν)) (k : κ) :
    umap_find (umap_erase m k) k = none := by
  induction m with
  | nil => rfl
  | cons e m ih =>
    unfold umap_erase
    split
    · exact ih
    · rename_i h
      unfold umap_find
      rw [if_neg h]
      exact ih

theorem umap_find_erase_other {κ ν : Type} [DecidableEq κ] (m : List (κ × ν)) (k c : κ)
    (h : k ≠ c) : umap_find (umap_erase m k) c = umap_find m c := by
  induction m with
  | nil => rfl
  | cons e m ih =>
    unfold umap_erase
    split
    · rename_i h1
      have h2 : ¬ e.1 = c := fun h3 => h (h1.symm.trans h3)
      rw [ih]
      conv => rhs; unfold umap_find
      rw [if_neg h2]
    · conv => lhs; unfold umap_find
      conv => rhs; unfold umap_find
      rw [ih]

theorem umap_find_assign_same {κ ν : Type} [DecidableEq κ] (m : List (κ × ν)) (k : κ)
    (v : ν) : umap_find (umap_assign m k v) k = some v := by
  simp [umap_assign, umap_find]

theorem umap_find_assign_other {κ ν : Type} [DecidableEq κ] (m : List (κ × ν)) (k c : κ)
    (v : ν) (h : k ≠ c) : umap_find (umap_assign m k v) c = umap_find m c := by
  simp [umap_assign, umap_find, h, umap_find_erase_other m k c h]

theorem umap_index_of_find {κ ν : Type} [DecidableEq κ] (m : List (κ × ν)) (k : κ)
    (d v : ν) (h : umap_find m k = some v) : umap_index m k d = (v, m) := by
  simp [umap_index, h]

theorem umap_find_index_other {κ ν : Type} [DecidableEq κ] (m : List (κ × ν)) (k c : κ)
    (d : ν) (h : k ≠ c) : umap_find (umap_index m k d).2 c = umap_find m c := by
  unfold umap_index
  cases hf : umap_find m k with
  | some v => rfl
  | none => simp [umap_find, h]

theorem umap_find_index_same {κ ν : Type} [DecidableEq κ] (m : List (κ × ν)) (k : κ)
    (d v : ν) (h : umap_find m k = some v) : umap_find (umap_index m k d).2 k = some v := by
  simp [umap_index, h]

namespace Linux

theorem kindIs_vector {mask kind : Nat} (h : kindIs mask kind = true) :
    testedFlags.map (hasFlag mask) = testedFlags.map (hasFlag kind) := by
  simp only [kindIs, List.all_eq_true, beq_iff_eq] at h
  exact List.map_congr_left h

theorem kind_create {mask : Nat} (h : kindIs mask IN_CREATE = true) :
    hasFlag mask IN_IGNORED = false ∧ hasFlag mask IN_DELETE_SELF = false ∧
    hasFlag mask IN_MOVE_SELF = false ∧ hasFlag mask IN_CREATE = true ∧
    hasFlag mask IN_DELETE = false ∧ hasFlag mask IN_MODIFY = false ∧
    hasFlag mask IN_MOVED_FROM = false ∧ hasFlag mask IN_MOVED_TO = false := by
  have h1 := kindIs_vector h
  rw [show testedFlags.map (hasFlag IN_CREATE) =
    [false, false, false, true, false, false, false, false] from by decide] at h1
  simpa [testedFlags] using h1

theorem kind_delete {mask : Nat} (h : kindIs mask IN_DELETE = true) :
    hasFlag mask IN_IGNORED = false ∧
    hasFlag mask IN_DELETE_SELF = false ∧
    hasFlag mask IN_MOVE_SELF = false ∧
    hasFlag mask IN_CREATE = false ∧
    hasFlag mask IN_DELETE = true ∧
    hasFlag mask IN_MODIFY = false ∧
    hasFlag mask IN_MOVED_FROM = false ∧
    hasFlag mask IN_MOVED_TO = false := by
  have h1 := kindIs_vector h
  rw [show testedFlags.map (hasFlag IN_DELETE) =
    [false, false, false, false, true, false, false, false] from by decide] at h1
  simpa [testedFlags] using h1

theorem kind_modify {mask : Nat} (h : kindIs mask IN_MODIFY = true) :
    hasFlag mask IN_IGNORED = false ∧
    hasFlag mask IN_DELETE_SELF = false ∧
    hasFlag mask IN_MOVE_SELF = false ∧
    hasFlag mask IN_CREATE = false ∧
    hasFlag mask IN_DELETE = false ∧
    hasFlag mask IN_MODIFY = true ∧
    hasFlag mask IN_MOVED_FROM = false ∧
    hasFlag mask IN_MOVED_TO = false := by
  have h1 := kindIs_vector h
  rw [show testedFlags.map (hasFlag IN_MODIFY) =
    [false, false, false, false, false, true, false, false] from by decide] at h1
  simpa [testedFlags] using h1

theorem kind_moved_from {mask : Nat} (h : kindIs mask IN_MOVED_FROM = true) :
    hasFlag mask IN_IGNORED = false ∧
    hasFlag mask IN_DELETE_SELF = false ∧
    hasFlag mask IN_MOVE_SELF = false ∧
    hasFlag mask IN_CREATE = false ∧
    hasFlag mask IN_DELETE = false ∧
    hasFlag mask IN_MODIFY = false ∧
    hasFlag mask IN_MOVED_FROM = true ∧
    hasFlag mask IN_MOVED_TO = false := by
  have h1 := kindIs_vector h
  rw [show testedFlags.map (hasFlag IN_MOVED_FROM) =
    [false, false, false, false, false, false, true, false] from by decide] at h1
  simpa [testedFlags] using h1

theorem kind_moved_to {mask : Nat} (h : kindIs mask IN_MOVED_TO = true) :
    hasFlag mask IN_IGNORED = false ∧
    hasFlag mask IN_DELETE_SELF = false ∧
    hasFlag mask IN_MOVE_SELF = false ∧
    hasFlag mask IN_CREATE = false ∧
    hasFlag mask IN_DELETE = false ∧
    hasFlag mask IN_MODIFY = false ∧
    hasFlag mask IN_MOVED_FROM = false ∧
    hasFlag mask IN_MOVED_TO = true := by
  have h1 := kindIs_vector h
  rw [show testedFlags.map (hasFlag IN_MOVED_TO) =
    [false, false, false, false, false, false, false, true] from by decide] at h1
  simpa [testedFlags] using h1

/-! ### The record loop, one record at a time -/

theorem ConstructReturnPath_root (st : Watcher) (n : String) :
    ConstructReturnPath st n st.m_InternalState.RootWatchDescriptor =
      (st.m_ObservedPath.append (FsPath.ofName n), st) := by
  simp [ConstructReturnPath]

theorem step_event (st : Watcher) (e : inotify_event) (aw : SysResult)
    (h : st.exited = false) : step st (Input.event e aw) = processEvent st e aw := by
  simp [step, h]

theorem run_nextBatch (st : Watcher) (b : Bool) (he : st.exited = false)
    (hw : st.m_IsWatching = true) : run st (nextBatch b) = st := by
  cases b <;> simp [run, nextBatch, step, loopHead, he, hw]

theorem run_append (st : Watcher) (xs ys : List Input) :
    run st (xs ++ ys) = run (run st xs) ys := by
  simp [run, List.foldl_append]

theorem run_cons (st : Watcher) (x : Input) (xs : List Input) :
    run st (x :: xs) = run (step st x) xs := rfl

theorem run_nil (st : Watcher) : run st [] = st := rfl

theorem processEvent_root_create_file (st : Watcher) (mask cookie len : Nat) (n : String)
    (aw : SysResult) (hf : st.m_ObservedFile.empty = true)
    (hk : kindIs mask IN_CREATE = true) (hdir : hasFlag mask IN_ISDIR = false)
    (hl : len ≠ 0) :
    processEvent st ⟨st.m_InternalState.RootWatchDescriptor, mask, cookie, len, n⟩ aw =
      m_Callback st (st.m_ObservedPath.append (FsPath.ofName n)) none EFileAction.Created
        error_code.cleared := by
  obtain ⟨a1, a2, a3, a4, a5, a6, a7, a8⟩ := kind_create hk
  simp [processEvent, invalidated, onCreate, onDelete, onModify, onMovedFrom, onMovedTo,
    a1, a2, a3, a4, a5, a6, a7, a8, hdir, hl, ConstructReturnPath_root, passesFilter, hf]

theorem processEvent_root_modify (st : Watcher) (mask cookie len : Nat) (n : String)
    (aw : SysResult) (hf : st.m_ObservedFile.empty = true)
    (hk : kindIs mask IN_MODIFY = true) (hl : len ≠ 0) :
    processEvent st ⟨st.m_InternalState.RootWatchDescriptor, mask, cookie, len, n⟩ aw =
      m_Callback st (st.m_ObservedPath.append (FsPath.ofName n)) none EFileAction.Modified
        error_code.cleared := by
  obtain ⟨a1, a2, a3, a4, a5, a6, a7, a8⟩ := kind_modify hk
  simp [processEvent, invalidated, onCreate, onDelete, onModify, onMovedFrom, onMovedTo,
    a1, a2, a3, a4, a5, a6, a7, a8, hl, ConstructReturnPath_root, passesFilter, hf]

theorem processEvent_root_delete (st : Watcher) (mask cookie len : Nat) (n : String)
    (aw : SysResult) (hf : st.m_ObservedFile.empty = true)
    (hk : kindIs mask IN_DELETE = true) (hl : len ≠ 0) :
    processEvent st ⟨st.m_InternalState.RootWatchDescriptor, mask, cookie, len, n⟩ aw =
      m_Callback st (st.m_ObservedPath.append (FsPath.ofName n)) none EFileAction.Deleted
        error_code.cleared := by
  obtain ⟨a1, a2, a3, a4, a5, a6, a7, a8⟩ := kind_delete hk
  simp [processEvent, invalidated, onCreate, onDelete, onModify, onMovedFrom, onMovedTo,
    a1, a2, a3, a4, a5, a6, a7, a8, hl, ConstructReturnPath_root, passesFilter, hf]

/-! ### C1: what follows a creation -/

/-- C1 (amended, poll-style backend): on an active session without file filter,
the records Created(n), Modified(n), Deleted(n) arriving on the root watch, in
one batch or in consecutive batches, deliver exactly Created(D/n),
Modified(D/n), Deleted(D/n): one Created event, and the Modified record after
it is delivered too. -/
theorem poll_create_modify_delete_delivers_all (st : Watcher) (n : String)
    (mc mm md k1 k2 k3 l1 l2 l3 : Nat) (aw1 aw2 aw3 : SysResult) (b1 b2 : Bool)
    (hex : st.exited = false) (hw : st.m_IsWatching = true)
    (hf : st.m_ObservedFile.empty = true)
    (hc : kindIs mc IN_CREATE = true) (hdir : hasFlag mc IN_ISDIR = false)
    (hm : kindIs mm IN_MODIFY = true) (hd : kindIs md IN_DELETE = true)
    (h1 : l1 ≠ 0) (h2 : l2 ≠ 0) (h3 : l3 ≠ 0) :
    delivered (run st
      ([Input.event ⟨st.m_InternalState.RootWatchDescriptor, mc, k1, l1, n⟩ aw1] ++
        nextBatch b1 ++
        [Input.event ⟨st.m_InternalState.RootWatchDescriptor, mm, k2, l2, n⟩ aw2] ++
        nextBatch b2 ++
        [Input.event ⟨st.m_InternalState.RootWatchDescriptor, md, k3, l3, n⟩ aw3])).trace =
      delivered st.trace ++
        [createdEvent (st.m_ObservedPath.append (FsPath.ofName n)),
         modifiedEvent (st.m_ObservedPath.append (FsPath.ofName n)),
         deletedEvent (st.m_ObservedPath.append (FsPath.ofName n))] := by
  simp only [run_append, run_cons, run_nil]
  have r1 : step st (Input.event ⟨st.m_InternalState.RootWatchDescriptor, mc, k1, l1, n⟩ aw1) =
      m_Callback st (st.m_ObservedPath.append (FsPath.ofName n)) none EFileAction.Created
        error_code.cleared := by
    rw [step_event _ _ _ hex]
    exact processEvent_root_create_file st mc k1 l1 n aw1 hf hc hdir h1
  rw [r1, run_nextBatch (m_Callback st (st.m_ObservedPath.append (FsPath.ofName n)) none
    EFileAction.Created error_code.cleared) b1 hex hw]
  have r2 : step (m_Callback st (st.m_ObservedPath.append (FsPath.ofName n)) none
        EFileAction.Created error_code.cleared)
      (Input.event ⟨st.m_InternalState.RootWatchDescriptor, mm, k2, l2, n⟩ aw2) =
      m_Callback (m_Callback st (st.m_ObservedPath.append (FsPath.ofName n)) none
        EFileAction.Created error_code.cleared)
        (st.m_ObservedPath.append (FsPath.ofName n)) none EFileAction.Modified
        error_code.cleared := by
    rw [step_event (m_Callback st (st.m_ObservedPath.append (FsPath.ofName n)) none
      EFileAction.Created error_code.cleared) _ _ hex]
    exact processEvent_root_modify (m_Callback st _ none EFileAction.Created
      error_code.cleared) mm k2 l2 n aw2 hf hm h2
  rw [r2, run_nextBatch (m_Callback (m_Callback st
    (st.m_ObservedPath.append (FsPath.ofName n)) none EFileAction.Created error_code.cleared)
    (st.m_ObservedPath.append (FsPath.ofName n)) none EFileAction.Modified
    error_code.cleared) b2 hex hw, step_event (m_Callback (m_Callback st
    (st.m_ObservedPath.append (FsPath.ofName n)) none EFileAction.Created error_code.cleared)
    (st.m_ObservedPath.append (FsPath.ofName n)) none EFileAction.Modified
    error_code.cleared) _ _ hex]
  have r3 := processEvent_root_delete (m_Callback (m_Callback st
    (st.m_ObservedPath.append (FsPath.ofName n)) none EFileAction.Created error_code.cleared)
    (st.m_ObservedPath.append (FsPath.ofName n)) none EFileAction.Modified
    error_code.cleared) md k3 l3 n aw3 hf hd h3
  have r4 : ∀ s : Watcher, s = m_Callback (m_Callback (m_Callback st
      (st.m_ObservedPath.append (FsPath.ofName n)) none EFileAction.Created
      error_code.cleared) (st.m_ObservedPath.append (FsPath.ofName n)) none
      EFileAction.Modified error_code.cleared)
      (st.m_ObservedPath.append (FsPath.ofName n)) none EFileAction.Deleted
      error_code.cleared →
      delivered s.trace = delivered st.trace ++
        [createdEvent (st.m_ObservedPath.append (FsPath.ofName n)),
         modifiedEvent (st.m_ObservedPath.append (FsPath.ofName n)),
         deletedEvent (st.m_ObservedPath.append (FsPath.ofName n))] := by
    intro s hs
    subst hs
    simp [m_Callback, delivered_append, delivered_callback, createdEvent, modifiedEvent,
      deletedEvent]
  exact r4 _ r3


/-- The sample session, with Created(a.txt) and Modified(a.txt) in one batch and
Deleted(a.txt) in the next, delivers the three events. -/
theorem poll_create_modify_delete_delivers_all_witness :
    delivered (run demoWatcher
      ([Input.event ⟨1, IN_CREATE, 0, 16, "a.txt"⟩ ⟨0, 0⟩] ++ nextBatch false ++
        [Input.event ⟨1, IN_MODIFY, 0, 16, "a.txt"⟩ ⟨0, 0⟩] ++ nextBatch true ++
        [Input.event ⟨1, IN_DELETE, 0, 16, "a.txt"⟩ ⟨0, 0⟩])).trace =
      delivered demoWatcher.trace ++
        [createdEvent (demoRoot.append (FsPath.ofName "a.txt")),
         modifiedEvent (demoRoot.append (FsPath.ofName "a.txt")),
         deletedEvent (demoRoot.append (FsPath.ofName "a.txt"))] :=
  poll_create_modify_delete_delivers_all demoWatcher "a.txt" IN_CREATE IN_MODIFY IN_DELETE
    0 0 0 16 16 16 ⟨0, 0⟩ ⟨0, 0⟩ ⟨0, 0⟩ false true (by decide) (by decide) (by decide)
    (by decide) (by decide) (by decide) (by decide) (by decide) (by decide) (by decide)

/-- C1 (counterexample): watching `D` without filter, the records Created(a.txt),
Modified(a.txt), Deleted(a.txt) of one batch on the root watch deliver three
events, Modified(D/a.txt) among them, not the two events Created(D/a.txt),
Deleted(D/a.txt); the translator of the completion-style backend, started on
`D`, delivers the same three events for the same three records. -/
theorem post_create_modify_not_suppressed :
    delivered (run demoWatcher
      [Input.wake Wake.readOk,
       Input.event ⟨1, IN_CREATE, 0, 16, "a.txt"⟩ ⟨0, 0⟩,
       Input.event ⟨1, IN_MODIFY, 0, 16, "a.txt"⟩ ⟨0, 0⟩,
       Input.event ⟨1, IN_DELETE, 0, 16, "a.txt"⟩ ⟨0, 0⟩]).trace =
      [createdEvent ⟨false, ["D", "a.txt"]⟩, modifiedEvent ⟨false, ["D", "a.txt"]⟩,
       deletedEvent ⟨false, ["D", "a.txt"]⟩] ∧
    delivered (run demoWatcher
      [Input.wake Wake.readOk,
       Input.event ⟨1, IN_CREATE, 0, 16, "a.txt"⟩ ⟨0, 0⟩,
       Input.event ⟨1, IN_MODIFY, 0, 16, "a.txt"⟩ ⟨0, 0⟩,
       Input.event ⟨1, IN_DELETE, 0, 16, "a.txt"⟩ ⟨0, 0⟩]).trace ≠
      [createdEvent ⟨false, ["D", "a.txt"]⟩, deletedEvent ⟨false, ["D", "a.txt"]⟩] ∧
    delivered (Windows.translate (Windows.Translator.start demoRoot FsPath.emptyPath)
      [⟨Windows.FILE_ACTION_ADDED, FsPath.ofName "a.txt", true⟩,
       ⟨Windows.FILE_ACTION_MODIFIED, FsPath.ofName "a.txt", true⟩,
       ⟨Windows.FILE_ACTION_REMOVED, FsPath.ofName "a.txt", true⟩]).trace =
      [createdEvent ⟨false, ["D", "a.txt"]⟩, modifiedEvent ⟨false, ["D", "a.txt"]⟩,
       deletedEvent ⟨false, ["D", "a.txt"]⟩] := by
  decide

/-- The completion-style translator does skip the Modified record after a
Created record when the same path was the subject of the latest Removed record:
`previouslyCreatedFile` is assigned in the `FILE_ACTION_REMOVED` case only. -/
theorem completion_skip_needs_earlier_removal :
    delivered (Windows.translate (Windows.Translator.start demoRoot FsPath.emptyPath)
      [⟨Windows.FILE_ACTION_REMOVED, FsPath.ofName "a.txt", true⟩,
       ⟨Windows.FILE_ACTION_ADDED, FsPath.ofName "a.txt", true⟩,
       ⟨Windows.FILE_ACTION_MODIFIED, FsPath.ofName "a.txt", true⟩]).trace =
      [deletedEvent ⟨false, ["D", "a.txt"]⟩, createdEvent ⟨false, ["D", "a.txt"]⟩] := by
  decide

/-! ### What the record loop leaves unchanged -/

theorem ConstructReturnPath_frame (st : Watcher) (n : String) (w : Int) :
    (ConstructReturnPath st n w).2.NDEBUG = st.NDEBUG ∧
    (ConstructReturnPath st n w).2.m_IsWatching = st.m_IsWatching ∧
    (ConstructReturnPath st n w).2.m_ObservedPath = st.m_ObservedPath ∧
    (ConstructReturnPath st n w).2.m_ObservedFile = st.m_ObservedFile ∧
    (ConstructReturnPath st n w).2.m_InternalState.InotifyInstance =
      st.m_InternalState.InotifyInstance ∧
    (ConstructReturnPath st n w).2.m_InternalState.RootWatchDescriptor =
      st.m_InternalState.RootWatchDescriptor ∧
    (ConstructReturnPath st n w).2.renamedFiles = st.renamedFiles ∧
    (ConstructReturnPath st n w).2.trace = st.trace ∧
    (ConstructReturnPath st n w).2.exited = st.exited ∧
    (ConstructReturnPath st n w).2.aborted = st.aborted := by
  unfold ConstructReturnPath
  split <;> simp [setSubdirs]

theorem onCreate_frame (st : Watcher) (e : inotify_event) (aw : SysResult) :
    (onCreate st e aw).NDEBUG = st.NDEBUG ∧
    (onCreate st e aw).m_IsWatching = st.m_IsWatching ∧
    (onCreate st e aw).m_ObservedPath = st.m_ObservedPath ∧
    (onCreate st e aw).m_ObservedFile = st.m_ObservedFile ∧
    (onCreate st e aw).m_InternalState.InotifyInstance = st.m_InternalState.InotifyInstance ∧
    (onCreate st e aw).m_InternalState.RootWatchDescriptor = st.m_InternalState.RootWatchDescriptor ∧
    (onCreate st e aw).renamedFiles = st.renamedFiles ∧
    (onCreate st e aw).exited = st.exited ∧
    (onCreate st e aw).aborted = st.aborted := by
  obtain ⟨c1, c2, c3, c4, c5, c6, c7, c8, c9, c10⟩ := ConstructReturnPath_frame st e.name e.wd
  simp only [onCreate]
  split_ifs <;> simp [m_Callback, osCall, setSubdirs, c1, c2, c3, c4, c5, c6, c7, c8, c9, c10]

theorem onDelete_frame (st : Watcher) (e : inotify_event) :
    (onDelete st e).NDEBUG = st.NDEBUG ∧
    (onDelete st e).m_IsWatching = st.m_IsWatching ∧
    (onDelete st e).m_ObservedPath = st.m_ObservedPath ∧
    (onDelete st e).m_ObservedFile = st.m_ObservedFile ∧
    (onDelete st e).m_InternalState.InotifyInstance = st.m_InternalState.InotifyInstance ∧
    (onDelete st e).m_InternalState.RootWatchDescriptor = st.m_InternalState.RootWatchDescriptor ∧
    (onDelete st e).renamedFiles = st.renamedFiles ∧
    (onDelete st e).exited = st.exited ∧
    (onDelete st e).aborted = st.aborted := by
  obtain ⟨c1, c2, c3, c4, c5, c6, c7, c8, c9, c10⟩ := ConstructReturnPath_frame st e.name e.wd
  simp only [onDelete]
  split_ifs <;> simp [m_Callback, osCall, setSubdirs, c1, c2, c3, c4, c5, c6, c7, c8, c9, c10]

theorem onModify_frame (st : Watcher) (e : inotify_event) :
    (onModify st e).NDEBUG = st.NDEBUG ∧
    (onModify st e).m_IsWatching = st.m_IsWatching ∧
    (onModify st e).m_ObservedPath = st.m_ObservedPath ∧
    (onModify st e).m_ObservedFile = st.m_ObservedFile ∧
    (onModify st e).m_InternalState.InotifyInstance = st.m_InternalState.InotifyInstance ∧
    (onModify st e).m_InternalState.RootWatchDescriptor = st.m_InternalState.RootWatchDescriptor ∧
    (onModify st e).renamedFiles = st.renamedFiles ∧
    (onModify st e).exited = st.exited ∧
    (onModify st e).aborted = st.aborted := by
  obtain ⟨c1, c2, c3, c4, c5, c6, c7, c8, c9, c10⟩ := ConstructReturnPath_frame st e.name e.wd
  simp only [onModify]
  split_ifs <;> simp [m_Callback, osCall, setSubdirs, c1, c2, c3, c4, c5, c6, c7, c8, c9, c10]

theorem onMovedFrom_frame (st : Watcher) (e : inotify_event) :
    (onMovedFrom st e).NDEBUG = st.NDEBUG ∧
    (onMovedFrom st e).m_IsWatching = st.m_IsWatching ∧
    (onMovedFrom st e).m_ObservedPath = st.m_ObservedPath ∧
    (onMovedFrom st e).m_ObservedFile = st.m_ObservedFile ∧
    (onMovedFrom st e).m_InternalState.InotifyInstance = st.m_InternalState.InotifyInstance ∧
    (onMovedFrom st e).m_InternalState.RootWatchDescriptor = st.m_InternalState.RootWatchDescriptor ∧
    (onMovedFrom st e).trace = st.trace ∧
    (onMovedFrom st e).exited = st.exited ∧
    (onMovedFrom st e).aborted = st.aborted := by
  obtain ⟨c1, c2, c3, c4, c5, c6, c7, c8, c9, c10⟩ := ConstructReturnPath_frame st e.name e.wd
  simp only [onMovedFrom]
  split_ifs <;> simp [m_Callback, osCall, setSubdirs, c1, c2, c3, c4, c5, c6, c7, c8, c9, c10]

theorem onMovedTo_frame (st : Watcher) (e : inotify_event) :
    (onMovedTo st e).NDEBUG = st.NDEBUG ∧
    (onMovedTo st e).m_IsWatching = st.m_IsWatching ∧
    (onMovedTo st e).m_ObservedPath = st.m_ObservedPath ∧
    (onMovedTo st e).m_ObservedFile = st.m_ObservedFile ∧
    (onMovedTo st e).m_InternalState.InotifyInstance = st.m_InternalState.InotifyInstance ∧
    (onMovedTo st e).m_InternalState.RootWatchDescriptor = st.m_InternalState.RootWatchDescriptor ∧
    (onMovedTo st e).exited = st.exited ∧
    (onMovedTo st e).aborted = st.aborted := by
  obtain ⟨c1, c2, c3, c4, c5, c6, c7, c8, c9, c10⟩ := ConstructReturnPath_frame st e.name e.wd
  simp only [onMovedTo]
  split_ifs <;> simp [m_Callback, osCall, setSubdirs, c1, c2, c3, c4, c5, c6, c7, c8, c9, c10]

theorem quitMonitoring_frame (st : Watcher) :
    (quitMonitoring st).NDEBUG = st.NDEBUG ∧
    (quitMonitoring st).m_ObservedPath = st.m_ObservedPath ∧
    (quitMonitoring st).m_ObservedFile = st.m_ObservedFile ∧
    (quitMonitoring st).m_InternalState.InotifyInstance = st.m_InternalState.InotifyInstance ∧
    (quitMonitoring st).m_InternalState.RootWatchDescriptor =
      st.m_InternalState.RootWatchDescriptor ∧
    (quitMonitoring st).renamedFiles = st.renamedFiles ∧
    (quitMonitoring st).exited = true := by
  simp only [quitMonitoring]
  split_ifs <;> simp [setSubdirs]

theorem handlers_frame (st : Watcher) (e : inotify_event) (aw : SysResult) :
    (onMovedTo (onMovedFrom (onModify (onDelete (onCreate st e aw) e) e) e) e).NDEBUG =
      st.NDEBUG ∧
    (onMovedTo (onMovedFrom (onModify (onDelete (onCreate st e aw) e) e) e) e).m_IsWatching =
      st.m_IsWatching ∧
    (onMovedTo (onMovedFrom (onModify (onDelete (onCreate st e aw) e) e) e) e).m_ObservedPath =
      st.m_ObservedPath ∧
    (onMovedTo (onMovedFrom (onModify (onDelete (onCreate st e aw) e) e) e) e).m_ObservedFile =
      st.m_ObservedFile ∧
    (onMovedTo (onMovedFrom (onModify (onDelete (onCreate st e aw) e) e) e)
      e).m_InternalState.InotifyInstance = st.m_InternalState.InotifyInstance ∧
    (onMovedTo (onMovedFrom (onModify (onDelete (onCreate st e aw) e) e) e)
      e).m_InternalState.RootWatchDescriptor = st.m_InternalState.RootWatchDescriptor ∧
    (onMovedTo (onMovedFrom (onModify (onDelete (onCreate st e aw) e) e) e) e).exited =
      st.exited ∧
    (onMovedTo (onMovedFrom (onModify (onDelete (onCreate st e aw) e) e) e) e).aborted =
      st.aborted := by
  obtain ⟨a1, a2, a3, a4, a5, a6, -, a8, a9⟩ := onCreate_frame st e aw
  obtain ⟨b1, b2, b3, b4, b5, b6, -, b8, b9⟩ := onDelete_frame (onCreate st e aw) e
  obtain ⟨c1, c2, c3, c4, c5, c6, -, c8, c9⟩ := onModify_frame (onDelete (onCreate st e aw) e) e
  obtain ⟨d1, d2, d3, d4, d5, d6, -, d8, d9⟩ :=
    onMovedFrom_frame (onModify (onDelete (onCreate st e aw) e) e) e
  obtain ⟨e1, e2, e3, e4, e5, e6, e8, e9⟩ :=
    onMovedTo_frame (onMovedFrom (onModify (onDelete (onCreate st e aw) e) e) e) e
  exact ⟨e1.trans (d1.trans (c1.trans (b1.trans a1))), e2.trans (d2.trans (c2.trans (b2.trans a2))),
    e3.trans (d3.trans (c3.trans (b3.trans a3))), e4.trans (d4.trans (c4.trans (b4.trans a4))),
    e5.trans (d5.trans (c5.trans (b5.trans a5))), e6.trans (d6.trans (c6.trans (b6.trans a6))),
    e8.trans (d8.trans (c8.trans (b8.trans a8))), e9.trans (d9.trans (c9.trans (b9.trans a9)))⟩

theorem processEvent_static (st : Watcher) (e : inotify_event) (aw : SysResult) :
    (processEvent st e aw).NDEBUG = st.NDEBUG ∧
    (processEvent st e aw).m_ObservedPath = st.m_ObservedPath ∧
    (processEvent st e aw).m_ObservedFile = st.m_ObservedFile ∧
    (processEvent st e aw).m_InternalState.InotifyInstance =
      st.m_InternalState.InotifyInstance ∧
    (processEvent st e aw).m_InternalState.RootWatchDescriptor =
      st.m_InternalState.RootWatchDescriptor := by
  unfold processEvent
  split
  · obtain ⟨q1, q2, q3, q4, q5, -, -⟩ := quitMonitoring_frame
      (m_Callback st FsPath.emptyPath none EFileAction.Error
        (error_code.fileWatcher EFileWatcherError.WatchedDirectoryWasDeleted))
    exact ⟨q1, q2, q3, q4, q5⟩
  · simp only []
    split
    · split <;> simp [osCall, setSubdirs]
    · obtain ⟨h1, -, h3, h4, h5, h6, -, -⟩ := handlers_frame
        (if invalidated e.mask &&
            umap_contains st.m_InternalState.SubdirectoryWatchDescriptors e.wd then
          setSubdirs (osCall st
            (Effect.inotify_rm_watch st.m_InternalState.RootWatchDescriptor e.wd))
            (umap_erase (osCall st
              (Effect.inotify_rm_watch st.m_InternalState.RootWatchDescriptor
                e.wd)).m_InternalState.SubdirectoryWatchDescriptors e.wd)
        else st) e aw
      rw [h1, h3, h4, h5, h6]
      split <;> simp [osCall, setSubdirs]

theorem step_static (st : Watcher) (i : Input) :
    (step st i).NDEBUG = st.NDEBUG ∧
    (step st i).m_ObservedPath = st.m_ObservedPath ∧
    (step st i).m_ObservedFile = st.m_ObservedFile ∧
    (step st i).m_InternalState.InotifyInstance = st.m_InternalState.InotifyInstance ∧
    (step st i).m_InternalState.RootWatchDescriptor =
      st.m_InternalState.RootWatchDescriptor := by
  cases i with
  | stop => simp [step]
  | wake w =>
    simp only [step]
    split
    · simp
    · unfold loopHead
      split
      · obtain ⟨q1, q2, q3, q4, q5, -, -⟩ := quitMonitoring_frame st
        exact ⟨q1, q2, q3, q4, q5⟩
      · cases w with
        | pollFailed e =>
          obtain ⟨q1, q2, q3, q4, q5, -, -⟩ := quitMonitoring_frame
            (m_Callback st FsPath.emptyPath none EFileAction.Error (error_code.system e))
          exact ⟨q1, q2, q3, q4, q5⟩
        | notReadable => simp
        | readFailed e =>
          obtain ⟨q1, q2, q3, q4, q5, -, -⟩ := quitMonitoring_frame
            (m_Callback st FsPath.emptyPath none EFileAction.Error (error_code.system e))
          exact ⟨q1, q2, q3, q4, q5⟩
        | readOk => simp
  | event e aw =>
    simp only [step]
    split
    · simp
    · exact processEvent_static st e aw

theorem run_static (st : Watcher) (xs : List Input) :
    (run st xs).NDEBUG = st.NDEBUG ∧
    (run st xs).m_ObservedPath = st.m_ObservedPath ∧
    (run st xs).m_ObservedFile = st.m_ObservedFile ∧
    (run st xs).m_InternalState.InotifyInstance = st.m_InternalState.InotifyInstance ∧
    (run st xs).m_InternalState.RootWatchDescriptor =
      st.m_InternalState.RootWatchDescriptor := by
  induction xs generalizing st with
  | nil => simp [run]
  | cons x xs ih =>
    obtain ⟨h1, h2, h3, h4, h5⟩ := ih (step st x)
    obtain ⟨g1, g2, g3, g4, g5⟩ := step_static st x
    rw [run_cons]
    exact ⟨h1.trans g1, h2.trans g2, h3.trans g3, h4.trans g4, h5.trans g5⟩

/-! ### C2: pairing the two halves of a rename -/

theorem onMovedFrom_pending (st : Watcher) (e : inotify_event) (c : Nat)
    (h : e.cookie = c → hasFlag e.mask IN_MOVED_FROM = false) :
    umap_find (onMovedFrom st e).renamedFiles c = umap_find st.renamedFiles c := by
  obtain ⟨-, -, -, -, -, -, c7, -, -, -⟩ := ConstructReturnPath_frame st e.name e.wd
  simp only [onMovedFrom]
  split
  · rename_i hflag
    have hne : e.cookie ≠ c := fun hc => by simp [h hc] at hflag
    simp [umap_find_assign_other _ _ _ _ hne, c7]
  · rfl

theorem onMovedTo_pending (st : Watcher) (e : inotify_event) (c : Nat)
    (h : e.cookie = c → hasFlag e.mask IN_MOVED_TO = false) :
    umap_find (onMovedTo st e).renamedFiles c = umap_find st.renamedFiles c := by
  obtain ⟨-, -, -, -, -, -, c7, -, -, -⟩ := ConstructReturnPath_frame st e.name e.wd
  simp only [onMovedTo]
  split
  · rename_i hflag
    have hne : e.cookie ≠ c := fun hc => by simp [h hc] at hflag
    split
    · simp [m_Callback, umap_find_erase_other _ _ _ hne, umap_find_index_other _ _ _ _ hne, c7]
    · rw [c7]
  · rfl

theorem processEvent_pending (st : Watcher) (e : inotify_event) (aw : SysResult) (c : Nat)
    (h : e.cookie = c →
      hasFlag e.mask IN_MOVED_FROM = false ∧ hasFlag e.mask IN_MOVED_TO = false) :
    umap_find (processEvent st e aw).renamedFiles c = umap_find st.renamedFiles c := by
  unfold processEvent
  split
  · obtain ⟨-, -, -, -, -, q6, -⟩ := quitMonitoring_frame
      (m_Callback st FsPath.emptyPath none EFileAction.Error
        (error_code.fileWatcher EFileWatcherError.WatchedDirectoryWasDeleted))
    rw [q6]
    rfl
  · simp only []
    have hst1 : (if invalidated e.mask &&
            umap_contains st.m_InternalState.SubdirectoryWatchDescriptors e.wd then
          setSubdirs (osCall st
            (Effect.inotify_rm_watch st.m_InternalState.RootWatchDescriptor e.wd))
            (umap_erase (osCall st
              (Effect.inotify_rm_watch st.m_InternalState.RootWatchDescriptor
                e.wd)).m_InternalState.SubdirectoryWatchDescriptors e.wd)
        else st).renamedFiles = st.renamedFiles := by
      split <;> simp [osCall, setSubdirs]
    split
    · rw [hst1]
    · rw [onMovedTo_pending _ e c (fun hc => (h hc).2),
        onMovedFrom_pending _ e c (fun hc => (h hc).1),
        (onModify_frame _ e).2.2.2.2.2.2.1, (onDelete_frame _ e).2.2.2.2.2.2.1,
        (onCreate_frame _ e aw).2.2.2.2.2.2.1, hst1]

theorem loopHead_renamedFiles (st : Watcher) (w : Wake) :
    (loopHead st w).renamedFiles = st.renamedFiles := by
  unfold loopHead
  split
  · exact (quitMonitoring_frame st).2.2.2.2.2.1
  · cases w with
    | pollFailed e => exact (quitMonitoring_frame _).2.2.2.2.2.1
    | notReadable => rfl
    | readFailed e => exact (quitMonitoring_frame _).2.2.2.2.2.1
    | readOk => rfl

theorem step_pending (st : Watcher) (i : Input) (c : Nat)
    (h : ∀ e aw, i = Input.event e aw → e.cookie = c →
      hasFlag e.mask IN_MOVED_FROM = false ∧ hasFlag e.mask IN_MOVED_TO = false) :
    umap_find (step st i).renamedFiles c = umap_find st.renamedFiles c := by
  cases i with
  | stop => rfl
  | wake w =>
    simp only [step]
    split
    · rfl
    · rw [loopHead_renamedFiles]
  | event e aw =>
    simp only [step]
    split
    · rfl
    · exact processEvent_pending st e aw c (h e aw rfl)

theorem run_pending (st : Watcher) (xs : List Input) (c : Nat)
    (h : ∀ e aw, Input.event e aw ∈ xs → e.cookie = c →
      hasFlag e.mask IN_MOVED_FROM = false ∧ hasFlag e.mask IN_MOVED_TO = false) :
    umap_find (run st xs).renamedFiles c = umap_find st.renamedFiles c := by
  induction xs generalizing st with
  | nil => rfl
  | cons x xs ih =>
    rw [run_cons, ih (step st x) (fun e aw hm => h e aw (List.mem_cons_of_mem _ hm))]
    exact step_pending st x c (fun e aw hx => h e aw (by rw [hx]; exact List.mem_cons_self _ _))

theorem processEvent_old_half (st : Watcher) (e : inotify_event) (aw : SysResult)
    (hk : kindIs e.mask IN_MOVED_FROM = true) (hl : e.len ≠ 0) :
    (processEvent st e aw).trace = st.trace ∧
    umap_find (processEvent st e aw).renamedFiles e.cookie =
      some (ConstructReturnPath st e.name e.wd).1 := by
  obtain ⟨a1, a2, a3, a4, a5, a6, a7, a8⟩ := kind_moved_from hk
  obtain ⟨-, -, -, -, -, -, -, c8, -, -⟩ := ConstructReturnPath_frame st e.name e.wd
  simp [processEvent, invalidated, onCreate, onDelete, onModify, onMovedFrom, onMovedTo,
    a1, a2, a3, a4, a5, a6, a7, a8, hl, umap_find_assign_same, c8]

theorem processEvent_new_half (st : Watcher) (e : inotify_event) (aw : SysResult)
    (old : FsPath) (hf : st.m_ObservedFile.empty = true)
    (hk : kindIs e.mask IN_MOVED_TO = true) (hl : e.len ≠ 0)
    (hp : umap_find st.renamedFiles e.cookie = some old) :
    (processEvent st e aw).trace =
      st.trace ++ [Effect.callback (renamedEvent old (ConstructReturnPath st e.name e.wd).1)] := by
  obtain ⟨a1, a2, a3, a4, a5, a6, a7, a8⟩ := kind_moved_to hk
  obtain ⟨-, -, -, c4, -, -, c7, c8, -, -⟩ := ConstructReturnPath_frame st e.name e.wd
  simp [processEvent, invalidated, onCreate, onDelete, onModify, onMovedFrom, onMovedTo,
    a1, a2, a3, a4, a5, a6, a7, a8, hl, passesFilter, c4, hf, c7, c8, m_Callback,
    umap_index_of_find _ _ _ _ hp, renamedEvent]

/-- C2: on a session without file filter, a rename old-half record
(IN_MOVED_FROM, cookie c, name a) delivers no event by itself; when, after any
inputs that carry no other rename half with cookie c (records of the same batch,
later batches, loop-head passes) and with the thread still running, the new-half
record (IN_MOVED_TO, cookie c, name b) is processed, it delivers exactly one
event: Renamed with path the old path as resolved when the old half arrived and
renamedTo the new path as resolved when the new half arrives. -/
theorem rename_pair_delivers_one_renamed (st : Watcher) (old new : inotify_event)
    (aw1 aw2 : SysResult) (mid : List Input)
    (hex : st.exited = false) (hf : st.m_ObservedFile.empty = true)
    (hold : kindIs old.mask IN_MOVED_FROM = true) (hol : old.len ≠ 0)
    (hnew : kindIs new.mask IN_MOVED_TO = true) (hnl : new.len ≠ 0)
    (hc : new.cookie = old.cookie)
    (hmid : ∀ e aw, Input.event e aw ∈ mid → e.cookie = old.cookie →
      hasFlag e.mask IN_MOVED_FROM = false ∧ hasFlag e.mask IN_MOVED_TO = false)
    (hact : (run (step st (Input.event old aw1)) mid).exited = false) :
    delivered (step st (Input.event old aw1)).trace = delivered st.trace ∧
    delivered (run st (Input.event old aw1 :: (mid ++ [Input.event new aw2]))).trace =
      delivered (run (step st (Input.event old aw1)) mid).trace ++
        [renamedEvent (ConstructReturnPath st old.name old.wd).1
          (ConstructReturnPath (run (step st (Input.event old aw1)) mid) new.name new.wd).1] := by
  obtain ⟨ht, hp⟩ := processEvent_old_half st old aw1 hold hol
  have hs : step st (Input.event old aw1) = processEvent st old aw1 := step_event st old aw1 hex
  constructor
  · rw [hs, ht]
  · have hp2 : umap_find (run (step st (Input.event old aw1)) mid).renamedFiles new.cookie =
        some (ConstructReturnPath st old.name old.wd).1 := by
      rw [hc, run_pending _ mid old.cookie hmid, hs]
      exact hp
    have hf2 : (run (step st (Input.event old aw1)) mid).m_ObservedFile.empty = true := by
      rw [(run_static _ mid).2.2.1, (step_static st _).2.2.1]
      exact hf
    rw [run_cons, run_append, run_cons, run_nil, step_event _ new aw2 hact,
      processEvent_new_half _ new aw2 _ hf2 hnew hnl hp2, delivered_append, delivered_callback]

/-- On the sample session the halves of the rename of `a.txt` to `b.txt` (cookie 7),
with a Modified record and a batch boundary between them, deliver one Renamed event. -/
theorem rename_pair_delivers_one_renamed_witness :
    delivered (step demoWatcher
      (Input.event ⟨1, IN_MOVED_FROM, 7, 16, "a.txt"⟩ ⟨0, 0⟩)).trace =
      delivered demoWatcher.trace ∧
    delivered (run demoWatcher
      (Input.event ⟨1, IN_MOVED_FROM, 7, 16, "a.txt"⟩ ⟨0, 0⟩ ::
        ([Input.event ⟨1, IN_MODIFY, 0, 16, "c.txt"⟩ ⟨0, 0⟩, Input.wake Wake.readOk] ++
          [Input.event ⟨1, IN_MOVED_TO, 7, 16, "b.txt"⟩ ⟨0, 0⟩]))).trace =
      delivered (run (step demoWatcher
          (Input.event ⟨1, IN_MOVED_FROM, 7, 16, "a.txt"⟩ ⟨0, 0⟩))
        [Input.event ⟨1, IN_MODIFY, 0, 16, "c.txt"⟩ ⟨0, 0⟩, Input.wake Wake.readOk]).trace ++
        [renamedEvent (ConstructReturnPath demoWatcher "a.txt" 1).1
          (ConstructReturnPath (run (step demoWatcher
              (Input.event ⟨1, IN_MOVED_FROM, 7, 16, "a.txt"⟩ ⟨0, 0⟩))
            [Input.event ⟨1, IN_MODIFY, 0, 16, "c.txt"⟩ ⟨0, 0⟩, Input.wake Wake.readOk])
            "b.txt" 1).1] :=
  rename_pair_delivers_one_renamed demoWatcher ⟨1, IN_MOVED_FROM, 7, 16, "a.txt"⟩
    ⟨1, IN_MOVED_TO, 7, 16, "b.txt"⟩ ⟨0, 0⟩ ⟨0, 0⟩
    [Input.event ⟨1, IN_MODIFY, 0, 16, "c.txt"⟩ ⟨0, 0⟩, Input.wake Wake.readOk]
    (by decide) (by decide) (by decide) (by decide) (by decide) (by decide) (by decide)
    (by
      intro e aw hm _
      simp only [List.mem_cons, List.mem_singleton, Input.event.injEq, reduceCtorEq,
        or_false, List.mem_nil_iff] at hm
      obtain ⟨he, -⟩ := hm
      subst he
      decide)
    (by decide)

/-! ### Leaving the loop: `quitMonitoring` -/

theorem releaseWatches_delivered (nd : Bool) (fd : Int) (m : List (Int × FsPath)) :
    delivered (releaseWatches nd fd m).1 = [] := by
  induction m with
  | nil => rfl
  | cons e m ih =>
    unfold releaseWatches
    split
    · rfl
    · simpa using ih

theorem releaseWatches_passes (nd : Bool) (fd : Int) (m : List (Int × FsPath))
    (h : nd = true ∨ ∀ e ∈ m, e.1 ≠ -1) : (releaseWatches nd fd m).2 = false := by
  induction m with
  | nil => rfl
  | cons e m ih =>
    unfold releaseWatches
    have h1 : (!nd && e.1 == -1) = false := by
      rcases h with h | h
      · simp [h]
      · simp [h e (List.mem_cons_self _ _)]
    rw [h1]
    simp only [Bool.false_eq_true, if_false]
    exact ih (h.imp id (fun h2 e1 he1 => h2 e1 (List.mem_cons_of_mem _ he1)))

theorem quitMonitoring_delivered (st : Watcher) :
    delivered (quitMonitoring st).trace = delivered st.trace := by
  simp only [quitMonitoring]
  split_ifs <;> simp [setSubdirs, delivered_append, releaseWatches_delivered]

theorem quitMonitoring_clean (st : Watcher)
    (h : st.NDEBUG = true ∨
      (st.renamedFiles = [] ∧ ∀ e ∈ st.m_InternalState.SubdirectoryWatchDescriptors, e.1 ≠ -1)) :
    (quitMonitoring st).m_IsWatching = false ∧
    (quitMonitoring st).m_InternalState.SubdirectoryWatchDescriptors = [] ∧
    (quitMonitoring st).aborted = st.aborted := by
  have h1 : (!st.NDEBUG && !st.renamedFiles.isEmpty) = false := by
    rcases h with h | h
    · simp [h]
    · simp [h.1]
  have h2 := releaseWatches_passes st.NDEBUG st.m_InternalState.InotifyInstance
    st.m_InternalState.SubdirectoryWatchDescriptors (h.imp id (fun h3 => h3.2))
  simp [quitMonitoring, h1, h2, setSubdirs]

theorem releaseWatches_all (fd : Int) (m : List (Int × FsPath)) (nd : Bool)
    (h : nd = true ∨ ∀ e ∈ m, e.1 ≠ -1) :
    (releaseWatches nd fd m).1 = m.map fun e => Effect.inotify_rm_watch fd e.1 := by
  induction m with
  | nil => rfl
  | cons e m ih =>
    unfold releaseWatches
    have h1 : (!nd && e.1 == -1) = false := by
      rcases h with h | h
      · simp [h]
      · simp [h e (List.mem_cons_self _ _)]
    rw [h1]
    simp only [Bool.false_eq_true, if_false, List.map_cons]
    rw [ih (h.imp id (fun h2 e1 he1 => h2 e1 (List.mem_cons_of_mem _ he1)))]

theorem quitMonitoring_calls (st : Watcher)
    (h : st.NDEBUG = true ∨
      (st.renamedFiles = [] ∧ ∀ e ∈ st.m_InternalState.SubdirectoryWatchDescriptors, e.1 ≠ -1)) :
    ∃ calls, (quitMonitoring st).trace = st.trace ++ calls ∧
      calls.Perm (st.m_InternalState.SubdirectoryWatchDescriptors.map
        (fun e => Effect.inotify_rm_watch st.m_InternalState.InotifyInstance e.1)) := by
  have h1 : (!st.NDEBUG && !st.renamedFiles.isEmpty) = false := by
    rcases h with h | h
    · simp [h]
    · simp [h.1]
  have h2 := releaseWatches_passes st.NDEBUG st.m_InternalState.InotifyInstance
    st.m_InternalState.SubdirectoryWatchDescriptors (h.imp id (fun h3 => h3.2))
  have h3 := releaseWatches_all st.m_InternalState.InotifyInstance
    st.m_InternalState.SubdirectoryWatchDescriptors st.NDEBUG (h.imp id (fun h3 => h3.2))
  refine ⟨_, ?_, List.Perm.refl _⟩
  simp [quitMonitoring, h1, h2, h3, setSubdirs]

theorem step_exited (st : Watcher) (i : Input) (h : st.exited = true) :
    (step st i).exited = true ∧ (step st i).trace = st.trace := by
  cases i <;> simp [step, h]

theorem run_exited (st : Watcher) (xs : List Input) (h : st.exited = true) :
    (run st xs).exited = true ∧ (run st xs).trace = st.trace := by
  induction xs generalizing st with
  | nil => exact ⟨h, rfl⟩
  | cons x xs ih =>
    obtain ⟨h1, h2⟩ := step_exited st x h
    obtain ⟨h3, h4⟩ := ih (step st x) h1
    exact ⟨h3, h4.trans h2⟩

/-! ### C3: invalidation of the root watch -/

/-- Root invalidation, where the teardown assertions hold (or are compiled
out): on an active session a record flagged `IN_IGNORED`, `IN_DELETE_SELF` or
`IN_MOVE_SELF` on the root watch descriptor delivers exactly one
`Error{WatchedDirectoryWasDeleted}`, the thread leaves, nothing that follows
delivers an event, the watch set is emptied and `m_IsWatching` is false. -/
theorem root_invalidation_ends_session (st : Watcher) (e : inotify_event) (aw : SysResult)
    (hex : st.exited = false) (hw : st.m_IsWatching = true)
    (hinv : invalidated e.mask = true) (hwd : e.wd = st.m_InternalState.RootWatchDescriptor)
    (hok : st.NDEBUG = true ∨
      (st.renamedFiles = [] ∧ ∀ x ∈ st.m_InternalState.SubdirectoryWatchDescriptors, x.1 ≠ -1)) :
    delivered (step st (Input.event e aw)).trace = delivered st.trace ++ [errorEvent rootDeleted] ∧
    (step st (Input.event e aw)).exited = true ∧
    (step st (Input.event e aw)).aborted = st.aborted ∧
    (step st (Input.event e aw)).m_IsWatching = false ∧
    (step st (Input.event e aw)).m_InternalState.SubdirectoryWatchDescriptors = [] ∧
    ∀ rest, delivered (run (step st (Input.event e aw)) rest).trace =
      delivered st.trace ++ [errorEvent rootDeleted] := by
  have hs : step st (Input.event e aw) =
      quitMonitoring (m_Callback st FsPath.emptyPath none EFileAction.Error rootDeleted) := by
    rw [step_event st e aw hex]
    simp [processEvent, hinv, hwd, hw, rootDeleted]
  have hd : delivered (step st (Input.event e aw)).trace =
      delivered st.trace ++ [errorEvent rootDeleted] := by
    rw [hs, quitMonitoring_delivered]
    simp [m_Callback, delivered_append, errorEvent]
  have hq := quitMonitoring_frame
    (m_Callback st FsPath.emptyPath none EFileAction.Error rootDeleted)
  obtain ⟨c1, c2, c3⟩ := quitMonitoring_clean
    (m_Callback st FsPath.emptyPath none EFileAction.Error rootDeleted) hok
  refine ⟨hd, ?_, ?_, ?_, ?_, ?_⟩
  · rw [hs]; exact hq.2.2.2.2.2.2
  · rw [hs]; exact c3
  · rw [hs]; exact c1
  · rw [hs]; exact c2
  · intro rest
    rw [(run_exited _ rest (by rw [hs]; exact hq.2.2.2.2.2.2)).2]
    exact hd

/-- On the sample session, which has no pending rename, `IN_DELETE_SELF` on the
root watch delivers the one error and leaves `m_IsWatching` false. -/
theorem root_invalidation_ends_session_witness :
    delivered (step demoWatcher (Input.event ⟨1, IN_DELETE_SELF, 0, 0, ""⟩ ⟨0, 0⟩)).trace =
      delivered demoWatcher.trace ++ [errorEvent rootDeleted] ∧
    (step demoWatcher (Input.event ⟨1, IN_DELETE_SELF, 0, 0, ""⟩ ⟨0, 0⟩)).m_IsWatching = false :=
  have h := root_invalidation_ends_session demoWatcher ⟨1, IN_DELETE_SELF, 0, 0, ""⟩ ⟨0, 0⟩
    (by decide) (by decide) (by decide) (by decide) (Or.inr (by decide))
  ⟨h.1, h.2.2.2.1⟩

/-- C3 (failing input): assertions compiled in, watching `D`; `D/a.txt` is moved
out of the watched tree (an `IN_MOVED_FROM` record whose new half never comes),
then `D` is deleted (`IN_DELETE_SELF` on the root watch). The callback receives
the one `Error{WatchedDirectoryWasDeleted}` and the loop is left, but
`assert(renamedFiles.empty())` fails at `quitMonitoring`: the process aborts
with `m_IsWatching` still true. -/
theorem root_invalidation_with_pending_rename_aborts :
    delivered (run demoWatcher
      [Input.wake Wake.readOk,
       Input.event ⟨1, IN_MOVED_FROM, 7, 16, "a.txt"⟩ ⟨0, 0⟩,
       Input.wake Wake.readOk,
       Input.event ⟨1, IN_DELETE_SELF, 0, 0, ""⟩ ⟨0, 0⟩]).trace = [errorEvent rootDeleted] ∧
    (run demoWatcher
      [Input.wake Wake.readOk,
       Input.event ⟨1, IN_MOVED_FROM, 7, 16, "a.txt"⟩ ⟨0, 0⟩,
       Input.wake Wake.readOk,
       Input.event ⟨1, IN_DELETE_SELF, 0, 0, ""⟩ ⟨0, 0⟩]).exited = true ∧
    (run demoWatcher
      [Input.wake Wake.readOk,
       Input.event ⟨1, IN_MOVED_FROM, 7, 16, "a.txt"⟩ ⟨0, 0⟩,
       Input.wake Wake.readOk,
       Input.event ⟨1, IN_DELETE_SELF, 0, 0, ""⟩ ⟨0, 0⟩]).aborted = true ∧
    (run demoWatcher
      [Input.wake Wake.readOk,
       Input.event ⟨1, IN_MOVED_FROM, 7, 16, "a.txt"⟩ ⟨0, 0⟩,
       Input.wake Wake.readOk,
       Input.event ⟨1, IN_DELETE_SELF, 0, 0, ""⟩ ⟨0, 0⟩]).m_IsWatching = true := by
  decide

/-! ### C4: the single-file filter -/

/-- C4 (failing input): watching `D` filtered to `x.txt`, the rename of
`D/a.txt` to `D/b.txt` (old half and new half with cookie 7 on the root watch)
is delivered as Renamed(D/a.txt, D/b.txt), although neither filename is `x.txt`:
the new-half test accepts every cookie that is pending, and the old half is
stored whatever its name. -/
theorem filtered_session_delivers_foreign_rename :
    delivered (run demoFiltered
      [Input.wake Wake.readOk,
       Input.event ⟨1, IN_MOVED_FROM, 7, 16, "a.txt"⟩ ⟨0, 0⟩,
       Input.event ⟨1, IN_MOVED_TO, 7, 16, "b.txt"⟩ ⟨0, 0⟩]).trace =
      [renamedEvent ⟨false, ["D", "a.txt"]⟩ ⟨false, ["D", "b.txt"]⟩] ∧
    (⟨false, ["D", "a.txt"]⟩ : FsPath).filename ≠ demoFiltered.m_ObservedFile ∧
    (⟨false, ["D", "b.txt"]⟩ : FsPath).filename ≠ demoFiltered.m_ObservedFile := by
  decide

/-! ### C7: failure of `poll` or `read` -/

/-- C7 (amended): on an active session, a pass through the loop head in which
`poll` or `read` fails with the OS error `e` invokes the callback exactly once,
with an Error event carrying `e`, and then leaves the loop through
`quitMonitoring`: no later wait, read or record delivers anything; where the
teardown assertions hold (or are compiled out) the subdirectory watches are
released (what follows the callback in the trace is, up to order, one
`inotify_rm_watch` on the inotify instance for each entry of the watch set),
the watch set is emptied and `m_IsWatching` is false. -/
theorem backend_failure_ends_loop (st : Watcher) (w : Wake) (e : Int)
    (hfail : w = Wake.pollFailed e ∨ w = Wake.readFailed e)
    (hex : st.exited = false) (hw : st.m_IsWatching = true) :
    delivered (step st (Input.wake w)).trace =
      delivered st.trace ++ [errorEvent (error_code.system e)] ∧
    (step st (Input.wake w)).exited = true ∧
    (∀ rest, delivered (run (step st (Input.wake w)) rest).trace =
      delivered st.trace ++ [errorEvent (error_code.system e)]) ∧
    (st.NDEBUG = true ∨
        (st.renamedFiles = [] ∧
          ∀ x ∈ st.m_InternalState.SubdirectoryWatchDescriptors, x.1 ≠ -1) →
      (step st (Input.wake w)).m_IsWatching = false ∧
      (step st (Input.wake w)).m_InternalState.SubdirectoryWatchDescriptors = [] ∧
      (step st (Input.wake w)).aborted = st.aborted ∧
      ∃ calls, (step st (Input.wake w)).trace =
          st.trace ++ [Effect.callback (errorEvent (error_code.system e))] ++ calls ∧
        calls.Perm (st.m_InternalState.SubdirectoryWatchDescriptors.map
          (fun x => Effect.inotify_rm_watch st.m_InternalState.InotifyInstance x.1))) := by
  have hs : step st (Input.wake w) =
      quitMonitoring (m_Callback st FsPath.emptyPath none EFileAction.Error
        (error_code.system e)) := by
    rcases hfail with h | h <;> simp [h, step, hex, loopHead, hw]
  have hd : delivered (step st (Input.wake w)).trace =
      delivered st.trace ++ [errorEvent (error_code.system e)] := by
    rw [hs, quitMonitoring_delivered]
    simp [m_Callback, delivered_append, errorEvent]
  have hq := quitMonitoring_frame
    (m_Callback st FsPath.emptyPath none EFileAction.Error (error_code.system e))
  refine ⟨hd, ?_, ?_, ?_⟩
  · rw [hs]; exact hq.2.2.2.2.2.2
  · intro rest
    rw [(run_exited _ rest (by rw [hs]; exact hq.2.2.2.2.2.2)).2]
    exact hd
  · intro hok
    obtain ⟨c1, c2, c3⟩ := quitMonitoring_clean
      (m_Callback st FsPath.emptyPath none EFileAction.Error (error_code.system e)) hok
    obtain ⟨calls, k1, k2⟩ := quitMonitoring_calls
      (m_Callback st FsPath.emptyPath none EFileAction.Error (error_code.system e)) hok
    rw [hs]
    exact ⟨c1, c2, c3, calls, k1, k2⟩

/-- On the sample session with `D/sub` under watch-id 2, a `read` failing with
`EIO` (5) delivers one Error event carrying it, the thread leaves the loop, and
the calls after the callback are, up to order, the one release of watch-id 2. -/
theorem backend_failure_ends_loop_witness :
    delivered (step demoWithSubdir (Input.wake (Wake.readFailed 5))).trace =
      delivered demoWithSubdir.trace ++ [errorEvent (error_code.system 5)] ∧
    (step demoWithSubdir (Input.wake (Wake.readFailed 5))).exited = true ∧
    (step demoWithSubdir (Input.wake (Wake.readFailed 5))).m_IsWatching = false ∧
    ∃ calls, (step demoWithSubdir (Input.wake (Wake.readFailed 5))).trace =
        demoWithSubdir.trace ++ [Effect.callback (errorEvent (error_code.system 5))] ++ calls ∧
      calls.Perm (demoWithSubdir.m_InternalState.SubdirectoryWatchDescriptors.map
        (fun x => Effect.inotify_rm_watch demoWithSubdir.m_InternalState.InotifyInstance x.1)) :=
  have h := backend_failure_ends_loop demoWithSubdir (Wake.readFailed 5) 5 (Or.inr rfl)
    (by decide) (by decide)
  ⟨h.1, h.2.1, (h.2.2.2 (Or.inr (by decide))).1, (h.2.2.2 (Or.inr (by decide))).2.2.2⟩

/-- C7 (counterexample): on the sample session a `read` failing with `EIO` (5)
delivers the Error event, after which the thread has left the loop and
`m_IsWatching` is false; the batch that a further wait would have read (a
Created record) delivers nothing. -/
theorem read_failure_is_fatal :
    (run demoWatcher [Input.wake (Wake.readFailed 5)]).m_IsWatching = false ∧
    (run demoWatcher [Input.wake (Wake.readFailed 5)]).exited = true ∧
    delivered (run demoWatcher
      [Input.wake (Wake.readFailed 5), Input.wake Wake.readOk,
       Input.event ⟨1, IN_CREATE, 0, 16, "a.txt"⟩ ⟨0, 0⟩]).trace =
      [errorEvent (error_code.system 5)] := by
  decide

end Linux

/-! ### C8: the arguments of a Renamed callback in the completion-style backend -/

namespace Windows

/-- C8 (failing input): watching `D` without filter, the records
`FILE_ACTION_RENAMED_OLD_NAME` for `a.txt` and `FILE_ACTION_RENAMED_NEW_NAME`
for `b.txt` invoke the callback once with action Renamed, but with path `D/b.txt`
(the new path) and renamedTo `D/a.txt` (the old path); the callback of `main`
prints the pair as `Renamed: D/b.txt to D/a.txt`, while the poll-style loop
delivers the same rename with path `D/a.txt` and renamedTo `D/b.txt`. -/
theorem completion_rename_arguments_swapped :
    delivered (translate (Translator.start Linux.demoRoot FsPath.emptyPath)
      [⟨FILE_ACTION_RENAMED_OLD_NAME, FsPath.ofName "a.txt", true⟩,
       ⟨FILE_ACTION_RENAMED_NEW_NAME, FsPath.ofName "b.txt", true⟩]).trace =
      [⟨⟨false, ["D", "b.txt"]⟩, some ⟨false, ["D", "a.txt"]⟩, EFileAction.Renamed,
        error_code.cleared⟩] ∧
    (delivered (translate (Translator.start Linux.demoRoot FsPath.emptyPath)
      [⟨FILE_ACTION_RENAMED_OLD_NAME, FsPath.ofName "a.txt", true⟩,
       ⟨FILE_ACTION_RENAMED_NEW_NAME, FsPath.ofName "b.txt", true⟩]).trace).map
        mainRenamedLine =
      [some (⟨false, ["D", "b.txt"]⟩, ⟨false, ["D", "a.txt"]⟩)] ∧
    delivered (Linux.run Linux.demoWatcher
      [Linux.Input.wake Linux.Wake.readOk,
       Linux.Input.event ⟨1, Linux.IN_MOVED_FROM, 7, 16, "a.txt"⟩ ⟨0, 0⟩,
       Linux.Input.event ⟨1, Linux.IN_MOVED_TO, 7, 16, "b.txt"⟩ ⟨0, 0⟩]).trace =
      [⟨⟨false, ["D", "a.txt"]⟩, some ⟨false, ["D", "b.txt"]⟩, EFileAction.Renamed,
        error_code.cleared⟩] := by
  decide

/-- The swap holds for every directory and every pair of names: from any state
of the translator without file filter, the old-name record followed by the
new-name record appends exactly one callback, Renamed, whose path is the new
path and whose renamedTo is the old path. -/
theorem completion_rename_delivers_new_then_old (st : Translator) (a b : FsPath)
    (hf : st.m_ObservedFile.empty = true) :
    (translate st [⟨FILE_ACTION_RENAMED_OLD_NAME, a, true⟩,
        ⟨FILE_ACTION_RENAMED_NEW_NAME, b, true⟩]).trace =
      st.trace ++ [Effect.callback ⟨st.m_ObservedPath.append b,
        some (st.m_ObservedPath.append a), EFileAction.Renamed, error_code.cleared⟩] := by
  simp [translate, translateRecord, ConstructFullPath, passesFilter, hf, m_Callback,
    FILE_ACTION_RENAMED_OLD_NAME, FILE_ACTION_RENAMED_NEW_NAME, FILE_ACTION_ADDED,
    FILE_ACTION_REMOVED, FILE_ACTION_MODIFIED]

end Windows

namespace Linux

/-! ### C5: a watch for a created subdirectory -/

theorem setSubdirs_self (st : Watcher) :
    setSubdirs st st.m_InternalState.SubdirectoryWatchDescriptors = st := by
  cases st
  rfl

theorem ConstructReturnPath_known (st : Watcher) (n : String) (w : Int) (dirw : FsPath)
    (h : (w = st.m_InternalState.RootWatchDescriptor ∧ dirw = st.m_ObservedPath) ∨
      (w ≠ st.m_InternalState.RootWatchDescriptor ∧
        umap_find st.m_InternalState.SubdirectoryWatchDescriptors w = some dirw)) :
    ConstructReturnPath st n w = (dirw.append (FsPath.ofName n), st) := by
  rcases h with ⟨h1, h2⟩ | ⟨h1, h2⟩
  · rw [h1, h2]
    exact ConstructReturnPath_root st n
  · have h3 : st.m_InternalState.RootWatchDescriptor ≠ w := fun h4 => h1 h4.symm
    simp [ConstructReturnPath, h3, umap_index_of_find _ _ _ _ h2, setSubdirs_self]

theorem umap_find_index_keeps {κ ν : Type} [DecidableEq κ] (m : List (κ × ν)) (k w : κ)
    (d v : ν) (h : umap_find m k = some v) : umap_find (umap_index m w d).2 k = some v := by
  unfold umap_index
  cases hf : umap_find m w with
  | some x => exact h
  | none =>
    have hne : w ≠ k := fun hwk => by rw [hwk, h] at hf; cases hf
    simp [umap_find, hne, h]

theorem ConstructReturnPath_keeps (st : Watcher) (n : String) (w k : Int) (v : FsPath)
    (h : umap_find st.m_InternalState.SubdirectoryWatchDescriptors k = some v) :
    umap_find (ConstructReturnPath st n w).2.m_InternalState.SubdirectoryWatchDescriptors k =
      some v := by
  unfold ConstructReturnPath
  split
  · simpa [setSubdirs] using umap_find_index_keeps _ k w FsPath.emptyPath v h
  · exact h

theorem onCreate_keeps (st : Watcher) (e : inotify_event) (aw : SysResult) (k : Int)
    (v : FsPath) (h : umap_find st.m_InternalState.SubdirectoryWatchDescriptors k = some v)
    (hreg : hasFlag e.mask IN_CREATE = true → hasFlag e.mask IN_ISDIR = true → aw.ret ≠ k) :
    umap_find (onCreate st e aw).m_InternalState.SubdirectoryWatchDescriptors k = some v := by
  have h1 := ConstructReturnPath_keeps st e.name e.wd k v h
  simp only [onCreate]
  split_ifs with g1 g2 g3 g4 g5 g6 <;>
    first
    | exact h
    | simpa [m_Callback, osCall, setSubdirs] using h1
    | simpa [m_Callback, osCall, setSubdirs, umap_find_assign_other _ _ _ _ (hreg g1 g2)]
        using h1

theorem onDelete_keeps (st : Watcher) (e : inotify_event) (k : Int) (v : FsPath)
    (h : umap_find st.m_InternalState.SubdirectoryWatchDescriptors k = some v) :
    umap_find (onDelete st e).m_InternalState.SubdirectoryWatchDescriptors k = some v := by
  have h1 := ConstructReturnPath_keeps st e.name e.wd k v h
  simp only [onDelete]
  split_ifs <;> first | exact h | simpa [m_Callback] using h1

theorem onModify_keeps (st : Watcher) (e : inotify_event) (k : Int) (v : FsPath)
    (h : umap_find st.m_InternalState.SubdirectoryWatchDescriptors k = some v) :
    umap_find (onModify st e).m_InternalState.SubdirectoryWatchDescriptors k = some v := by
  have h1 := ConstructReturnPath_keeps st e.name e.wd k v h
  simp only [onModify]
  split_ifs <;> first | exact h | simpa [m_Callback] using h1

theorem onMovedFrom_keeps (st : Watcher) (e : inotify_event) (k : Int) (v : FsPath)
    (h : umap_find st.m_InternalState.SubdirectoryWatchDescriptors k = some v) :
    umap_find (onMovedFrom st e).m_InternalState.SubdirectoryWatchDescriptors k = some v := by
  have h1 := ConstructReturnPath_keeps st e.name e.wd k v h
  simp only [onMovedFrom]
  split_ifs <;> first | exact h | simpa [m_Callback] using h1

theorem onMovedTo_keeps (st : Watcher) (e : inotify_event) (k : Int) (v : FsPath)
    (h : umap_find st.m_InternalState.SubdirectoryWatchDescriptors k = some v) :
    umap_find (onMovedTo st e).m_InternalState.SubdirectoryWatchDescriptors k = some v := by
  have h1 := ConstructReturnPath_keeps st e.name e.wd k v h
  simp only [onMovedTo]
  split_ifs <;> first | exact h | simpa [m_Callback] using h1

theorem processEvent_keeps (st : Watcher) (e : inotify_event) (aw : SysResult) (k : Int)
    (v : FsPath) (h : umap_find st.m_InternalState.SubdirectoryWatchDescriptors k = some v)
    (hrun : (processEvent st e aw).exited = false)
    (hinv : e.wd = k → invalidated e.mask = false)
    (hreg : hasFlag e.mask IN_CREATE = true → hasFlag e.mask IN_ISDIR = true → aw.ret ≠ k) :
    umap_find (processEvent st e aw).m_InternalState.SubdirectoryWatchDescriptors k =
      some v := by
  unfold processEvent at hrun ⊢
  split at hrun
  · rw [(quitMonitoring_frame _).2.2.2.2.2.2] at hrun
    cases hrun
  · rename_i hq
    rw [if_neg hq]
    simp only []
    have hst1 : umap_find (if invalidated e.mask &&
            umap_contains st.m_InternalState.SubdirectoryWatchDescriptors e.wd then
          setSubdirs (osCall st
            (Effect.inotify_rm_watch st.m_InternalState.RootWatchDescriptor e.wd))
            (umap_erase (osCall st
              (Effect.inotify_rm_watch st.m_InternalState.RootWatchDescriptor
                e.wd)).m_InternalState.SubdirectoryWatchDescriptors e.wd)
        else st).m_InternalState.SubdirectoryWatchDescriptors k = some v := by
      split
      · rename_i hc
        have hne : e.wd ≠ k := fun hwk => by simp [hinv hwk] at hc
        simpa [osCall, setSubdirs, umap_find_erase_other _ _ _ hne] using h
      · exact h
    split
    · exact hst1
    · exact onMovedTo_keeps _ e k v (onMovedFrom_keeps _ e k v (onModify_keeps _ e k v
        (onDelete_keeps _ e k v (onCreate_keeps _ e aw k v hst1 hreg))))

theorem loopHead_keeps (st : Watcher) (w : Wake) (hrun : (loopHead st w).exited = false) :
    loopHead st w = st := by
  unfold loopHead at hrun ⊢
  split at hrun
  · rw [(quitMonitoring_frame _).2.2.2.2.2.2] at hrun
    cases hrun
  · rename_i hq
    rw [if_neg hq]
    cases w with
    | pollFailed e =>
      simp only [] at hrun
      rw [(quitMonitoring_frame _).2.2.2.2.2.2] at hrun
      cases hrun
    | notReadable => rfl
    | readFailed e =>
      simp only [] at hrun
      rw [(quitMonitoring_frame _).2.2.2.2.2.2] at hrun
      cases hrun
    | readOk => rfl

theorem step_keeps (st : Watcher) (i : Input) (k : Int) (v : FsPath)
    (h : umap_find st.m_InternalState.SubdirectoryWatchDescriptors k = some v)
    (hrun : (step st i).exited = false)
    (hi : ∀ x awx, i = Input.event x awx →
      (x.wd = k → invalidated x.mask = false) ∧
      (hasFlag x.mask IN_CREATE = true → hasFlag x.mask IN_ISDIR = true → awx.ret ≠ k)) :
    umap_find (step st i).m_InternalState.SubdirectoryWatchDescriptors k = some v := by
  cases i with
  | stop => exact h
  | wake w =>
    simp only [step] at hrun ⊢
    split
    · exact h
    · rename_i hx
      rw [if_neg hx] at hrun
      rw [loopHead_keeps st w hrun]
      exact h
  | event e aw =>
    simp only [step] at hrun ⊢
    split
    · exact h
    · rename_i hx
      rw [if_neg hx] at hrun
      exact processEvent_keeps st e aw k v h hrun (hi e aw rfl).1 (hi e aw rfl).2

theorem run_running (st : Watcher) (xs : List Input) (h : (run st xs).exited = false) :
    st.exited = false := by
  cases hx : st.exited with
  | false => rfl
  | true => rw [(run_exited st xs hx).1] at h; cases h

theorem run_keeps (st : Watcher) (xs : List Input) (k : Int) (v : FsPath)
    (h : umap_find st.m_InternalState.SubdirectoryWatchDescriptors k = some v)
    (hrun : (run st xs).exited = false)
    (hi : ∀ x awx, Input.event x awx ∈ xs →
      (x.wd = k → invalidated x.mask = false) ∧
      (hasFlag x.mask IN_CREATE = true → hasFlag x.mask IN_ISDIR = true → awx.ret ≠ k)) :
    umap_find (run st xs).m_InternalState.SubdirectoryWatchDescriptors k = some v := by
  induction xs generalizing st with
  | nil => exact h
  | cons x xs ih =>
    rw [run_cons] at hrun ⊢
    exact ih (step st x)
      (step_keeps st x k v h (run_running _ xs hrun)
        (fun y awy hy => hi y awy (by rw [hy]; exact List.mem_cons_self _ _)))
      hrun (fun y awy hy => hi y awy (List.mem_cons_of_mem _ hy))

theorem processEvent_create_directory (st : Watcher) (e : inotify_event) (aw : SysResult)
    (dirw : FsPath) (hf : st.m_ObservedFile.empty = true)
    (hk : kindIs e.mask IN_CREATE = true) (hdir : hasFlag e.mask IN_ISDIR = true)
    (hl : e.len ≠ 0)
    (hknown : (e.wd = st.m_InternalState.RootWatchDescriptor ∧ dirw = st.m_ObservedPath) ∨
      (e.wd ≠ st.m_InternalState.RootWatchDescriptor ∧
        umap_find st.m_InternalState.SubdirectoryWatchDescriptors e.wd = some dirw))
    (hret : aw.ret ≠ -1) :
    processEvent st e aw =
      m_Callback
        (setSubdirs
          (osCall st (Effect.inotify_add_watch st.m_InternalState.InotifyInstance
            (dirw.append (FsPath.ofName e.name))))
          (umap_assign st.m_InternalState.SubdirectoryWatchDescriptors aw.ret
            (dirw.append (FsPath.ofName e.name))))
        (dirw.append (FsPath.ofName e.name)) none EFileAction.Created error_code.cleared := by
  obtain ⟨a1, a2, a3, a4, a5, a6, a7, a8⟩ := kind_create hk
  simp [processEvent, invalidated, onCreate, onDelete, onModify, onMovedFrom, onMovedTo,
    a1, a2, a3, a4, a5, a6, a7, a8, hdir, hl, ConstructReturnPath_known st e.name e.wd dirw hknown,
    passesFilter, hf, hret, osCall, setSubdirs, m_Callback]

theorem processEvent_create_inside (st : Watcher) (e : inotify_event) (aw : SysResult)
    (dirw : FsPath) (hf : st.m_ObservedFile.empty = true)
    (hk : kindIs e.mask IN_CREATE = true) (hl : e.len ≠ 0)
    (hknown : (e.wd = st.m_InternalState.RootWatchDescriptor ∧ dirw = st.m_ObservedPath) ∨
      (e.wd ≠ st.m_InternalState.RootWatchDescriptor ∧
        umap_find st.m_InternalState.SubdirectoryWatchDescriptors e.wd = some dirw)) :
    delivered (processEvent st e aw).trace = delivered st.trace ++
      (if hasFlag e.mask IN_ISDIR = true ∧ aw.ret = -1 then
        [⟨dirw.append (FsPath.ofName e.name), none, EFileAction.Error,
          error_code.system aw.errno⟩]
      else []) ++ [createdEvent (dirw.append (FsPath.ofName e.name))] := by
  obtain ⟨a1, a2, a3, a4, a5, a6, a7, a8⟩ := kind_create hk
  by_cases hdir : hasFlag e.mask IN_ISDIR = true
  · by_cases hret : aw.ret = -1
    · simp [processEvent, invalidated, onCreate, onDelete, onModify, onMovedFrom, onMovedTo,
        a1, a2, a3, a4, a5, a6, a7, a8, hdir, hl,
        ConstructReturnPath_known st e.name e.wd dirw hknown,
        passesFilter, hf, hret, osCall, setSubdirs, m_Callback, createdEvent,
        delivered_append]
    · simp [processEvent, invalidated, onCreate, onDelete, onModify, onMovedFrom, onMovedTo,
        a1, a2, a3, a4, a5, a6, a7, a8, hdir, hl,
        ConstructReturnPath_known st e.name e.wd dirw hknown,
        passesFilter, hf, hret, osCall, setSubdirs, m_Callback, createdEvent,
        delivered_append]
  · simp [processEvent, invalidated, onCreate, onDelete, onModify, onMovedFrom, onMovedTo,
      a1, a2, a3, a4, a5, a6, a7, a8, hdir, hl,
      ConstructReturnPath_known st e.name e.wd dirw hknown,
      passesFilter, hf, osCall, setSubdirs, m_Callback, createdEvent, delivered_append]

/-- C5 (amended): on a session without file filter, a Created record flagged as
a directory, with name d, on a known watch-id w, whose registration answers a
watch-id k other than the root watch descriptor: the registration call is made,
the entry k -> P, P = dir(w)/d, is put in the watch set, and the callback is
then invoked, on the state that holds the entry, with Created(P), the one event
delivered for the record; and a later Created record with name n on watch-id k
is delivered as Created(P/n) (after an Error event when it is a directory whose
own registration fails), provided the thread is still running and no input in
between carries a watch-invalidated record for k or a registration answering k. -/
theorem created_directory_is_watched (st : Watcher) (e : inotify_event) (aw : SysResult)
    (dirw : FsPath) (mid : List Input) (e2 : inotify_event) (aw2 : SysResult)
    (hex : st.exited = false) (hf : st.m_ObservedFile.empty = true)
    (hk : kindIs e.mask IN_CREATE = true) (hdir : hasFlag e.mask IN_ISDIR = true)
    (hl : e.len ≠ 0)
    (hknown : (e.wd = st.m_InternalState.RootWatchDescriptor ∧ dirw = st.m_ObservedPath) ∨
      (e.wd ≠ st.m_InternalState.RootWatchDescriptor ∧
        umap_find st.m_InternalState.SubdirectoryWatchDescriptors e.wd = some dirw))
    (hret : aw.ret ≠ -1) (hroot : aw.ret ≠ st.m_InternalState.RootWatchDescriptor)
    (hmid : ∀ x awx, Input.event x awx ∈ mid →
      (x.wd = aw.ret → invalidated x.mask = false) ∧
      (hasFlag x.mask IN_CREATE = true → hasFlag x.mask IN_ISDIR = true → awx.ret ≠ aw.ret))
    (hact : (run (step st (Input.event e aw)) mid).exited = false)
    (hk2 : kindIs e2.mask IN_CREATE = true) (hl2 : e2.len ≠ 0) (hwd2 : e2.wd = aw.ret) :
    step st (Input.event e aw) =
      m_Callback
        (setSubdirs
          (osCall st (Effect.inotify_add_watch st.m_InternalState.InotifyInstance
            (dirw.append (FsPath.ofName e.name))))
          (umap_assign st.m_InternalState.SubdirectoryWatchDescriptors aw.ret
            (dirw.append (FsPath.ofName e.name))))
        (dirw.append (FsPath.ofName e.name)) none EFileAction.Created error_code.cleared ∧
    (step st (Input.event e aw)).trace = st.trace ++
      [Effect.inotify_add_watch st.m_InternalState.InotifyInstance
          (dirw.append (FsPath.ofName e.name)),
        Effect.callback (createdEvent (dirw.append (FsPath.ofName e.name)))] ∧
    umap_find (step st (Input.event e aw)).m_InternalState.SubdirectoryWatchDescriptors aw.ret =
      some (dirw.append (FsPath.ofName e.name)) ∧
    delivered (step (run (step st (Input.event e aw)) mid) (Input.event e2 aw2)).trace =
      delivered (run (step st (Input.event e aw)) mid).trace ++
        (if hasFlag e2.mask IN_ISDIR = true ∧ aw2.ret = -1 then
          [⟨(dirw.append (FsPath.ofName e.name)).append (FsPath.ofName e2.name), none,
            EFileAction.Error, error_code.system aw2.errno⟩]
        else []) ++
        [createdEvent ((dirw.append (FsPath.ofName e.name)).append (FsPath.ofName e2.name))] := by
  have h0 := processEvent_create_directory st e aw dirw hf hk hdir hl hknown hret
  have hs : step st (Input.event e aw) = processEvent st e aw := step_event st e aw hex
  have h1 : (step st (Input.event e aw)).trace = st.trace ++
      [Effect.inotify_add_watch st.m_InternalState.InotifyInstance
          (dirw.append (FsPath.ofName e.name)),
        Effect.callback (createdEvent (dirw.append (FsPath.ofName e.name)))] := by
    rw [hs, h0]
    simp [m_Callback, setSubdirs, osCall, createdEvent]
  have h2 : umap_find
      (step st (Input.event e aw)).m_InternalState.SubdirectoryWatchDescriptors aw.ret =
      some (dirw.append (FsPath.ofName e.name)) := by
    rw [hs, h0]
    simp [m_Callback, setSubdirs, osCall, umap_find_assign_same]
  refine ⟨hs.trans h0, h1, h2, ?_⟩
  have h3 := run_keeps (step st (Input.event e aw)) mid aw.ret _ h2 hact hmid
  obtain ⟨-, -, g3, -, g5⟩ := run_static (step st (Input.event e aw)) mid
  obtain ⟨-, -, f3, -, f5⟩ := step_static st (Input.event e aw)
  have hf2 : (run (step st (Input.event e aw)) mid).m_ObservedFile.empty = true := by
    rw [g3, f3]; exact hf
  have hr2 : e2.wd ≠ (run (step st (Input.event e aw)) mid).m_InternalState.RootWatchDescriptor := by
    rw [g5, f5, hwd2]; exact hroot
  rw [step_event _ e2 aw2 hact]
  exact processEvent_create_inside _ e2 aw2 _ hf2 hk2 hl2 (Or.inr ⟨hr2, by rw [hwd2]; exact h3⟩)

/-- On the sample session the directory `D/sub` is registered under watch-id 2
and, after a Modified record and a batch boundary, Created(f.txt) on watch-id 2
is delivered as Created(D/sub/f.txt). -/
theorem created_directory_is_watched_witness :
    (step demoWatcher (Input.event ⟨1, IN_CREATE ||| IN_ISDIR, 0, 16, "sub"⟩ ⟨2, 0⟩)).trace =
      demoWatcher.trace ++
        [Effect.inotify_add_watch 3 (demoRoot.append (FsPath.ofName "sub")),
         Effect.callback (createdEvent (demoRoot.append (FsPath.ofName "sub")))] ∧
    delivered (step (run (step demoWatcher
        (Input.event ⟨1, IN_CREATE ||| IN_ISDIR, 0, 16, "sub"⟩ ⟨2, 0⟩))
        [Input.wake Wake.readOk, Input.event ⟨1, IN_MODIFY, 0, 16, "c.txt"⟩ ⟨0, 0⟩])
        (Input.event ⟨2, IN_CREATE, 0, 16, "f.txt"⟩ ⟨0, 0⟩)).trace =
      delivered (run (step demoWatcher
        (Input.event ⟨1, IN_CREATE ||| IN_ISDIR, 0, 16, "sub"⟩ ⟨2, 0⟩))
        [Input.wake Wake.readOk, Input.event ⟨1, IN_MODIFY, 0, 16, "c.txt"⟩ ⟨0, 0⟩]).trace ++
        (if hasFlag IN_CREATE IN_ISDIR = true ∧ (0 : Int) = -1 then
          [⟨(demoRoot.append (FsPath.ofName "sub")).append (FsPath.ofName "f.txt"), none,
            EFileAction.Error, error_code.system 0⟩]
        else []) ++
        [createdEvent ((demoRoot.append (FsPath.ofName "sub")).append
          (FsPath.ofName "f.txt"))] :=
  have h := created_directory_is_watched demoWatcher
    ⟨1, IN_CREATE ||| IN_ISDIR, 0, 16, "sub"⟩ ⟨2, 0⟩ demoRoot
    [Input.wake Wake.readOk, Input.event ⟨1, IN_MODIFY, 0, 16, "c.txt"⟩ ⟨0, 0⟩]
    ⟨2, IN_CREATE, 0, 16, "f.txt"⟩ ⟨0, 0⟩
    (by decide) (by decide) (by decide) (by decide) (by decide)
    (Or.inl ⟨by decide, by decide⟩) (by decide) (by decide)
    (by
      intro x awx hm
      simp only [List.mem_cons, List.mem_singleton, Input.event.injEq, reduceCtorEq,
        false_or, List.mem_nil_iff, or_false] at hm
      obtain ⟨hx, haw⟩ := hm
      subst hx
      subst haw
      decide)
    (by decide) (by decide) (by decide) (by decide)
  ⟨h.2.1, h.2.2.2⟩

/-- C5 (counterexample): watching `D`, the directory `D/sub` is created and
registered under watch-id 2; a watch-invalidated record for watch-id 2 arrives
(`IN_MOVE_SELF`: the directory was renamed) and removes the entry; the next
Created record with name `f.txt` on watch-id 2 is delivered as Created(f.txt),
a bare relative name, not as Created(D/sub/f.txt). -/
theorem later_creation_after_invalidation_loses_directory :
    delivered (run demoWatcher
      [Input.wake Wake.readOk,
       Input.event ⟨1, IN_CREATE ||| IN_ISDIR, 0, 16, "sub"⟩ ⟨2, 0⟩,
       Input.wake Wake.readOk,
       Input.event ⟨2, IN_MOVE_SELF, 0, 0, ""⟩ ⟨0, 0⟩,
       Input.wake Wake.readOk,
       Input.event ⟨2, IN_CREATE, 0, 16, "f.txt"⟩ ⟨0, 0⟩]).trace =
      [createdEvent ⟨false, ["D", "sub"]⟩, createdEvent ⟨false, ["f.txt"]⟩] ∧
    createdEvent ⟨false, ["D", "sub", "f.txt"]⟩ ∉ delivered (run demoWatcher
      [Input.wake Wake.readOk,
       Input.event ⟨1, IN_CREATE ||| IN_ISDIR, 0, 16, "sub"⟩ ⟨2, 0⟩,
       Input.wake Wake.readOk,
       Input.event ⟨2, IN_MOVE_SELF, 0, 0, ""⟩ ⟨0, 0⟩,
       Input.wake Wake.readOk,
       Input.event ⟨2, IN_CREATE, 0, 16, "f.txt"⟩ ⟨0, 0⟩]).trace := by
  decide

/-! ### C9: what the resolver leaves as root and file filter -/

/-- C9 (amended): on every supplied path on which the resolver does not fail:
a path that exists and is not a regular file is kept as the root, with no file
filter (so the root is a directory when the supplied path is one); for an
existing regular file the filter is its filename and the root its parent path;
for a path that does not exist (it then has a parent path and a filename) and
whose parent path is not a regular file, the filter is its filename and the
root its parent path, whatever stands there; when that parent path is a
regular file, the filter is the filename of the parent path and the root the
parent of the parent path. -/
theorem resolver_root_and_filter (fs : FileSystem) (p : FsPath)
    (hok : (resolveTarget fs p).error = none) :
    (fs.fs_exists p = true → fs.is_regular_file p = false →
      (resolveTarget fs p).m_ObservedPath = p ∧
      (resolveTarget fs p).m_ObservedFile = FsPath.emptyPath ∧
      fs.is_directory (resolveTarget fs p).m_ObservedPath = fs.is_directory p) ∧
    (fs.fs_exists p = true → fs.is_regular_file p = true →
      (resolveTarget fs p).m_ObservedFile = p.filename ∧
      (resolveTarget fs p).m_ObservedPath = p.parent_path) ∧
    (fs.fs_exists p = false →
      p.has_parent_path = true ∧ p.has_filename = true) ∧
    (fs.fs_exists p = false → fs.is_regular_file p.parent_path = false →
      (resolveTarget fs p).m_ObservedFile = p.filename ∧
      (resolveTarget fs p).m_ObservedPath = p.parent_path) ∧
    (fs.fs_exists p = false → fs.is_regular_file p.parent_path = true →
      (resolveTarget fs p).m_ObservedFile = p.parent_path.filename ∧
      (resolveTarget fs p).m_ObservedPath = p.parent_path.parent_path) := by
  unfold resolveTarget resolveMissing resolveRegular at hok ⊢
  by_cases h1 : fs.fs_exists p = true
  · by_cases h2 : fs.is_regular_file p = true
    · by_cases h3 : p.has_parent_path = true
      · by_cases h4 : p.has_filename = true
        · simp [h1, h2, h3, h4]
        · simp [h1, h2, h3, h4] at hok
      · simp [h1, h2, h3] at hok
    · simp [h1, h2]
  · by_cases h5 : p.has_parent_path = true ∧ p.has_filename = true
    · obtain ⟨h6, h7⟩ := h5
      by_cases h2 : fs.is_regular_file p.parent_path = true
      · by_cases h3 : p.parent_path.has_parent_path = true
        · by_cases h4 : p.parent_path.has_filename = true
          · simp [h1, h2, h3, h4, h6, h7]
          · simp [h1, h2, h3, h4, h6, h7] at hok
        · simp [h1, h2, h3, h6, h7] at hok
      · simp [h1, h2, h6, h7]
    · have h8 : (p.has_parent_path && p.has_filename) = false := by
        simpa using h5
      simp [h1, h8] at hok

/-- With `D/a.txt` a regular file in the directory `D`, the resolver leaves the
filter `a.txt` and the root `D`. -/
theorem resolver_root_and_filter_witness :
    (resolveTarget (listFs [⟨false, ["D", "a.txt"]⟩] [demoRoot])
        ⟨false, ["D", "a.txt"]⟩).m_ObservedFile = FsPath.ofName "a.txt" ∧
    (resolveTarget (listFs [⟨false, ["D", "a.txt"]⟩] [demoRoot])
        ⟨false, ["D", "a.txt"]⟩).m_ObservedPath = demoRoot :=
  (resolver_root_and_filter (listFs [⟨false, ["D", "a.txt"]⟩] [demoRoot])
    ⟨false, ["D", "a.txt"]⟩ (by decide)).2.1 (by decide) (by decide)

/-- C9 (counterexample): in a filesystem holding only the directory `a` and the
regular file `a/x`, the resolver does not fail on the path `gone/y`, whose
parent does not exist, and leaves the root `gone`, which is not a directory;
and it does not fail on `a/x/y`, which does not exist and has a parent path and
a filename, and leaves the filter `x` and the root `a`, not the filename `y`
and the parent path `a/x` of the supplied path. -/
theorem resolver_root_need_not_be_directory :
    (resolveTarget (listFs [⟨false, ["a", "x"]⟩] [⟨false, ["a"]⟩])
        ⟨false, ["gone", "y"]⟩).error = none ∧
    (listFs [⟨false, ["a", "x"]⟩] [⟨false, ["a"]⟩]).is_directory
      (resolveTarget (listFs [⟨false, ["a", "x"]⟩] [⟨false, ["a"]⟩])
        ⟨false, ["gone", "y"]⟩).m_ObservedPath = false ∧
    (resolveTarget (listFs [⟨false, ["a", "x"]⟩] [⟨false, ["a"]⟩])
        ⟨false, ["a", "x", "y"]⟩).error = none ∧
    (listFs [⟨false, ["a", "x"]⟩] [⟨false, ["a"]⟩]).fs_exists ⟨false, ["a", "x", "y"]⟩ = false ∧
    (⟨false, ["a", "x", "y"]⟩ : FsPath).has_parent_path = true ∧
    (⟨false, ["a", "x", "y"]⟩ : FsPath).has_filename = true ∧
    (resolveTarget (listFs [⟨false, ["a", "x"]⟩] [⟨false, ["a"]⟩])
        ⟨false, ["a", "x", "y"]⟩).m_ObservedFile ≠
      (⟨false, ["a", "x", "y"]⟩ : FsPath).filename ∧
    (resolveTarget (listFs [⟨false, ["a", "x"]⟩] [⟨false, ["a"]⟩])
        ⟨false, ["a", "x", "y"]⟩).m_ObservedPath ≠
      (⟨false, ["a", "x", "y"]⟩ : FsPath).parent_path := by
  decide

/-! ### C10: the errors of the resolver -/

theorem SetupWatcher_resolver_failure (env : SetupEnv) (p : FsPath) (useAbs : Bool)
    (err : error_code) (e : EFileWatcherError) (h : (resolveTarget env.fs p).error = some e) :
    SetupWatcher env p useAbs err =
      ⟨false, (resolveTarget env.fs p).m_ObservedPath, (resolveTarget env.fs p).m_ObservedFile,
        none, false, error_code.fileWatcher e, []⟩ := by
  simp [SetupWatcher, h]

theorem setupBackend_error (env : SetupEnv) (o f : FsPath) (err : error_code)
    (e : EFileWatcherError) (he : (setupBackend env o f err).error = error_code.fileWatcher e) :
    err = error_code.fileWatcher e := by
  unfold setupBackend at he
  by_cases h1 : env.init.ret = -1
  · rw [if_pos h1] at he
    simp at he
  · rw [if_neg h1] at he
    by_cases h2 : env.rootWatch.ret = -1
    · rw [if_pos h2] at he
      simp at he
    · rw [if_neg h2] at he
      by_cases h3 : f.empty = true
      · rw [if_pos h3] at he
        simp only [] at he
        split at he
        · exact he
        · simp at he
      · rw [if_neg h3] at he
        exact he

theorem SetupWatcher_no_category_error (env : SetupEnv) (p : FsPath) (useAbs : Bool)
    (err : error_code) (e : EFileWatcherError) (h : (resolveTarget env.fs p).error = none)
    (he : (SetupWatcher env p useAbs err).error = error_code.fileWatcher e) :
    err = error_code.fileWatcher e := by
  simp only [SetupWatcher, h] at he
  by_cases h1 : useAbs = true
  · rw [if_pos h1] at he
    by_cases h2 : (env.fs.absolute (resolveTarget env.fs p).m_ObservedPath).2 ≠ 0
    · rw [if_pos h2] at he
      simp at he
    · rw [if_neg h2] at he
      have h3 := setupBackend_error env _ _ _ e he
      simp at h3
  · rw [if_neg h1] at he
    exact setupBackend_error env _ _ _ e he

/-- C10 (amended): the resolver fails with SpecifiedFileDoesntExist exactly when
the path does not exist and lacks a parent path or a filename; otherwise, with q
the path itself when it exists and its parent path when it does not, it fails
with RegularFileHasNoParentDirectory exactly when q is a regular file without
parent path, and with InvalidFile exactly when q is a regular file with a parent
path and without filename. In each failing case `SetupWatcher` returns that
error with no system call made, no internal state, no thread and
`m_IsWatching` false; the file filter is empty when the path exists or the error
is SpecifiedFileDoesntExist, and is the filename of the supplied path when the
failure comes after the path was replaced by its parent. When the resolver
does not fail, `SetupWatcher` assigns no error of the FileWatcher category. -/
theorem resolver_error_taxonomy (env : SetupEnv) (p : FsPath) (useAbs : Bool)
    (err : error_code) :
    ((resolveTarget env.fs p).error = some EFileWatcherError.SpecifiedFileDoesntExist ↔
      env.fs.fs_exists p = false ∧ (p.has_parent_path = false ∨ p.has_filename = false)) ∧
    (¬ (env.fs.fs_exists p = false ∧ (p.has_parent_path = false ∨ p.has_filename = false)) →
      ((resolveTarget env.fs p).error =
          some EFileWatcherError.RegularFileHasNoParentDirectory ↔
        env.fs.is_regular_file (if env.fs.fs_exists p then p else p.parent_path) = true ∧
        (if env.fs.fs_exists p then p else p.parent_path).has_parent_path = false) ∧
      ((resolveTarget env.fs p).error = some EFileWatcherError.InvalidFile ↔
        env.fs.is_regular_file (if env.fs.fs_exists p then p else p.parent_path) = true ∧
        (if env.fs.fs_exists p then p else p.parent_path).has_parent_path = true ∧
        (if env.fs.fs_exists p then p else p.parent_path).has_filename = false)) ∧
    (resolveTarget env.fs p).error ≠ some EFileWatcherError.WatchedDirectoryWasDeleted ∧
    (∀ e, (resolveTarget env.fs p).error = some e →
      (SetupWatcher env p useAbs err).error = error_code.fileWatcher e ∧
      (SetupWatcher env p useAbs err).trace = [] ∧
      (SetupWatcher env p useAbs err).m_InternalState = none ∧
      (SetupWatcher env p useAbs err).threadStarted = false ∧
      (SetupWatcher env p useAbs err).m_IsWatching = false ∧
      (SetupWatcher env p useAbs err).m_ObservedFile =
        (if env.fs.fs_exists p = false ∧ e ≠ EFileWatcherError.SpecifiedFileDoesntExist then
          p.filename
        else FsPath.emptyPath)) ∧
    ((resolveTarget env.fs p).error = none →
      ∀ e, (SetupWatcher env p useAbs err).error = error_code.fileWatcher e →
        err = error_code.fileWatcher e) := by
  refine ⟨?_, ?_, ?_, ?_, ?_⟩
  · unfold resolveTarget resolveMissing resolveRegular
    cases h1 : env.fs.fs_exists p <;> cases h2 : p.has_parent_path <;>
      cases h3 : p.has_filename <;> cases h4 : env.fs.is_regular_file p <;>
      cases h5 : env.fs.is_regular_file p.parent_path <;>
      cases h6 : p.parent_path.has_parent_path <;>
      cases h7 : p.parent_path.has_filename <;> simp [h1, h2, h3, h4, h5, h6, h7]
  · unfold resolveTarget resolveMissing resolveRegular
    cases h1 : env.fs.fs_exists p <;> cases h2 : p.has_parent_path <;>
      cases h3 : p.has_filename <;> cases h4 : env.fs.is_regular_file p <;>
      cases h5 : env.fs.is_regular_file p.parent_path <;>
      cases h6 : p.parent_path.has_parent_path <;>
      cases h7 : p.parent_path.has_filename <;> simp [h1, h2, h3, h4, h5, h6, h7]
  · unfold resolveTarget resolveMissing resolveRegular
    cases h1 : env.fs.fs_exists p <;> cases h2 : p.has_parent_path <;>
      cases h3 : p.has_filename <;> cases h4 : env.fs.is_regular_file p <;>
      cases h5 : env.fs.is_regular_file p.parent_path <;>
      cases h6 : p.parent_path.has_parent_path <;>
      cases h7 : p.parent_path.has_filename <;> simp [h1, h2, h3, h4, h5, h6, h7]
  · intro e he
    rw [SetupWatcher_resolver_failure env p useAbs err e he]
    refine ⟨rfl, rfl, rfl, rfl, rfl, ?_⟩
    simp only []
    revert he
    unfold resolveTarget resolveMissing resolveRegular
    cases h1 : env.fs.fs_exists p <;> cases h2 : p.has_parent_path <;>
      cases h3 : p.has_filename <;> cases h4 : env.fs.is_regular_file p <;>
      cases h5 : env.fs.is_regular_file p.parent_path <;>
      cases h6 : p.parent_path.has_parent_path <;>
      cases h7 : p.parent_path.has_filename <;> simp [h1, h2, h3, h4, h5, h6, h7] <;>
      intro he <;> simp [← he]
  · intro hn e he
    exact SetupWatcher_no_category_error env p useAbs err e hn he

/-- C10 (counterexample): in a filesystem holding only the regular file `x`,
the path `x/y` does not exist and has a parent path and a filename, so the
filter is set to `y` and the path replaced by `x`; `x` is a regular file
without parent path and the resolver fails with
RegularFileHasNoParentDirectory, the file filter being `y`, not the empty
filter the constructor started from. -/
theorem failed_resolver_may_leave_a_filter :
    (SetupWatcher ⟨listFs [⟨false, ["x"]⟩] [], ⟨3, 0⟩, ⟨1, 0⟩, []⟩ ⟨false, ["x", "y"]⟩ false
        error_code.cleared).error =
      error_code.fileWatcher EFileWatcherError.RegularFileHasNoParentDirectory ∧
    (SetupWatcher ⟨listFs [⟨false, ["x"]⟩] [], ⟨3, 0⟩, ⟨1, 0⟩, []⟩ ⟨false, ["x", "y"]⟩ false
        error_code.cleared).m_ObservedFile = FsPath.ofName "y" ∧
    (SetupWatcher ⟨listFs [⟨false, ["x"]⟩] [], ⟨3, 0⟩, ⟨1, 0⟩, []⟩ ⟨false, ["x", "y"]⟩ false
        error_code.cleared).m_ObservedFile ≠ FsPath.emptyPath := by
  decide

/-! ### C6: a start that fails -/

theorem umap_erase_subset {κ ν : Type} [DecidableEq κ] (m : List (κ × ν)) (k : κ)
    (x : κ × ν) (h : x ∈ umap_erase m k) : x ∈ m := by
  induction m with
  | nil => cases h
  | cons e m ih =>
    unfold umap_erase at h
    split at h
    · exact List.mem_cons_of_mem _ (ih h)
    · rcases List.mem_cons.1 h with h1 | h1
      · rw [h1]; exact List.mem_cons_self _ _
      · exact List.mem_cons_of_mem _ (ih h1)

theorem registerSubtree_spec (fd : Int) (walk : List DirEntry) (m : List (Int × FsPath))
    (t : List Effect) (hm : ∀ x ∈ m, x.1 ≠ -1) :
    (∀ x ∈ (registerSubtree fd walk m t).1, x.1 ≠ -1) ∧
    delivered (registerSubtree fd walk m t).2.1 = delivered t ∧
    ((registerSubtree fd walk m t).2.2 ≠ none ↔
      ∃ d ∈ walk, d.is_directory = true ∧ d.addWatch.ret = -1) := by
  induction walk generalizing m t with
  | nil => simpa [registerSubtree] using hm
  | cons d walk ih =>
    unfold registerSubtree
    by_cases h1 : d.is_directory = true
    · rw [if_pos h1]
      by_cases h2 : d.addWatch.ret ≠ -1
      · rw [if_pos h2]
        have hm2 : ∀ x ∈ umap_assign m d.addWatch.ret d.path, x.1 ≠ -1 := by
          intro x hx
          rcases List.mem_cons.1 hx with h3 | h3
          · rw [h3]; exact h2
          · exact hm x (umap_erase_subset m _ x h3)
        obtain ⟨i1, i2, i3⟩ := ih (umap_assign m d.addWatch.ret d.path)
          (t ++ [Effect.inotify_add_watch fd d.path]) hm2
        refine ⟨i1, by simpa [delivered_append] using i2, ?_⟩
        rw [i3]
        constructor
        · rintro ⟨x, hx, h4⟩
          exact ⟨x, List.mem_cons_of_mem _ hx, h4⟩
        · rintro ⟨x, hx, h4, h5⟩
          rcases List.mem_cons.1 hx with h6 | h6
          · rw [h6] at h5; exact absurd h5 h2
          · exact ⟨x, h6, h4, h5⟩
      · rw [if_neg h2]
        refine ⟨hm, by simp [delivered_append], ?_⟩
        simp only [ne_eq, reduceCtorEq, not_false_eq_true, true_iff]
        exact ⟨d, List.mem_cons_self _ _, h1, not_not.1 h2⟩
    · rw [if_neg h1]
      obtain ⟨i1, i2, i3⟩ := ih m t hm
      refine ⟨i1, i2, ?_⟩
      rw [i3]
      constructor
      · rintro ⟨x, hx, h4⟩
        exact ⟨x, List.mem_cons_of_mem _ hx, h4⟩
      · rintro ⟨x, hx, h4, h5⟩
        rcases List.mem_cons.1 hx with h6 | h6
        · rw [h6] at h4; exact absurd h4 h1
        · exact ⟨x, h6, h4, h5⟩

theorem stop_when_not_watching (st : Watcher) (h : st.m_IsWatching = false) :
    step st Input.stop = st := by
  cases st
  simp only [step]
  simp at h
  simp [h]

theorem run_after_exit (st : Watcher) (xs : List Input) (hx : st.exited = true)
    (hw : st.m_IsWatching = false) : run st xs = st := by
  induction xs with
  | nil => rfl
  | cons x xs ih =>
    rw [run_cons]
    have h1 : step st x = st := by
      cases x with
      | stop => exact stop_when_not_watching st hw
      | wake w => simp [step, hx]
      | event e aw => simp [step, hx]
    rw [h1]
    exact ih

theorem quitMonitoring_not_watching (st : Watcher) (h : st.m_IsWatching = false) :
    (quitMonitoring st).m_IsWatching = false := by
  simp only [quitMonitoring]
  split_ifs <;> simp [setSubdirs, h]

theorem run_not_watching (st : Watcher) (xs : List Input) (hw : st.m_IsWatching = false)
    (hx : st.exited = false) (hs : batchShaped false xs = true) :
    run st xs = st ∨ run st xs = quitMonitoring st := by
  induction xs with
  | nil => exact Or.inl rfl
  | cons x xs ih =>
    rw [run_cons]
    cases x with
    | stop =>
      rw [stop_when_not_watching st hw]
      exact ih (by simpa [batchShaped] using hs)
    | wake w =>
      have h1 : step st (Input.wake w) = quitMonitoring st := by
        simp [step, hx, loopHead, hw]
      rw [h1, run_after_exit _ xs (quitMonitoring_frame st).2.2.2.2.2.2
        (quitMonitoring_not_watching st hw)]
      exact Or.inr rfl
    | event e aw => simp [batchShaped] at hs

theorem thread_not_watching_only_tears_down (st : Watcher) (mallocOk : Bool)
    (xs : List Input) (hw : st.m_IsWatching = false) (hx : st.exited = false)
    (hs : batchShaped false xs = true) :
    WatcherThreadWork st mallocOk xs = quitMonitoring st := by
  unfold WatcherThreadWork
  cases mallocOk
  · rfl
  · simp only [Bool.not_true, Bool.false_eq_true, if_false]
    rcases run_not_watching st xs hw hx hs with h | h
    · rw [h]
      simp [hw, hx]
    · rw [h]
      simp [(quitMonitoring_frame st).2.2.2.2.2.2]

theorem umap_erase_key_absent {κ ν : Type} [DecidableEq κ] (m : List (κ × ν)) (k : κ)
    (x : κ × ν) (h : x ∈ umap_erase m k) : x.1 ≠ k := by
  induction m with
  | nil => cases h
  | cons e m ih =>
    unfold umap_erase at h
    split at h
    · exact ih h
    · rename_i hne
      rcases List.mem_cons.1 h with h1 | h1
      · rw [h1]; exact hne
      · exact ih h1

theorem umap_erase_sublist {κ ν : Type} [DecidableEq κ] (m : List (κ × ν)) (k : κ) :
    (umap_erase m k).Sublist m := by
  induction m with
  | nil => exact List.Sublist.refl _
  | cons e m ih =>
    unfold umap_erase
    split
    · exact List.Sublist.cons _ ih
    · exact List.Sublist.cons₂ _ ih

theorem umap_assign_keys_nodup {κ ν : Type} [DecidableEq κ] (m : List (κ × ν)) (k : κ)
    (v : ν) (h : (m.map Prod.fst).Nodup) : ((umap_assign m k v).map Prod.fst).Nodup := by
  unfold umap_assign
  rw [List.map_cons, List.nodup_cons]
  constructor
  · intro hk
    obtain ⟨x, hx, hxk⟩ := List.mem_map.1 hk
    exact umap_erase_key_absent m k x hx hxk
  · exact List.Nodup.sublist ((umap_erase_sublist m k).map Prod.fst) h

theorem umap_assign_keys {κ ν : Type} [DecidableEq κ] (m : List (κ × ν)) (k c : κ) (v : ν) :
    (∃ u, umap_find (umap_assign m k v) c = some u) ↔
      k = c ∨ ∃ u, umap_find m c = some u := by
  by_cases h : k = c
  · subst h
    simp [umap_find_assign_same]
  · simp [umap_find_assign_other m k c v h, h]

theorem registerSubtree_registered (fd : Int) (walk : List DirEntry)
    (m : List (Int × FsPath)) (t : List Effect) (errno : Int)
    (h : (registerSubtree fd walk m t).2.2 = some errno) :
    ∃ pre d post, walk = pre ++ d :: post ∧ d.is_directory = true ∧ d.addWatch.ret = -1 ∧
      d.addWatch.errno = errno ∧
      (∀ x ∈ pre, x.is_directory = true → x.addWatch.ret ≠ -1) ∧
      (∀ k, (∃ u, umap_find (registerSubtree fd walk m t).1 k = some u) ↔
        (∃ u, umap_find m k = some u) ∨
          ∃ x ∈ pre, x.is_directory = true ∧ x.addWatch.ret = k) ∧
      ((m.map Prod.fst).Nodup → ((registerSubtree fd walk m t).1.map Prod.fst).Nodup) := by
  induction walk generalizing m t with
  | nil => simp [registerSubtree] at h
  | cons e rest ih =>
    unfold registerSubtree at h ⊢
    by_cases h1 : e.is_directory = true
    · rw [if_pos h1] at h ⊢
      by_cases h2 : e.addWatch.ret ≠ -1
      · rw [if_pos h2] at h ⊢
        obtain ⟨pre, d, post, e1, e2, e3, e4, e5, e6, e7⟩ := ih _ _ h
        refine ⟨e :: pre, d, post, by rw [e1]; rfl, e2, e3, e4, ?_, ?_, ?_⟩
        · intro x hx hd
          rcases List.mem_cons.1 hx with hx | hx
          · rw [hx]; exact h2
          · exact e5 x hx hd
        · intro k
          rw [e6 k, umap_assign_keys]
          constructor
          · rintro ((hk | hk) | ⟨x, hx, hd, hr⟩)
            · exact Or.inr ⟨e, List.mem_cons_self _ _, h1, hk⟩
            · exact Or.inl hk
            · exact Or.inr ⟨x, List.mem_cons_of_mem _ hx, hd, hr⟩
          · rintro (hk | ⟨x, hx, hd, hr⟩)
            · exact Or.inl (Or.inr hk)
            · rcases List.mem_cons.1 hx with hx | hx
              · rw [hx] at hr
                exact Or.inl (Or.inl hr)
              · exact Or.inr ⟨x, hx, hd, hr⟩
        · intro hn
          exact e7 (umap_assign_keys_nodup m _ _ hn)
      · rw [if_neg h2] at h ⊢
        simp only [Option.some.injEq] at h
        refine ⟨[], e, rest, rfl, h1, not_not.1 h2, h, ?_, ?_, ?_⟩
        · intro x hx
          cases hx
        · intro k
          simp
        · exact id
    · rw [if_neg h1] at h ⊢
      obtain ⟨pre, d, post, e1, e2, e3, e4, e5, e6, e7⟩ := ih _ _ h
      refine ⟨e :: pre, d, post, by rw [e1]; rfl, e2, e3, e4, ?_, ?_, e7⟩
      · intro x hx hd
        rcases List.mem_cons.1 hx with hx | hx
        · rw [hx] at hd
          exact absurd hd h1
        · exact e5 x hx hd
      · intro k
        rw [e6 k]
        constructor
        · rintro (hk | ⟨x, hx, hd, hr⟩)
          · exact Or.inl hk
          · exact Or.inr ⟨x, List.mem_cons_of_mem _ hx, hd, hr⟩
        · rintro (hk | ⟨x, hx, hd, hr⟩)
          · exact Or.inl hk
          · rcases List.mem_cons.1 hx with hx | hx
            · rw [hx] at hd
              exact absurd hd h1
            · exact Or.inr ⟨x, hx, hd, hr⟩

theorem setupBackend_walk_failure (env : SetupEnv) (o f : FsPath) (err : error_code)
    (ndebug : Bool) (st : Watcher)
    (hst : threadState ndebug (setupBackend env o f err) = some st)
    (hw : (setupBackend env o f err).m_IsWatching = false) :
    st.trace = (setupBackend env o f err).trace ∧
    (setupBackend env o f err).m_InternalState = some st.m_InternalState ∧
    st.m_InternalState.InotifyInstance = env.init.ret ∧
    (st.m_InternalState.SubdirectoryWatchDescriptors.map Prod.fst).Nodup ∧
    ∃ pre d post, env.walk = pre ++ d :: post ∧ d.is_directory = true ∧
      d.addWatch.ret = -1 ∧
      (∀ x ∈ pre, x.is_directory = true → x.addWatch.ret ≠ -1) ∧
      (setupBackend env o f err).error = error_code.system d.addWatch.errno ∧
      ∀ k, (∃ u, umap_find st.m_InternalState.SubdirectoryWatchDescriptors k = some u) ↔
        ∃ x ∈ pre, x.is_directory = true ∧ x.addWatch.ret = k := by
  unfold setupBackend at hst hw ⊢
  by_cases h1 : env.init.ret = -1
  · simp [h1, threadState] at hst
  · by_cases h2 : env.rootWatch.ret = -1
    · simp [h1, h2, threadState] at hst
    · rw [if_neg h1, if_neg h2] at hst hw ⊢
      by_cases h3 : f.empty = true
      · rw [if_pos h3] at hst hw ⊢
        simp only [] at hst hw ⊢
        cases hr : (registerSubtree env.init.ret env.walk []
          [Effect.inotify_init1, Effect.inotify_add_watch env.init.ret o]).2.2 with
        | none =>
          rw [hr] at hw
          simp at hw
        | some errno =>
          rw [hr] at hst
          obtain ⟨pre, d, post, e1, e2, e3, e4, e5, e6, e7⟩ :=
            registerSubtree_registered env.init.ret env.walk []
              [Effect.inotify_init1, Effect.inotify_add_watch env.init.ret o] errno hr
          simp only [threadState, if_true, Option.map_some', Option.some.injEq] at hst
          subst hst
          refine ⟨rfl, rfl, rfl, e7 List.nodup_nil, pre, d, post, e1, e2, e3, e5,
            by rw [e4], ?_⟩
          intro k
          rw [e6 k]
          simp [umap_find]
      · rw [if_neg h3] at hw
        simp at hw

theorem setupBackend_failure (env : SetupEnv) (o f : FsPath) (err : error_code)
    (ndebug : Bool)
    (hfail : env.init.ret = -1 ∨ env.rootWatch.ret = -1 ∨
      (f.empty = true ∧ ∃ d ∈ env.walk, d.is_directory = true ∧ d.addWatch.ret = -1)) :
    (setupBackend env o f err).m_IsWatching = false ∧
    (env.init.ret = -1 ∨ env.rootWatch.ret = -1 →
      (setupBackend env o f err).threadStarted = false ∧
      (setupBackend env o f err).m_InternalState = none) ∧
    (env.init.ret ≠ -1 → env.rootWatch.ret ≠ -1 →
      (setupBackend env o f err).threadStarted = true) ∧
    (∀ st, threadState ndebug (setupBackend env o f err) = some st →
      st.m_IsWatching = false ∧ st.renamedFiles = [] ∧ st.exited = false ∧
      st.aborted = false ∧ delivered st.trace = [] ∧
      ∀ x ∈ st.m_InternalState.SubdirectoryWatchDescriptors, x.1 ≠ -1) := by
  unfold setupBackend
  by_cases h1 : env.init.ret = -1
  · simp [h1, threadState]
  · by_cases h2 : env.rootWatch.ret = -1
    · simp [h1, h2, threadState]
    · have h3 : f.empty = true ∧ ∃ d ∈ env.walk, d.is_directory = true ∧ d.addWatch.ret = -1 := by
        rcases hfail with h | h | h
        · exact absurd h h1
        · exact absurd h h2
        · exact h
      obtain ⟨i1, i2, i3⟩ := registerSubtree_spec env.init.ret env.walk []
        [Effect.inotify_init1, Effect.inotify_add_watch env.init.ret o]
        (fun x hx => by cases hx)
      have h4 := i3.2 h3.2
      rw [if_neg h1, if_neg h2, if_pos h3.1]
      simp only []
      cases hw : (registerSubtree env.init.ret env.walk []
        [Effect.inotify_init1, Effect.inotify_add_watch env.init.ret o]).2.2 with
      | none => exact absurd hw h4
      | some errno =>
        simp only [threadState, h1, h2, false_or, false_implies, true_and, if_true,
          Option.map_some', Option.some.injEq, not_false_eq_true, true_implies, ne_eq]
        intro st hst
        subst hst
        exact ⟨rfl, rfl, rfl, rfl, by simpa using i2, i1⟩

/-- C6 (amended): whenever `SetupWatcher` meets a failure (of the resolver, of
the conversion to an absolute path, of `inotify_init1`, of the registration of
the root, or of the registration of a subdirectory during the initial walk),
`m_IsWatching` is false when it returns. For the first four failures no thread
is started and there is no internal state. For a failed subdirectory
registration (all earlier steps having succeeded) the thread is started, with
`m_IsWatching` already false: whatever it meets, it delivers no event, goes
through `quitMonitoring` without a failed assertion, releases the watches of
the watch set (the calls it adds to those of `SetupWatcher` are, up to order,
one `inotify_rm_watch` on the inotify instance for each entry), empties the
watch set and leaves `m_IsWatching` false. The watch set the thread starts
from is the one `SetupWatcher` left: its keys, all distinct, are the watch-ids
answered to the directories of the walk that come before the one whose
registration failed, and the error output is the `errno` of that failure. -/
theorem failed_start_is_not_watching (env : SetupEnv) (p : FsPath) (useAbs : Bool)
    (err : error_code) (ndebug : Bool)
    (hfail : (resolveTarget env.fs p).error ≠ none ∨
      (useAbs = true ∧ (env.fs.absolute (resolveTarget env.fs p).m_ObservedPath).2 ≠ 0) ∨
      env.init.ret = -1 ∨ env.rootWatch.ret = -1 ∨
      ((resolveTarget env.fs p).m_ObservedFile.empty = true ∧
        ∃ d ∈ env.walk, d.is_directory = true ∧ d.addWatch.ret = -1)) :
    (SetupWatcher env p useAbs err).m_IsWatching = false ∧
    ((resolveTarget env.fs p).error ≠ none ∨
        (useAbs = true ∧ (env.fs.absolute (resolveTarget env.fs p).m_ObservedPath).2 ≠ 0) ∨
        env.init.ret = -1 ∨ env.rootWatch.ret = -1 →
      (SetupWatcher env p useAbs err).threadStarted = false ∧
      (SetupWatcher env p useAbs err).m_InternalState = none) ∧
    ((resolveTarget env.fs p).error = none →
      ¬ (useAbs = true ∧ (env.fs.absolute (resolveTarget env.fs p).m_ObservedPath).2 ≠ 0) →
      env.init.ret ≠ -1 → env.rootWatch.ret ≠ -1 →
      (SetupWatcher env p useAbs err).threadStarted = true) ∧
    (∀ st, threadState ndebug (SetupWatcher env p useAbs err) = some st →
      ∀ mallocOk inputs, batchShaped false inputs = true →
        delivered (WatcherThreadWork st mallocOk inputs).trace = [] ∧
        (WatcherThreadWork st mallocOk inputs).exited = true ∧
        (WatcherThreadWork st mallocOk inputs).aborted = false ∧
        (WatcherThreadWork st mallocOk inputs).m_IsWatching = false ∧
        (WatcherThreadWork st mallocOk inputs).m_InternalState.SubdirectoryWatchDescriptors =
          [] ∧
        ∃ calls, (WatcherThreadWork st mallocOk inputs).trace =
            (SetupWatcher env p useAbs err).trace ++ calls ∧
          calls.Perm (st.m_InternalState.SubdirectoryWatchDescriptors.map
            (fun x => Effect.inotify_rm_watch env.init.ret x.1))) ∧
    (∀ st, threadState ndebug (SetupWatcher env p useAbs err) = some st →
      (SetupWatcher env p useAbs err).m_InternalState = some st.m_InternalState ∧
      st.m_InternalState.InotifyInstance = env.init.ret ∧
      (st.m_InternalState.SubdirectoryWatchDescriptors.map Prod.fst).Nodup ∧
      ∃ pre d post, env.walk = pre ++ d :: post ∧ d.is_directory = true ∧
        d.addWatch.ret = -1 ∧
        (∀ x ∈ pre, x.is_directory = true → x.addWatch.ret ≠ -1) ∧
        (SetupWatcher env p useAbs err).error = error_code.system d.addWatch.errno ∧
        ∀ k, (∃ u, umap_find st.m_InternalState.SubdirectoryWatchDescriptors k = some u) ↔
          ∃ x ∈ pre, x.is_directory = true ∧ x.addWatch.ret = k) := by
  have inert : ∀ (st : Watcher) (t0 : List Effect), st.trace = t0 →
      st.m_InternalState.InotifyInstance = env.init.ret →
      st.m_IsWatching = false ∧ st.renamedFiles = [] ∧
      st.exited = false ∧ st.aborted = false ∧ delivered st.trace = [] ∧
      (∀ x ∈ st.m_InternalState.SubdirectoryWatchDescriptors, x.1 ≠ -1) →
      ∀ mallocOk inputs, batchShaped false inputs = true →
        delivered (WatcherThreadWork st mallocOk inputs).trace = [] ∧
        (WatcherThreadWork st mallocOk inputs).exited = true ∧
        (WatcherThreadWork st mallocOk inputs).aborted = false ∧
        (WatcherThreadWork st mallocOk inputs).m_IsWatching = false ∧
        (WatcherThreadWork st mallocOk inputs).m_InternalState.SubdirectoryWatchDescriptors =
          [] ∧
        ∃ calls, (WatcherThreadWork st mallocOk inputs).trace = t0 ++ calls ∧
          calls.Perm (st.m_InternalState.SubdirectoryWatchDescriptors.map
            (fun x => Effect.inotify_rm_watch env.init.ret x.1)) := by
    intro st t0 ht hfd ⟨s1, s2, s3, s4, s5, s6⟩ mallocOk inputs hs
    rw [thread_not_watching_only_tears_down st mallocOk inputs s1 s3 hs]
    obtain ⟨c1, c2, c3⟩ := quitMonitoring_clean st (Or.inr ⟨s2, s6⟩)
    obtain ⟨calls, k1, k2⟩ := quitMonitoring_calls st (Or.inr ⟨s2, s6⟩)
    rw [hfd] at k2
    rw [ht] at k1
    exact ⟨by rw [quitMonitoring_delivered, s5], (quitMonitoring_frame st).2.2.2.2.2.2,
      by rw [c3, s4], c1, c2, calls, k1, k2⟩
  cases hr : (resolveTarget env.fs p).error with
  | some e =>
    rw [SetupWatcher_resolver_failure env p useAbs err e hr]
    simp [threadState]
  | none =>
    have hfail2 : (useAbs = true ∧
          (env.fs.absolute (resolveTarget env.fs p).m_ObservedPath).2 ≠ 0) ∨
        env.init.ret = -1 ∨ env.rootWatch.ret = -1 ∨
        ((resolveTarget env.fs p).m_ObservedFile.empty = true ∧
          ∃ d ∈ env.walk, d.is_directory = true ∧ d.addWatch.ret = -1) := by
      rcases hfail with h | h
      · exact absurd hr h
      · exact h
    by_cases ha : useAbs = true ∧ (env.fs.absolute (resolveTarget env.fs p).m_ObservedPath).2 ≠ 0
    · have hsw : SetupWatcher env p useAbs err =
          ⟨false, (env.fs.absolute (resolveTarget env.fs p).m_ObservedPath).1,
            (resolveTarget env.fs p).m_ObservedFile, none, false,
            error_code.system (env.fs.absolute (resolveTarget env.fs p).m_ObservedPath).2,
            []⟩ := by
        simp [SetupWatcher, hr, ha.1, ha.2]
      rw [hsw]
      simp [threadState, ha]
    · have hfail3 : env.init.ret = -1 ∨ env.rootWatch.ret = -1 ∨
          ((resolveTarget env.fs p).m_ObservedFile.empty = true ∧
            ∃ d ∈ env.walk, d.is_directory = true ∧ d.addWatch.ret = -1) := by
        rcases hfail2 with h | h
        · exact absurd h ha
        · exact h
      have hsw : ∃ o e0, SetupWatcher env p useAbs err =
          setupBackend env o (resolveTarget env.fs p).m_ObservedFile e0 := by
        by_cases hu : useAbs = true
        · have h0 : (env.fs.absolute (resolveTarget env.fs p).m_ObservedPath).2 = 0 := by
            by_contra hne
            exact ha ⟨hu, hne⟩
          exact ⟨(env.fs.absolute (resolveTarget env.fs p).m_ObservedPath).1,
            error_code.system 0, by simp [SetupWatcher, hr, hu, h0]⟩
        · exact ⟨(resolveTarget env.fs p).m_ObservedPath, err,
            by simp [SetupWatcher, hr, hu]⟩
      obtain ⟨o, e0, hsw⟩ := hsw
      rw [hsw]
      obtain ⟨b1, b2, b3, b4⟩ := setupBackend_failure env o
        (resolveTarget env.fs p).m_ObservedFile e0 ndebug hfail3
      refine ⟨b1, ?_, ?_, ?_, ?_⟩
      · intro h
        rcases h with h | h | h
        · exact absurd rfl h
        · exact absurd h ha
        · exact b2 h
      · intro _ _ h1 h2
        exact b3 h1 h2
      · intro st hst
        obtain ⟨w1, -, w3, -, -⟩ := setupBackend_walk_failure env o
          (resolveTarget env.fs p).m_ObservedFile e0 ndebug st hst b1
        exact inert st _ w1 w3 (b4 st hst)
      · intro st hst
        obtain ⟨-, w2, w3, w4, w5⟩ := setupBackend_walk_failure env o
          (resolveTarget env.fs p).m_ObservedFile e0 ndebug st hst b1
        exact ⟨w2, w3, w4, w5⟩

/-- The sample start in which `D/a` is registered under watch-id 2 and the
registration of `D/b` fails leaves `m_IsWatching` false, with the thread
started; the thread, meeting nothing, adds to the calls of `SetupWatcher` the
release of watch-id 2 (the releases of its watch set, up to order). -/
theorem failed_start_is_not_watching_witness :
    (SetupWatcher demoSecondFails demoRoot false error_code.cleared).m_IsWatching = false ∧
    (SetupWatcher demoSecondFails demoRoot false error_code.cleared).threadStarted = true ∧
    ∃ calls, (WatcherThreadWork demoSecondFailsThread true []).trace =
        (SetupWatcher demoSecondFails demoRoot false error_code.cleared).trace ++ calls ∧
      calls.Perm (demoSecondFailsThread.m_InternalState.SubdirectoryWatchDescriptors.map
        (fun x => Effect.inotify_rm_watch demoSecondFails.init.ret x.1)) :=
  have h := failed_start_is_not_watching demoSecondFails demoRoot false error_code.cleared
    false
    (Or.inr (Or.inr (Or.inr (Or.inr ⟨by decide,
      ⟨⟨⟨false, ["D", "b"]⟩, true, ⟨-1, 28⟩⟩, by decide, rfl, rfl⟩⟩))))
  ⟨h.1, h.2.2.1 (by decide) (by decide) (by decide) (by decide),
    (h.2.2.2.1 demoSecondFailsThread (by decide) true [] (by decide)).2.2.2.2.2⟩

/-- The thread started by the sample start `demoSecondFails`, run on nothing,
makes the one call `inotify_rm_watch(3, 2)` after the four calls of
`SetupWatcher`, delivers nothing and leaves the watch set empty. -/
theorem failed_start_thread_releases_registered_watch :
    threadState false (SetupWatcher demoSecondFails demoRoot false error_code.cleared) =
      some demoSecondFailsThread ∧
    (WatcherThreadWork demoSecondFailsThread true []).trace =
      [Effect.inotify_init1, Effect.inotify_add_watch 3 demoRoot,
        Effect.inotify_add_watch 3 ⟨false, ["D", "a"]⟩,
        Effect.inotify_add_watch 3 ⟨false, ["D", "b"]⟩, Effect.inotify_rm_watch 3 2] ∧
    (WatcherThreadWork demoSecondFailsThread true
      []).m_InternalState.SubdirectoryWatchDescriptors = [] := by
  decide

/-- C6 (counterexample): the start on the directory `D` whose subdirectory
`D/sub` cannot be registered sets the error output to the `errno` of the
failed registration (28) and leaves `m_IsWatching` false, and the watcher
thread is started. -/
theorem failed_subdirectory_registration_starts_thread :
    (SetupWatcher demoWalkFails demoRoot false error_code.cleared).error =
      error_code.system 28 ∧
    (SetupWatcher demoWalkFails demoRoot false error_code.cleared).m_IsWatching = false ∧
    (SetupWatcher demoWalkFails demoRoot false error_code.cleared).threadStarted = true := by
  decide

/-! ### What the filter lets through, over a whole run -/

theorem passesFilter_congr (a b : Watcher) (x : FsPath)
    (h : a.m_ObservedFile = b.m_ObservedFile) : passesFilter a x = passesFilter b x := by
  simp [passesFilter, h]

theorem onCreate_delivers (st : Watcher) (e : inotify_event) (aw : SysResult) :
    ∀ a ∈ delivered (onCreate st e aw).trace, a ∈ delivered st.trace ∨
      a.action = EFileAction.Error ∨ a.action = EFileAction.Renamed ∨
      passesFilter st a.path = true := by
  obtain ⟨-, -, -, c4, -, -, -, c8, -, -⟩ := ConstructReturnPath_frame st e.name e.wd
  simp only [onCreate]
  split_ifs <;> intro a ha <;>
    simp only [passesFilter, m_Callback, setSubdirs, osCall, c4, c8, delivered_append,
      delivered_cons_add_watch, delivered_nil, List.append_nil, delivered_callback,
      List.mem_append, List.mem_singleton] at * <;>
    aesop

theorem onDelete_delivers (st : Watcher) (e : inotify_event) :
    ∀ a ∈ delivered (onDelete st e).trace, a ∈ delivered st.trace ∨
      a.action = EFileAction.Error ∨ a.action = EFileAction.Renamed ∨
      passesFilter st a.path = true := by
  obtain ⟨-, -, -, c4, -, -, -, c8, -, -⟩ := ConstructReturnPath_frame st e.name e.wd
  simp only [onDelete]
  split_ifs <;> intro a ha <;>
    simp only [passesFilter, m_Callback, c4, c8, delivered_append, delivered_callback,
      List.mem_append, List.mem_singleton] at * <;>
    aesop

theorem onModify_delivers (st : Watcher) (e : inotify_event) :
    ∀ a ∈ delivered (onModify st e).trace, a ∈ delivered st.trace ∨
      a.action = EFileAction.Error ∨ a.action = EFileAction.Renamed ∨
      passesFilter st a.path = true := by
  obtain ⟨-, -, -, c4, -, -, -, c8, -, -⟩ := ConstructReturnPath_frame st e.name e.wd
  simp only [onModify]
  split_ifs <;> intro a ha <;>
    simp only [passesFilter, m_Callback, c4, c8, delivered_append, delivered_callback,
      List.mem_append, List.mem_singleton] at * <;>
    aesop

theorem onMovedTo_delivers (st : Watcher) (e : inotify_event) :
    ∀ a ∈ delivered (onMovedTo st e).trace, a ∈ delivered st.trace ∨
      a.action = EFileAction.Error ∨ a.action = EFileAction.Renamed ∨
      passesFilter st a.path = true := by
  obtain ⟨-, -, -, c4, -, -, -, c8, -, -⟩ := ConstructReturnPath_frame st e.name e.wd
  simp only [onMovedTo]
  split_ifs <;> intro a ha <;>
    simp only [passesFilter, m_Callback, c4, c8, delivered_append, delivered_callback,
      List.mem_append, List.mem_singleton] at * <;>
    aesop

theorem onMovedFrom_delivers (st : Watcher) (e : inotify_event) :
    ∀ a ∈ delivered (onMovedFrom st e).trace, a ∈ delivered st.trace ∨
      a.action = EFileAction.Error ∨ a.action = EFileAction.Renamed ∨
      passesFilter st a.path = true := by
  intro a ha
  rw [(onMovedFrom_frame st e).2.2.2.2.2.2.1] at ha
  exact Or.inl ha

theorem handlers_deliver (st : Watcher) (e : inotify_event) (aw : SysResult) :
    ∀ a ∈ delivered
        (onMovedTo (onMovedFrom (onModify (onDelete (onCreate st e aw) e) e) e) e).trace,
      a ∈ delivered st.trace ∨ a.action = EFileAction.Error ∨
      a.action = EFileAction.Renamed ∨ passesFilter st a.path = true := by
  intro a ha
  have f1 := (onCreate_frame st e aw).2.2.2.1
  have f2 := (onDelete_frame (onCreate st e aw) e).2.2.2.1
  have f3 := (onModify_frame (onDelete (onCreate st e aw) e) e).2.2.2.1
  have f4 := (onMovedFrom_frame (onModify (onDelete (onCreate st e aw) e) e) e).2.2.2.1
  have p1 := passesFilter_congr (onCreate st e aw) st a.path f1
  have p2 := passesFilter_congr (onDelete (onCreate st e aw) e) st a.path (f2.trans f1)
  have p3 := passesFilter_congr (onModify (onDelete (onCreate st e aw) e) e) st a.path
    (f3.trans (f2.trans f1))
  have p4 := passesFilter_congr (onMovedFrom (onModify (onDelete (onCreate st e aw) e) e) e)
    st a.path (f4.trans (f3.trans (f2.trans f1)))
  rcases onMovedTo_delivers _ e a ha with h | h | h | h
  · rcases onMovedFrom_delivers _ e a h with h | h | h | h
    · rcases onModify_delivers _ e a h with h | h | h | h
      · rcases onDelete_delivers _ e a h with h | h | h | h
        · exact onCreate_delivers st e aw a h
        · exact Or.inr (Or.inl h)
        · exact Or.inr (Or.inr (Or.inl h))
        · exact Or.inr (Or.inr (Or.inr (p1 ▸ h)))
      · exact Or.inr (Or.inl h)
      · exact Or.inr (Or.inr (Or.inl h))
      · exact Or.inr (Or.inr (Or.inr (p2 ▸ h)))
    · exact Or.inr (Or.inl h)
    · exact Or.inr (Or.inr (Or.inl h))
    · exact Or.inr (Or.inr (Or.inr (p3 ▸ h)))
  · exact Or.inr (Or.inl h)
  · exact Or.inr (Or.inr (Or.inl h))
  · exact Or.inr (Or.inr (Or.inr (p4 ▸ h)))

theorem quit_after_error_delivers (st : Watcher) (err : error_code) :
    ∀ a ∈ delivered (quitMonitoring
        (m_Callback st FsPath.emptyPath none EFileAction.Error err)).trace,
      a ∈ delivered st.trace ∨ a.action = EFileAction.Error ∨
      a.action = EFileAction.Renamed ∨ passesFilter st a.path = true := by
  intro a ha
  rw [quitMonitoring_delivered] at ha
  simp only [m_Callback, delivered_append, delivered_callback, List.mem_append,
    List.mem_singleton] at ha
  rcases ha with ha | ha
  · exact Or.inl ha
  · rw [ha]; exact Or.inr (Or.inl rfl)

theorem processEvent_delivers (st : Watcher) (e : inotify_event) (aw : SysResult) :
    ∀ a ∈ delivered (processEvent st e aw).trace, a ∈ delivered st.trace ∨
      a.action = EFileAction.Error ∨ a.action = EFileAction.Renamed ∨
      passesFilter st a.path = true := by
  unfold processEvent
  split
  · exact quit_after_error_delivers st _
  · simp only []
    have hs : ∃ s1 : Watcher, s1 = (if invalidated e.mask &&
            umap_contains st.m_InternalState.SubdirectoryWatchDescriptors e.wd then
          setSubdirs (osCall st
            (Effect.inotify_rm_watch st.m_InternalState.RootWatchDescriptor e.wd))
            (umap_erase (osCall st
              (Effect.inotify_rm_watch st.m_InternalState.RootWatchDescriptor
                e.wd)).m_InternalState.SubdirectoryWatchDescriptors e.wd)
        else st) ∧ delivered s1.trace = delivered st.trace ∧
        s1.m_ObservedFile = st.m_ObservedFile := by
      refine ⟨_, rfl, ?_, ?_⟩
      · split <;> simp [osCall, setSubdirs, delivered_append]
      · split <;> simp [osCall, setSubdirs]
    obtain ⟨s1, h1, h2, h3⟩ := hs
    rw [← h1]
    intro a ha
    have hp := passesFilter_congr s1 st a.path h3
    split at ha
    · rw [h2] at ha
      exact Or.inl ha
    · rcases handlers_deliver s1 e aw a ha with h | h | h | h
      · rw [h2] at h
        exact Or.inl h
      · exact Or.inr (Or.inl h)
      · exact Or.inr (Or.inr (Or.inl h))
      · exact Or.inr (Or.inr (Or.inr (hp ▸ h)))

theorem step_delivers (st : Watcher) (i : Input) :
    ∀ a ∈ delivered (step st i).trace, a ∈ delivered st.trace ∨
      a.action = EFileAction.Error ∨ a.action = EFileAction.Renamed ∨
      passesFilter st a.path = true := by
  cases i with
  | stop => exact fun a ha => Or.inl ha
  | wake w =>
    simp only [step]
    split
    · exact fun a ha => Or.inl ha
    · unfold loopHead
      split
      · intro a ha
        rw [quitMonitoring_delivered] at ha
        exact Or.inl ha
      · cases w with
        | pollFailed e => exact quit_after_error_delivers st _
        | notReadable => exact fun a ha => Or.inl ha
        | readFailed e => exact quit_after_error_delivers st _
        | readOk => exact fun a ha => Or.inl ha
  | event e aw =>
    simp only [step]
    split
    · exact fun a ha => Or.inl ha
    · exact processEvent_delivers st e aw

theorem run_delivers (st : Watcher) (xs : List Input) :
    ∀ a ∈ delivered (run st xs).trace, a ∈ delivered st.trace ∨
      a.action = EFileAction.Error ∨ a.action = EFileAction.Renamed ∨
      passesFilter st a.path = true := by
  induction xs generalizing st with
  | nil => exact fun a ha => Or.inl ha
  | cons x xs ih =>
    intro a ha
    rw [run_cons] at ha
    have hp := passesFilter_congr (step st x) st a.path (step_static st x).2.2.1
    rcases ih (step st x) a ha with h | h | h | h
    · exact step_delivers st x a h
    · exact Or.inr (Or.inl h)
    · exact Or.inr (Or.inr (Or.inl h))
    · exact Or.inr (Or.inr (Or.inr (hp ▸ h)))

/-- The single-file filter holds for Created, Deleted and Modified events: on
a session filtered to a non-empty file name, whatever the inputs, every such
event delivered by the watcher thread has a path whose filename is the filter. -/
theorem filtered_session_created_deleted_modified (st : Watcher) (xs : List Input)
    (hf : st.m_ObservedFile.empty = false) (h0 : delivered st.trace = [])
    (a : CallbackArgs) (ha : a ∈ delivered (run st xs).trace)
    (hk : a.action = EFileAction.Created ∨ a.action = EFileAction.Deleted ∨
      a.action = EFileAction.Modified) :
    a.path.filename = st.m_ObservedFile := by
  rcases run_delivers st xs a ha with h | h | h | h
  · rw [h0] at h
    cases h
  · rw [h] at hk
    simp at hk
  · rw [h] at hk
    simp at hk
  · simp only [passesFilter, hf, Bool.false_or, beq_iff_eq] at h
    exact h.symm

/-- On the sample session filtered to `x.txt`, the creation of `x.txt` is
delivered and its path has the filter as filename. -/
theorem filtered_session_created_deleted_modified_witness :
    (createdEvent ⟨false, ["D", "x.txt"]⟩).path.filename = demoFiltered.m_ObservedFile :=
  filtered_session_created_deleted_modified demoFiltered
    [Input.wake Wake.readOk, Input.event ⟨1, IN_CREATE, 0, 16, "x.txt"⟩ ⟨0, 0⟩,
      Input.event ⟨1, IN_CREATE, 0, 16, "y.txt"⟩ ⟨0, 0⟩]
    (by decide) (by decide) (createdEvent ⟨false, ["D", "x.txt"]⟩) (by decide)
    (Or.inl rfl)

/-! ### The error of the root is reported once in a session -/

theorem onCreate_errors (st : Watcher) (e : inotify_event) (aw : SysResult) :
    ∀ a ∈ delivered (onCreate st e aw).trace, a ∈ delivered st.trace ∨ a.error ≠ rootDeleted := by
  obtain ⟨-, -, -, -, -, -, -, c8, -, -⟩ := ConstructReturnPath_frame st e.name e.wd
  simp only [onCreate]
  split_ifs <;> intro a ha <;>
    simp only [passesFilter, m_Callback, setSubdirs, osCall, c8, delivered_append,
      delivered_cons_add_watch, delivered_nil, List.append_nil, delivered_callback,
      List.mem_append, List.mem_singleton, rootDeleted, error_code.cleared] at * <;>
    aesop

theorem onDelete_errors (st : Watcher) (e : inotify_event) :
    ∀ a ∈ delivered (onDelete st e).trace, a ∈ delivered st.trace ∨ a.error ≠ rootDeleted := by
  obtain ⟨-, -, -, -, -, -, -, c8, -, -⟩ := ConstructReturnPath_frame st e.name e.wd
  simp only [onDelete]
  split_ifs <;> intro a ha <;>
    simp only [m_Callback, c8, delivered_append, delivered_callback, List.mem_append,
      List.mem_singleton, rootDeleted, error_code.cleared] at * <;>
    aesop

theorem onModify_errors (st : Watcher) (e : inotify_event) :
    ∀ a ∈ delivered (onModify st e).trace, a ∈ delivered st.trace ∨ a.error ≠ rootDeleted := by
  obtain ⟨-, -, -, -, -, -, -, c8, -, -⟩ := ConstructReturnPath_frame st e.name e.wd
  simp only [onModify]
  split_ifs <;> intro a ha <;>
    simp only [m_Callback, c8, delivered_append, delivered_callback, List.mem_append,
      List.mem_singleton, rootDeleted, error_code.cleared] at * <;>
    aesop

theorem onMovedTo_errors (st : Watcher) (e : inotify_event) :
    ∀ a ∈ delivered (onMovedTo st e).trace, a ∈ delivered st.trace ∨ a.error ≠ rootDeleted := by
  obtain ⟨-, -, -, -, -, -, -, c8, -, -⟩ := ConstructReturnPath_frame st e.name e.wd
  simp only [onMovedTo]
  split_ifs <;> intro a ha <;>
    simp only [m_Callback, c8, delivered_append, delivered_callback, List.mem_append,
      List.mem_singleton, rootDeleted, error_code.cleared] at * <;>
    aesop

theorem handlers_errors (st : Watcher) (e : inotify_event) (aw : SysResult) :
    ∀ a ∈ delivered
        (onMovedTo (onMovedFrom (onModify (onDelete (onCreate st e aw) e) e) e) e).trace,
      a ∈ delivered st.trace ∨ a.error ≠ rootDeleted := by
  intro a ha
  rcases onMovedTo_errors _ e a ha with h | h
  · rw [(onMovedFrom_frame _ e).2.2.2.2.2.2.1] at h
    rcases onModify_errors _ e a h with h | h
    · rcases onDelete_errors _ e a h with h | h
      · exact onCreate_errors st e aw a h
      · exact Or.inr h
    · exact Or.inr h
  · exact Or.inr h

theorem processEvent_errors (st : Watcher) (e : inotify_event) (aw : SysResult)
    (hrun : (processEvent st e aw).exited = false) :
    ∀ a ∈ delivered (processEvent st e aw).trace,
      a ∈ delivered st.trace ∨ a.error ≠ rootDeleted := by
  unfold processEvent at hrun ⊢
  split at hrun
  · rw [(quitMonitoring_frame _).2.2.2.2.2.2] at hrun
    cases hrun
  · rename_i hq
    rw [if_neg hq]
    simp only []
    have hs : ∃ s1 : Watcher, s1 = (if invalidated e.mask &&
            umap_contains st.m_InternalState.SubdirectoryWatchDescriptors e.wd then
          setSubdirs (osCall st
            (Effect.inotify_rm_watch st.m_InternalState.RootWatchDescriptor e.wd))
            (umap_erase (osCall st
              (Effect.inotify_rm_watch st.m_InternalState.RootWatchDescriptor
                e.wd)).m_InternalState.SubdirectoryWatchDescriptors e.wd)
        else st) ∧ delivered s1.trace = delivered st.trace := by
      refine ⟨_, rfl, ?_⟩
      split <;> simp [osCall, setSubdirs, delivered_append]
    obtain ⟨s1, h1, h2⟩ := hs
    rw [← h1]
    intro a ha
    split at ha
    · rw [h2] at ha
      exact Or.inl ha
    · rcases handlers_errors s1 e aw a ha with h | h
      · rw [h2] at h
        exact Or.inl h
      · exact Or.inr h

theorem step_errors (st : Watcher) (i : Input) (hrun : (step st i).exited = false) :
    ∀ a ∈ delivered (step st i).trace, a ∈ delivered st.trace ∨ a.error ≠ rootDeleted := by
  cases i with
  | stop => exact fun a ha => Or.inl ha
  | wake w =>
    simp only [step] at hrun ⊢
    split
    · exact fun a ha => Or.inl ha
    · rename_i hx
      rw [if_neg hx] at hrun
      rw [loopHead_keeps st w hrun]
      exact fun a ha => Or.inl ha
  | event e aw =>
    simp only [step] at hrun ⊢
    split
    · exact fun a ha => Or.inl ha
    · rename_i hx
      rw [if_neg hx] at hrun
      exact processEvent_errors st e aw hrun

theorem run_errors (st : Watcher) (xs : List Input) (hrun : (run st xs).exited = false) :
    ∀ a ∈ delivered (run st xs).trace, a ∈ delivered st.trace ∨ a.error ≠ rootDeleted := by
  induction xs generalizing st with
  | nil => exact fun a ha => Or.inl ha
  | cons x xs ih =>
    intro a ha
    rw [run_cons] at hrun ha
    rcases ih (step st x) hrun a ha with h | h
    · exact step_errors st x (run_running _ xs hrun) a h
    · exact Or.inr h

/-- Over a whole session the error of the root is delivered exactly once: the
thread starts with nothing delivered, runs any inputs after which it is still
running and watching, then meets a record flagged `IN_IGNORED`,
`IN_DELETE_SELF` or `IN_MOVE_SELF` on the root watch descriptor; whatever
follows, and whether or not the teardown assertions hold, the events delivered
in the session contain `Error{WatchedDirectoryWasDeleted}` exactly once, as
the last event. -/
theorem root_deleted_reported_once (st : Watcher) (pre rest : List Input)
    (e : inotify_event) (aw : SysResult) (h0 : delivered st.trace = [])
    (hact : (run st pre).exited = false) (hw : (run st pre).m_IsWatching = true)
    (hinv : invalidated e.mask = true)
    (hwd : e.wd = st.m_InternalState.RootWatchDescriptor) :
    delivered (run st (pre ++ Input.event e aw :: rest)).trace =
      delivered (run st pre).trace ++ [errorEvent rootDeleted] ∧
    (delivered (run st (pre ++ Input.event e aw :: rest)).trace).count
      (errorEvent rootDeleted) = 1 := by
  have hs : step (run st pre) (Input.event e aw) =
      quitMonitoring (m_Callback (run st pre) FsPath.emptyPath none EFileAction.Error
        rootDeleted) := by
    rw [step_event _ e aw hact]
    simp [processEvent, hinv, hwd, hw, rootDeleted, (run_static st pre).2.2.2.2]
  have hd : delivered (run st (pre ++ Input.event e aw :: rest)).trace =
      delivered (run st pre).trace ++ [errorEvent rootDeleted] := by
    rw [run_append, run_cons, (run_exited _ rest (by
      rw [hs]; exact (quitMonitoring_frame _).2.2.2.2.2.2)).2, hs, quitMonitoring_delivered]
    simp [m_Callback, delivered_append, errorEvent]
  refine ⟨hd, ?_⟩
  have hnone : (delivered (run st pre).trace).count (errorEvent rootDeleted) = 0 := by
    rw [List.count_eq_zero]
    intro hmem
    rcases run_errors st pre hact _ hmem with h | h
    · rw [h0] at h
      cases h
    · exact h rfl
  rw [hd, List.count_append, hnone]
  simp

/-- On the sample session, after a rename old half that stays unmatched, the
deletion of the root delivers the error of the root exactly once. -/
theorem root_deleted_reported_once_witness :
    (delivered (run demoWatcher
      ([Input.wake Wake.readOk, Input.event ⟨1, IN_MOVED_FROM, 7, 16, "a.txt"⟩ ⟨0, 0⟩,
        Input.wake Wake.readOk] ++
        Input.event ⟨1, IN_DELETE_SELF, 0, 0, ""⟩ ⟨0, 0⟩ ::
          [Input.wake Wake.readOk])).trace).count (errorEvent rootDeleted) = 1 :=
  (root_deleted_reported_once demoWatcher
    [Input.wake Wake.readOk, Input.event ⟨1, IN_MOVED_FROM, 7, 16, "a.txt"⟩ ⟨0, 0⟩,
      Input.wake Wake.readOk] [Input.wake Wake.readOk]
    ⟨1, IN_DELETE_SELF, 0, 0, ""⟩ ⟨0, 0⟩ (by decide) (by decide) (by decide) (by decide)
    (by decide)).2

/-! ### C11: teardown with an unmatched rename -/

/-- Teardown where the assertions hold or are compiled out: `quitMonitoring`
calls `inotify_rm_watch` on the inotify instance for every entry of the watch
set, in order, empties the set, sets `m_IsWatching` to false and fails no
assertion; with `NDEBUG` this is so whatever the pending-rename map holds. -/
theorem teardown_releases_every_watch (st : Watcher)
    (h : st.NDEBUG = true ∨
      (st.renamedFiles = [] ∧ ∀ e ∈ st.m_InternalState.SubdirectoryWatchDescriptors, e.1 ≠ -1)) :
    (quitMonitoring st).trace = st.trace ++
      st.m_InternalState.SubdirectoryWatchDescriptors.map
        (fun e => Effect.inotify_rm_watch st.m_InternalState.InotifyInstance e.1) ∧
    (quitMonitoring st).m_InternalState.SubdirectoryWatchDescriptors = [] ∧
    (quitMonitoring st).m_IsWatching = false ∧
    (quitMonitoring st).exited = true ∧
    (quitMonitoring st).aborted = st.aborted := by
  obtain ⟨c1, c2, c3⟩ := quitMonitoring_clean st h
  refine ⟨?_, c2, c1, (quitMonitoring_frame st).2.2.2.2.2.2, c3⟩
  have h1 : (!st.NDEBUG && !st.renamedFiles.isEmpty) = false := by
    rcases h with h | h
    · simp [h]
    · simp [h.1]
  have h2 := releaseWatches_passes st.NDEBUG st.m_InternalState.InotifyInstance
    st.m_InternalState.SubdirectoryWatchDescriptors (h.imp id (fun h3 => h3.2))
  have h3 := releaseWatches_all st.m_InternalState.InotifyInstance
    st.m_InternalState.SubdirectoryWatchDescriptors st.NDEBUG (h.imp id (fun h3 => h3.2))
  simp [quitMonitoring, h1, h2, h3, setSubdirs]

/-- With the assertions compiled out, the sample session with a subdirectory
watch and an unmatched rename half is torn down in full. -/
theorem teardown_releases_every_watch_witness :
    (quitMonitoring demoUnmatched).trace = demoUnmatched.trace ++
      demoUnmatched.m_InternalState.SubdirectoryWatchDescriptors.map
        (fun e => Effect.inotify_rm_watch demoUnmatched.m_InternalState.InotifyInstance e.1) ∧
    (quitMonitoring demoUnmatched).m_IsWatching = false :=
  have h := teardown_releases_every_watch demoUnmatched (Or.inl rfl)
  ⟨h.1, h.2.2.1⟩

/-- C11 (failing input): assertions compiled in, watching `D` with the
subdirectory `D/sub` under watch-id 2; `D/a.txt` is moved out of the watched
tree (an `IN_MOVED_FROM` record whose new half never comes); then the session
is stopped: the destructor stores false to `m_IsWatching`, the `IN_IGNORED`
record of the removed root watch is read, and the loop head leaves to
`quitMonitoring`. There `assert(renamedFiles.empty())` fails: the process aborts,
no `inotify_rm_watch` is issued for watch-id 2 and the watch set still holds
its entry. The same happens when the loop is left on a failed `read`, with
`m_IsWatching` still true. -/
theorem unmatched_rename_aborts_teardown :
    (WatcherThreadWork demoWithSubdir true
      [Input.wake Wake.readOk,
       Input.event ⟨1, IN_MOVED_FROM, 7, 16, "a.txt"⟩ ⟨0, 0⟩,
       Input.stop,
       Input.wake Wake.readOk,
       Input.event ⟨1, IN_IGNORED, 0, 0, ""⟩ ⟨0, 0⟩]).aborted = true ∧
    (WatcherThreadWork demoWithSubdir true
      [Input.wake Wake.readOk,
       Input.event ⟨1, IN_MOVED_FROM, 7, 16, "a.txt"⟩ ⟨0, 0⟩,
       Input.stop,
       Input.wake Wake.readOk,
       Input.event ⟨1, IN_IGNORED, 0, 0, ""⟩ ⟨0, 0⟩]).trace = [] ∧
    (WatcherThreadWork demoWithSubdir true
      [Input.wake Wake.readOk,
       Input.event ⟨1, IN_MOVED_FROM, 7, 16, "a.txt"⟩ ⟨0, 0⟩,
       Input.stop,
       Input.wake Wake.readOk,
       Input.event ⟨1, IN_IGNORED, 0, 0, ""⟩ ⟨0, 0⟩]).m_InternalState.SubdirectoryWatchDescriptors
      = [(2, ⟨false, ["D", "sub"]⟩)] ∧
    (WatcherThreadWork demoWithSubdir true
      [Input.wake Wake.readOk,
       Input.event ⟨1, IN_MOVED_FROM, 7, 16, "a.txt"⟩ ⟨0, 0⟩,
       Input.wake (Wake.readFailed 5)]).aborted = true ∧
    (WatcherThreadWork demoWithSubdir true
      [Input.wake Wake.readOk,
       Input.event ⟨1, IN_MOVED_FROM, 7, 16, "a.txt"⟩ ⟨0, 0⟩,
       Input.wake (Wake.readFailed 5)]).m_IsWatching = true ∧
    (WatcherThreadWork demoWithSubdir true
      [Input.wake Wake.readOk,
       Input.event ⟨1, IN_MOVED_FROM, 7, 16, "a.txt"⟩ ⟨0, 0⟩,
       Input.wake (Wake.readFailed 5)]).m_InternalState.SubdirectoryWatchDescriptors
      = [(2, ⟨false, ["D", "sub"]⟩)] := by
  decide

/-! ### C12: invalidation of a subdirectory watch -/

theorem umap_erase_mem {κ ν : Type} [DecidableEq κ] (m : List (κ × ν)) (k : κ)
    (x : κ × ν) : x ∈ umap_erase m k ↔ x ∈ m ∧ x.1 ≠ k := by
  induction m with
  | nil => simp [umap_erase]
  | cons e m ih =>
    unfold umap_erase
    by_cases h : e.1 = k
    · rw [if_pos h, ih, List.mem_cons]
      constructor
      · rintro ⟨h1, h2⟩
        exact ⟨Or.inr h1, h2⟩
      · rintro ⟨h1 | h1, h2⟩
        · rw [h1] at h2
          exact absurd h h2
        · exact ⟨h1, h2⟩
    · rw [if_neg h, List.mem_cons, ih, List.mem_cons]
      constructor
      · rintro (h1 | ⟨h1, h2⟩)
        · rw [h1]
          exact ⟨Or.inl rfl, h⟩
        · exact ⟨Or.inr h1, h2⟩
      · rintro ⟨h1 | h1, h2⟩
        · exact Or.inl h1
        · exact Or.inr ⟨h1, h2⟩

/-- What the claim on subdirectory invalidation gets right: a record flagged
`IN_IGNORED`, `IN_DELETE_SELF` or `IN_MOVE_SELF`, carrying no name (or none of
the five event kinds), whose watch-id k is a key of the watch set and is not the
root watch descriptor, makes exactly one system call, an `inotify_rm_watch` for
watch-id k (on the descriptor the source passes, the root watch descriptor),
removes the entries with key k from the watch set and no other entry, delivers
no event and leaves the thread running with `m_IsWatching` as it was. -/
theorem subdirectory_invalidation_is_local (st : Watcher) (e : inotify_event)
    (aw : SysResult) (v : FsPath) (hex : st.exited = false)
    (hinv : invalidated e.mask = true)
    (hkey : umap_find st.m_InternalState.SubdirectoryWatchDescriptors e.wd = some v)
    (hroot : e.wd ≠ st.m_InternalState.RootWatchDescriptor)
    (hkinds : e.len ≠ 0 →
      hasFlag e.mask IN_CREATE = false ∧ hasFlag e.mask IN_DELETE = false ∧
      hasFlag e.mask IN_MODIFY = false ∧ hasFlag e.mask IN_MOVED_FROM = false ∧
      hasFlag e.mask IN_MOVED_TO = false) :
    (step st (Input.event e aw)).trace = st.trace ++
      [Effect.inotify_rm_watch st.m_InternalState.RootWatchDescriptor e.wd] ∧
    (∀ x, x ∈ (step st (Input.event e aw)).m_InternalState.SubdirectoryWatchDescriptors ↔
      x ∈ st.m_InternalState.SubdirectoryWatchDescriptors ∧ x.1 ≠ e.wd) ∧
    umap_find (step st (Input.event e aw)).m_InternalState.SubdirectoryWatchDescriptors e.wd =
      none ∧
    (∀ c, c ≠ e.wd →
      umap_find (step st (Input.event e aw)).m_InternalState.SubdirectoryWatchDescriptors c =
        umap_find st.m_InternalState.SubdirectoryWatchDescriptors c) ∧
    delivered (step st (Input.event e aw)).trace = delivered st.trace ∧
    (step st (Input.event e aw)).exited = false ∧
    (step st (Input.event e aw)).aborted = st.aborted ∧
    (step st (Input.event e aw)).m_IsWatching = st.m_IsWatching ∧
    (step st (Input.event e aw)).renamedFiles = st.renamedFiles := by
  have hr : (st.m_InternalState.RootWatchDescriptor == e.wd) = false := by
    simpa using fun h => hroot h.symm
  have hs : step st (Input.event e aw) =
      setSubdirs (osCall st
        (Effect.inotify_rm_watch st.m_InternalState.RootWatchDescriptor e.wd))
        (umap_erase st.m_InternalState.SubdirectoryWatchDescriptors e.wd) := by
    rw [step_event st e aw hex]
    by_cases hl : e.len = 0
    · simp [processEvent, hinv, hr, umap_contains, hkey, hl, osCall, setSubdirs]
    · obtain ⟨k1, k2, k3, k4, k5⟩ := hkinds hl
      simp [processEvent, hinv, hr, umap_contains, hkey, hl, osCall, setSubdirs, onCreate,
        onDelete, onModify, onMovedFrom, onMovedTo, k1, k2, k3, k4, k5]
  rw [hs]
  refine ⟨rfl, ?_, ?_, ?_, ?_, hex, rfl, rfl, rfl⟩
  · intro x
    exact umap_erase_mem _ e.wd x
  · exact umap_find_erase_same _ e.wd
  · intro c hc
    exact umap_find_erase_other _ e.wd c (fun h => hc h.symm)
  · simp [setSubdirs, osCall, delivered_append]

/-- On the sample session with the subdirectory `D/sub` under watch-id 2, the
`IN_IGNORED` record of watch-id 2 removes the entry and delivers nothing. -/
theorem subdirectory_invalidation_is_local_witness :
    umap_find (step demoWithSubdir
      (Input.event ⟨2, IN_IGNORED, 0, 0, ""⟩ ⟨0, 0⟩)).m_InternalState.SubdirectoryWatchDescriptors
      2 = none ∧
    delivered (step demoWithSubdir (Input.event ⟨2, IN_IGNORED, 0, 0, ""⟩ ⟨0, 0⟩)).trace =
      delivered demoWithSubdir.trace :=
  have h := subdirectory_invalidation_is_local demoWithSubdir ⟨2, IN_IGNORED, 0, 0, ""⟩ ⟨0, 0⟩
    ⟨false, ["D", "sub"]⟩ (by decide) (by decide) (by decide) (by decide)
    (fun hl => absurd rfl hl)
  ⟨h.2.2.1, h.2.2.2.2.1⟩

/-- C12 (failing input): on the sample session (inotify instance 3, root watch
descriptor 1, `D/sub` under watch-id 2) the `IN_IGNORED` record of watch-id 2
makes the one call `inotify_rm_watch(1, 2)`: the first argument is the root
watch descriptor, not the inotify instance 3, so no unregister call is issued
on the session's inotify instance; `quitMonitoring` on the same session does
pass the instance, `inotify_rm_watch(3, 2)`. -/
theorem subdirectory_unregister_uses_root_descriptor :
    (step demoWithSubdir (Input.event ⟨2, IN_IGNORED, 0, 0, ""⟩ ⟨0, 0⟩)).trace =
      [Effect.inotify_rm_watch 1 2] ∧
    Effect.inotify_rm_watch demoWithSubdir.m_InternalState.InotifyInstance 2 ∉
      (step demoWithSubdir (Input.event ⟨2, IN_IGNORED, 0, 0, ""⟩ ⟨0, 0⟩)).trace ∧
    demoWithSubdir.m_InternalState.InotifyInstance = 3 ∧
    (quitMonitoring demoWithSubdir).trace = [Effect.inotify_rm_watch 3 2] := by
  decide

/-! ### C13: the path of a record, by watch-id -/

theorem append_emptyPath_ofName (n : String) :
    FsPath.emptyPath.append (FsPath.ofName n) = FsPath.ofName n := by
  by_cases h : n = ""
  · subst h
    decide
  · simp [FsPath.append, FsPath.ofName, h, FsPath.stem, FsPath.emptyPath]

theorem ConstructReturnPath_absent (st : Watcher) (n : String) (w : Int)
    (h1 : w ≠ st.m_InternalState.RootWatchDescriptor)
    (h2 : umap_find st.m_InternalState.SubdirectoryWatchDescriptors w = none) :
    ConstructReturnPath st n w = (FsPath.emptyPath.append (FsPath.ofName n),
      setSubdirs st ((w, FsPath.emptyPath) :: st.m_InternalState.SubdirectoryWatchDescriptors)) := by
  have h3 : st.m_InternalState.RootWatchDescriptor ≠ w := fun h => h1 h.symm
  simp [ConstructReturnPath, h3, umap_index, h2]

theorem record_on_absent_watch_adds_entry (st : Watcher) (e : inotify_event) (aw : SysResult)
    (hex : st.exited = false) (hl : e.len ≠ 0)
    (hroot : e.wd ≠ st.m_InternalState.RootWatchDescriptor)
    (hnone : umap_find st.m_InternalState.SubdirectoryWatchDescriptors e.wd = none)
    (hk : kindIs e.mask IN_DELETE = true ∨ kindIs e.mask IN_MODIFY = true ∨
      kindIs e.mask IN_MOVED_FROM = true ∨ kindIs e.mask IN_MOVED_TO = true ∨
      (kindIs e.mask IN_CREATE = true ∧ hasFlag e.mask IN_ISDIR = false)) :
    (step st (Input.event e aw)).m_InternalState.SubdirectoryWatchDescriptors =
      (e.wd, FsPath.emptyPath) :: st.m_InternalState.SubdirectoryWatchDescriptors := by
  have hc := ConstructReturnPath_absent st e.name e.wd hroot hnone
  rw [step_event st e aw hex]
  rcases hk with hk | hk | hk | hk | ⟨hk, hdir⟩
  · obtain ⟨a1, a2, a3, a4, a5, a6, a7, a8⟩ := kind_delete hk
    simp only [processEvent, invalidated, onCreate, onDelete, onModify, onMovedFrom, onMovedTo,
      a1, a2, a3, a4, a5, a6, a7, a8, hl, hc, Bool.or_self, Bool.false_and, Bool.false_eq_true,
      if_false, if_true]
    split_ifs <;> simp [setSubdirs, m_Callback]
  · obtain ⟨a1, a2, a3, a4, a5, a6, a7, a8⟩ := kind_modify hk
    simp only [processEvent, invalidated, onCreate, onDelete, onModify, onMovedFrom, onMovedTo,
      a1, a2, a3, a4, a5, a6, a7, a8, hl, hc, Bool.or_self, Bool.false_and, Bool.false_eq_true,
      if_false, if_true]
    split_ifs <;> simp [setSubdirs, m_Callback]
  · obtain ⟨a1, a2, a3, a4, a5, a6, a7, a8⟩ := kind_moved_from hk
    simp [processEvent, invalidated, onCreate, onDelete, onModify, onMovedFrom, onMovedTo,
      a1, a2, a3, a4, a5, a6, a7, a8, hl, hc, setSubdirs]
  · obtain ⟨a1, a2, a3, a4, a5, a6, a7, a8⟩ := kind_moved_to hk
    simp only [processEvent, invalidated, onCreate, onDelete, onModify, onMovedFrom, onMovedTo,
      a1, a2, a3, a4, a5, a6, a7, a8, hl, hc, Bool.or_self, Bool.false_and, Bool.false_eq_true,
      if_false, if_true]
    split_ifs <;> simp [setSubdirs, m_Callback]
  · obtain ⟨a1, a2, a3, a4, a5, a6, a7, a8⟩ := kind_create hk
    simp only [processEvent, invalidated, onCreate, onDelete, onModify, onMovedFrom, onMovedTo,
      a1, a2, a3, a4, a5, a6, a7, a8, hl, hc, hdir, Bool.or_self, Bool.false_and,
      Bool.false_eq_true, if_false, if_true]
    split_ifs <;> simp [setSubdirs, m_Callback]

/-- C13: `ConstructReturnPath` on a name n and a watch-id w. When w is the root
watch descriptor the result is root/n and the state, the watch set with it, is
unchanged. When w is not the root and is a key of the watch set the result is
set[w]/n and the state is unchanged. When w is neither, the result is the empty
path joined with n, which is the bare name n, and the watch set afterwards is
the old one with the entry w -> empty path added: w is a key now, every other
key resolves as before. So a record with a name (Deleted, Modified, rename
half, or Created for a file) that arrives on a watch-id that is neither the
root nor a key leaves the watch set with the entry w -> empty path added. -/
theorem ConstructReturnPath_by_watch_id (st : Watcher) (n : String) (w : Int) :
    (w = st.m_InternalState.RootWatchDescriptor →
      ConstructReturnPath st n w = (st.m_ObservedPath.append (FsPath.ofName n), st)) ∧
    (∀ d, w ≠ st.m_InternalState.RootWatchDescriptor →
      umap_find st.m_InternalState.SubdirectoryWatchDescriptors w = some d →
      ConstructReturnPath st n w = (d.append (FsPath.ofName n), st)) ∧
    (w ≠ st.m_InternalState.RootWatchDescriptor →
      umap_find st.m_InternalState.SubdirectoryWatchDescriptors w = none →
      (ConstructReturnPath st n w).1 = FsPath.emptyPath.append (FsPath.ofName n) ∧
      (ConstructReturnPath st n w).1 = FsPath.ofName n ∧
      (ConstructReturnPath st n w).2 =
        setSubdirs st ((w, FsPath.emptyPath) :: st.m_InternalState.SubdirectoryWatchDescriptors) ∧
      umap_find (ConstructReturnPath st n w).2.m_InternalState.SubdirectoryWatchDescriptors w =
        some FsPath.emptyPath ∧
      (ConstructReturnPath st n w).2.m_InternalState.SubdirectoryWatchDescriptors ≠
        st.m_InternalState.SubdirectoryWatchDescriptors ∧
      (∀ c, c ≠ w →
        umap_find (ConstructReturnPath st n w).2.m_InternalState.SubdirectoryWatchDescriptors c =
          umap_find st.m_InternalState.SubdirectoryWatchDescriptors c) ∧
      ∀ (e : inotify_event) (aw : SysResult), st.exited = false → e.wd = w → e.len ≠ 0 →
        kindIs e.mask IN_DELETE = true ∨ kindIs e.mask IN_MODIFY = true ∨
          kindIs e.mask IN_MOVED_FROM = true ∨ kindIs e.mask IN_MOVED_TO = true ∨
          (kindIs e.mask IN_CREATE = true ∧ hasFlag e.mask IN_ISDIR = false) →
        (step st (Input.event e aw)).m_InternalState.SubdirectoryWatchDescriptors =
          (w, FsPath.emptyPath) :: st.m_InternalState.SubdirectoryWatchDescriptors) := by
  refine ⟨?_, ?_, ?_⟩
  · intro h
    exact ConstructReturnPath_known st n w st.m_ObservedPath (Or.inl ⟨h, rfl⟩)
  · intro d h1 h2
    exact ConstructReturnPath_known st n w d (Or.inr ⟨h1, h2⟩)
  · intro h1 h2
    rw [ConstructReturnPath_absent st n w h1 h2]
    refine ⟨rfl, append_emptyPath_ofName n, rfl, ?_, ?_, ?_, ?_⟩
    · simp [setSubdirs, umap_find]
    · simp [setSubdirs]
    · intro c hc2
      have h4 : ¬ w = c := fun h => hc2 h.symm
      simp [setSubdirs, umap_find, h4]
    · intro e aw hex hwd hl hk
      subst hwd
      exact record_on_absent_watch_adds_entry st e aw hex hl h1 h2 hk

/-- On the sample session with `D/sub` under watch-id 2, the name `f.txt`
resolves to `D/f.txt` on the root watch (1) and to `D/sub/f.txt` on watch-id 2,
the session staying as it is; on the unknown watch-id 9 it resolves to `f.txt`
and the entry 9 -> empty path is added in front of the watch set. -/
theorem ConstructReturnPath_by_watch_id_witness :
    ConstructReturnPath demoWithSubdir "f.txt" 1 = (⟨false, ["D", "f.txt"]⟩, demoWithSubdir) ∧
    ConstructReturnPath demoWithSubdir "f.txt" 2 =
      (⟨false, ["D", "sub", "f.txt"]⟩, demoWithSubdir) ∧
    (ConstructReturnPath demoWithSubdir "f.txt" 9).1 = FsPath.ofName "f.txt" ∧
    (ConstructReturnPath demoWithSubdir "f.txt" 9).2 =
      setSubdirs demoWithSubdir
        ((9, FsPath.emptyPath) :: demoWithSubdir.m_InternalState.SubdirectoryWatchDescriptors) :=
  ⟨(ConstructReturnPath_by_watch_id demoWithSubdir "f.txt" 1).1 (by decide),
    (ConstructReturnPath_by_watch_id demoWithSubdir "f.txt" 2).2.1 ⟨false, ["D", "sub"]⟩
      (by decide) (by decide),
    ((ConstructReturnPath_by_watch_id demoWithSubdir "f.txt" 9).2.2 (by decide) (by decide)).2.1,
    ((ConstructReturnPath_by_watch_id demoWithSubdir "f.txt" 9).2.2 (by decide)
      (by decide)).2.2.1⟩

end Linux

end FileWatcher
